import Mathlib

/-!
# Verification of the citizen-registry sync and duplicate-detection engine

Shallow embedding of the synchronization / identity-reconciliation engine of
the offline-capable civil registry (source files `src/lib/db.ts`,
`src/lib/supabase.ts`, `src/lib/supabaseSync.ts`, `src/lib/validation.ts`).

Modelling conventions:
* JavaScript `Date` values are modelled as `Nat` milliseconds since the epoch.
  `toISOString` followed by `new Date(iso)` is the identity on that
  representation, so ISO strings are modelled by the instant itself.
  `toISOString().split('T')[0]` keeps only the UTC calendar date and
  `new Date("YYYY-MM-DD")` yields midnight UTC of that date, so the remote
  `date_of_birth` column is modelled as the day index `ms / msPerDay`.
* General JavaScript numbers (match scores, latitudes, ages) are modelled by
  `JsNum`, an exact fraction with comparison by cross-multiplication.  Every
  number the engine computes is a small exact value, far inside the range
  where IEEE doubles are exact on these operations up to rounding that never
  crosses the decimal thresholds compared against.
* Local Dexie primary keys are store-assigned integers starting at 1; remote
  identifiers (`crypto.randomUUID()`) are modelled by a session counter that
  yields pairwise-distinct fresh tokens, as UUIDs are assumed collision-free.
* supabase-js never throws on a failed request: every call resolves to a
  `\x7b data, error \x7d` pair.  Remote operations therefore return their
  error as a value; an unreachable remote store makes every remote call
  return `data = none` with an error.  The sync code frequently discards the
  error component, which is modelled by projections that visibly drop it.
-/

/-- Milliseconds per day, used to model `toISOString().split('T')[0]`. -/
def msPerDay : Nat := 86400000

/-- A JavaScript number, modelled as an exact fraction (denominator kept
positive by construction).  No normalisation is performed; comparisons
cross-multiply. -/
structure JsNum where
  num : Int
  den : Int
deriving DecidableEq

/-- Embed a natural number. -/
def JsNum.ofNat (n : Nat) : JsNum := ⟨n, 1⟩

/-- Fraction addition. -/
def JsNum.add (a b : JsNum) : JsNum := ⟨a.num * b.den + b.num * a.den, a.den * b.den⟩

/-- Fraction subtraction. -/
def JsNum.sub (a b : JsNum) : JsNum := ⟨a.num * b.den - b.num * a.den, a.den * b.den⟩

/-- Fraction multiplication. -/
def JsNum.mul (a b : JsNum) : JsNum := ⟨a.num * b.num, a.den * b.den⟩

/-- Fraction division (sign moved to the numerator to keep the denominator
positive). -/
def JsNum.div (a b : JsNum) : JsNum :=
  if b.num < 0 then ⟨-(a.num * b.den), -(a.den * b.num)⟩ else ⟨a.num * b.den, a.den * b.num⟩

/-- `a <= b` by cross-multiplication (denominators are positive). -/
def JsNum.le (a b : JsNum) : Prop := a.num * b.den ≤ b.num * a.den

/-- `a < b` by cross-multiplication (denominators are positive). -/
def JsNum.lt (a b : JsNum) : Prop := a.num * b.den < b.num * a.den

instance (a b : JsNum) : Decidable (JsNum.le a b) := by unfold JsNum.le; infer_instance

instance (a b : JsNum) : Decidable (JsNum.lt a b) := by unfold JsNum.lt; infer_instance

/-- Floor of a fraction (denominator positive). -/
def JsNum.floor (x : JsNum) : Int := Int.fdiv x.num x.den

/-- The rational value of a `JsNum`, for relating computed scores to the
decimal constants of the specification. -/
def JsNum.toRat (x : JsNum) : Rat := (x.num : Rat) / (x.den : Rat)

/-! ## Data model (`src/lib/db.ts` and `src/lib/supabase.ts`) -/

/-- `Omit<Ward, "id">` — the non-key fields of a local Ward (Area). -/
structure WardData where
  code : String
  name : String
  createdAt : Nat
deriving DecidableEq

/-- A local Ward record as stored (Dexie has assigned its `id`). -/
structure Ward extends WardData where
  id : Nat
deriving DecidableEq

/-- `Omit<Village, "id">` — the non-key fields of a local Village (Subarea). -/
structure VillageData where
  wardId : Nat
  code : String
  name : String
  createdAt : Nat
deriving DecidableEq

/-- A local Village record as stored. -/
structure Village extends VillageData where
  id : Nat
deriving DecidableEq

/-- `Omit<Household, "id">` — the non-key fields of a local Household (Unit). -/
structure HouseholdData where
  villageId : Nat
  code : String
  headName : String
  locationDescription : Option String
  latitude : Option JsNum
  longitude : Option JsNum
  createdAt : Nat
  updatedAt : Nat
deriving DecidableEq

/-- A local Household record as stored. -/
structure Household extends HouseholdData where
  id : Nat
deriving DecidableEq

/-- The `sex` field of a Citizen. -/
inductive Sex where
  | male
  | female
deriving DecidableEq

/-- The `disabilityStatus` field of a Citizen. -/
inductive DisabilityStatus where
  | none
  | visual
  | hearing
  | physical
  | intellectual
  | multiple
  | other
deriving DecidableEq

/-- `Omit<Citizen, "id">` — the non-key fields of a local Citizen (Member). -/
structure CitizenData where
  uniqueId : String
  householdId : Nat
  villageId : Nat
  wardId : Nat
  firstName : String
  lastName : String
  otherNames : Option String
  sex : Sex
  dateOfBirth : Option Nat
  age : Option JsNum
  phoneNumber : Option String
  occupation : Option String
  disabilityStatus : DisabilityStatus
  disabilityNotes : Option String
  photoData : Option String
  fingerprintData : Option String
  notes : Option String
  consentGiven : Bool
  consentDate : Option Nat
  recorderName : Option String
  createdAt : Nat
  updatedAt : Nat
deriving DecidableEq

/-- A local Citizen record as stored. -/
structure Citizen extends CitizenData where
  id : Nat
deriving DecidableEq

/-- `Partial<Citizen>` — the candidate record handed to `findDuplicates`.
Only the fields the duplicate detector consults are listed; the remaining
optional fields of `Partial<Citizen>` never influence any behaviour modelled
here. -/
structure CitizenInput where
  firstName : Option String
  lastName : Option String
  phoneNumber : Option String
  dateOfBirth : Option Nat
  householdId : Option Nat
  villageId : Option Nat
deriving DecidableEq

/-! ## Duplicate detection (`src/lib/validation.ts`) -/

/-- `str.toLowerCase().trim()` (ASCII case mapping, whitespace trim). -/
def jsNormalize (s : String) : String :=
  ⟨(((s.data.map Char.toLower).dropWhile Char.isWhitespace).reverse.dropWhile
      Char.isWhitespace).reverse⟩

/-- Inner loop of the Levenshtein dynamic program: given the previous matrix
row, the character `c` = `s1[i-1]`, the remaining characters of `s2`, the
diagonal entry `matrix[i-1][j-1]` and the entry to the left `matrix[i][j-1]`,
produce the remaining entries of row `i`. -/
def levGo (c : Char) : List Char → List Nat → Nat → Nat → List Nat
  | [], _, _, _ => []
  | _ :: _, [], _, _ => []
  | y :: ys, p :: ps, diag, left =>
    let cost : Nat := if c = y then 0 else 1
    let v := min (p + 1) (min (left + 1) (diag + cost))
    v :: levGo c ys ps p v

/-- One row step of the Levenshtein dynamic program
(`matrix[i][0] = i`, then the inner `j` loop). -/
def levNextRow (c : Char) (s2 : List Char) (prev : List Nat) : List Nat :=
  match prev with
  | [] => []
  | p0 :: ps => (p0 + 1) :: levGo c s2 ps p0 (p0 + 1)

/-- The Levenshtein distance as computed by the matrix in `stringSimilarity`
(row 0 is `[0..|s2|]`; each character of `s1` produces the next row; the
answer is `matrix[|s1|][|s2|]`, the last entry of the final row). -/
def levDistance (s1 s2 : List Char) : Nat :=
  let lastRow := s1.foldl (fun prev c => levNextRow c s2 prev) (List.range (s2.length + 1))
  lastRow.getD s2.length 0

/-- `stringSimilarity` — length-normalised Levenshtein similarity on
lower-cased, trimmed strings. -/
def stringSimilarity (str1 str2 : String) : JsNum :=
  let s1 := jsNormalize str1
  let s2 := jsNormalize str2
  if s1 = s2 then JsNum.ofNat 1
  else if s1.length = 0 ∨ s2.length = 0 then JsNum.ofNat 0
  else (JsNum.ofNat 1).sub
    ((JsNum.ofNat (levDistance s1.data s2.data)).div (JsNum.ofNat (max s1.length s2.length)))

/-- `phone.replace(/\D/g, "")` — keep only the digits. -/
def digitsOnly (s : String) : String := ⟨s.data.filter Char.isDigit⟩

/-- `Math.round` on a JavaScript number. -/
def jsRound (x : JsNum) : Int := (x.add ⟨1, 2⟩).floor

/-- The per-candidate accumulator of the `findDuplicates` loop:
`matchReasons`, `totalScore`, `scoreCount`. -/
structure SignalAcc where
  matchReasons : List String
  totalScore : JsNum
  scoreCount : Nat
deriving DecidableEq

/-- Record one contributing signal: push its reason, add its score,
increment the signal count. -/
def addSignal (acc : SignalAcc) (reason : String) (score : JsNum) : SignalAcc :=
  { matchReasons := acc.matchReasons ++ [reason]
    totalScore := acc.totalScore.add score
    scoreCount := acc.scoreCount + 1 }

/-- First-name similarity signal (counted only when similarity `> 0.8`;
a missing or empty string on either side is falsy and skips the check). -/
def checkFirstName (newCitizen : CitizenInput) (existing : Citizen) (acc : SignalAcc) :
    SignalAcc :=
  match newCitizen.firstName with
  | some nf =>
    if nf ≠ "" ∧ existing.firstName ≠ "" then
      let sim := stringSimilarity nf existing.firstName
      if JsNum.lt ⟨8, 10⟩ sim then
        addSignal acc ("First name similar (" ++ toString (jsRound (sim.mul (JsNum.ofNat 100))) ++ "%)") sim
      else acc
    else acc
  | none => acc

/-- Last-name similarity signal. -/
def checkLastName (newCitizen : CitizenInput) (existing : Citizen) (acc : SignalAcc) :
    SignalAcc :=
  match newCitizen.lastName with
  | some nl =>
    if nl ≠ "" ∧ existing.lastName ≠ "" then
      let sim := stringSimilarity nl existing.lastName
      if JsNum.lt ⟨8, 10⟩ sim then
        addSignal acc ("Last name similar (" ++ toString (jsRound (sim.mul (JsNum.ofNat 100))) ++ "%)") sim
      else acc
    else acc
  | none => acc

/-- Exact phone match (digits-only comparison), contributing score 1. -/
def checkPhone (newCitizen : CitizenInput) (existing : Citizen) (acc : SignalAcc) :
    SignalAcc :=
  match newCitizen.phoneNumber, existing.phoneNumber with
  | some np, some ep =>
    if np ≠ "" ∧ ep ≠ "" then
      let cleanNew := digitsOnly np
      let cleanExisting := digitsOnly ep
      if cleanNew = cleanExisting ∧ cleanNew.length > 0 then
        addSignal acc "Same phone number" (JsNum.ofNat 1)
      else acc
    else acc
  | _, _ => acc

/-- Exact birth-date match (calendar-date comparison via `toDateString`),
contributing score 1.  `Date` objects are always truthy, so presence alone
enables the check. -/
def checkDob (newCitizen : CitizenInput) (existing : Citizen) (acc : SignalAcc) :
    SignalAcc :=
  match newCitizen.dateOfBirth, existing.dateOfBirth with
  | some nd, some ed =>
    if nd / msPerDay = ed / msPerDay then addSignal acc "Same date of birth" (JsNum.ofNat 1)
    else acc
  | _, _ => acc

/-- Same-household weak signal, weight 0.5 (an id of 0 is falsy in JS;
Dexie ids start at 1). -/
def checkHousehold (newCitizen : CitizenInput) (existing : Citizen) (acc : SignalAcc) :
    SignalAcc :=
  match newCitizen.householdId with
  | some nh =>
    if nh ≠ 0 ∧ existing.householdId ≠ 0 ∧ nh = existing.householdId then
      addSignal acc "Same household" ⟨1, 2⟩
    else acc
  | none => acc

/-- Same-village weak signal, weight 0.3. -/
def checkVillage (newCitizen : CitizenInput) (existing : Citizen) (acc : SignalAcc) :
    SignalAcc :=
  match newCitizen.villageId with
  | some nv =>
    if nv ≠ 0 ∧ existing.villageId ≠ 0 ∧ nv = existing.villageId then
      addSignal acc "Same village" ⟨3, 10⟩
    else acc
  | none => acc

/-- The whole signal-evaluation body of the `findDuplicates` loop for one
existing citizen, in source order. -/
def scoreCitizen (newCitizen : CitizenInput) (existing : Citizen) : SignalAcc :=
  checkVillage newCitizen existing
    (checkHousehold newCitizen existing
      (checkDob newCitizen existing
        (checkPhone newCitizen existing
          (checkLastName newCitizen existing
            (checkFirstName newCitizen existing ⟨[], JsNum.ofNat 0, 0⟩)))))

/-- One reported duplicate match. -/
structure DuplicateMatch where
  citizen : Citizen
  matchScore : JsNum
  matchReasons : List String
deriving DecidableEq

/-- `findDuplicates` — score every existing citizen against the candidate,
keep those with `matchScore >= threshold` and at least two reasons, and sort
the result descending by score.  The `existingCitizens` parameter stands for
`await db.citizens.toArray()`; the source default threshold is `0.7`. -/
def findDuplicates (newCitizen : CitizenInput) (existingCitizens : List Citizen)
    (threshold : JsNum) : List DuplicateMatch :=
  let duplicates := existingCitizens.foldl
    (fun ds existing =>
      let acc := scoreCitizen newCitizen existing
      if acc.scoreCount > 0 then
        let matchScore := acc.totalScore.div (JsNum.ofNat acc.scoreCount)
        if threshold.le matchScore ∧ acc.matchReasons.length ≥ 2 then
          ds ++ [⟨existing, matchScore, acc.matchReasons⟩]
        else ds
      else ds)
    []
  List.insertionSort (fun a b => JsNum.le b.matchScore a.matchScore) duplicates

/-! ## Remote schema (`src/lib/supabase.ts`)

The `updated_at` column of `wards`/`villages` is never written or read by the
sync engine and is omitted.  Remote identifiers are the `Nat` tokens issued by
the session UUID counter. -/

/-- A remote `wards` row. -/
structure SupabaseWard where
  id : Nat
  code : String
  name : String
  created_at : Nat
deriving DecidableEq

/-- A remote `villages` row. -/
structure SupabaseVillage where
  id : Nat
  ward_id : Nat
  code : String
  name : String
  created_at : Nat
deriving DecidableEq

/-- A remote `households` row. -/
structure SupabaseHousehold where
  id : Nat
  village_id : Nat
  code : String
  head_name : String
  location_description : Option String
  latitude : Option JsNum
  longitude : Option JsNum
  created_at : Nat
  updated_at : Nat
deriving DecidableEq

/-- A remote `citizens` row.  `date_of_birth` is the UTC day index (the
`DATE`-valued column produced by `toISOString().split('T')[0]`). -/
structure SupabaseCitizen where
  id : Nat
  unique_id : String
  household_id : Nat
  village_id : Nat
  ward_id : Nat
  first_name : String
  last_name : String
  other_names : Option String
  sex : Sex
  date_of_birth : Option Nat
  age : Option JsNum
  phone_number : Option String
  occupation : Option String
  disability_status : DisabilityStatus
  disability_notes : Option String
  photo_url : Option String
  fingerprint_url : Option String
  consent_given : Bool
  consent_date : Option Nat
  recorder_name : Option String
  notes : Option String
  created_at : Nat
  updated_at : Nat
  synced_at : Option Nat
  device_id : Option String
deriving DecidableEq

/-! ## Store states -/

/-- The local Dexie database.  `toArray()` returns records in primary-key
order; records are appended with increasing ids, so list order is id order.
The `settings` table (device id, last-sync timestamp) is not modelled; the
device id is provided by the environment. -/
structure LocalState where
  wards : List Ward
  villages : List Village
  households : List Household
  citizens : List Citizen
  nextWardId : Nat
  nextVillageId : Nat
  nextHouseholdId : Nat
  nextCitizenId : Nat
deriving DecidableEq

/-- A fresh local database (Dexie auto-increment keys start at 1). -/
def emptyLocal : LocalState :=
  { wards := [], villages := [], households := [], citizens := []
    nextWardId := 1, nextVillageId := 1, nextHouseholdId := 1, nextCitizenId := 1 }

/-- The remote Supabase project: four tables, two storage buckets (each a
list of `(public url, content)` objects), a reachability flag (false models a
network/remote failure making every request resolve to an error), and
per-bucket health flags for independent attachment-transfer failures. -/
structure RemoteState where
  reachable : Bool
  wards : List SupabaseWard
  villages : List SupabaseVillage
  households : List SupabaseHousehold
  citizens : List SupabaseCitizen
  photos : List (String × String)
  fingerprints : List (String × String)
  photosOk : Bool
  fingerprintsOk : Bool
deriving DecidableEq

/-- A reachable, empty remote project. -/
def emptyRemote : RemoteState :=
  { reachable := true, wards := [], villages := [], households := [], citizens := []
    photos := [], fingerprints := [], photosOk := true, fingerprintsOk := true }

/-- The ambient session environment: `navigator.onLine`, `Date.now()`, the
persisted device id, and the start of the fresh-UUID supply. -/
structure Env where
  online : Bool
  now : Nat
  deviceId : String
  uuidStart : Nat
deriving DecidableEq

/-! ## Session id maps

JavaScript `Map.set` overwrites; consing the new pair and returning the first
match on lookup is observationally the same for `get`. -/

/-- `map.set(k, v)`. -/
def mapSet (m : List (Nat × Nat)) (k v : Nat) : List (Nat × Nat) := (k, v) :: m

/-- `map.get(k)` (`none` = `undefined`). -/
def mapGet (m : List (Nat × Nat)) (k : Nat) : Option Nat :=
  (m.find? (fun p => p.1 == k)).map (fun p => p.2)

/-! ## Local store operations (Dexie) -/

/-- `db.wards.add(data)` — assign the next key, append, return the new id. -/
def localAddWard (ls : LocalState) (d : WardData) : Nat × LocalState :=
  (ls.nextWardId,
    { ls with wards := ls.wards ++ [{ toWardData := d, id := ls.nextWardId }]
              nextWardId := ls.nextWardId + 1 })

/-- `db.wards.update(id, data)` — replace the non-key fields of the record
with primary key `id` (the converters list every property, an `undefined`
value clearing the field). -/
def localUpdateWard (ls : LocalState) (id : Nat) (d : WardData) : LocalState :=
  { ls with wards := ls.wards.map (fun w => if w.id = id then { toWardData := d, id := w.id } else w) }

/-- `db.villages.add(data)`. -/
def localAddVillage (ls : LocalState) (d : VillageData) : Nat × LocalState :=
  (ls.nextVillageId,
    { ls with villages := ls.villages ++ [{ toVillageData := d, id := ls.nextVillageId }]
              nextVillageId := ls.nextVillageId + 1 })

/-- `db.villages.update(id, data)`. -/
def localUpdateVillage (ls : LocalState) (id : Nat) (d : VillageData) : LocalState :=
  { ls with villages := ls.villages.map (fun v => if v.id = id then { toVillageData := d, id := v.id } else v) }

/-- `db.households.add(data)`. -/
def localAddHousehold (ls : LocalState) (d : HouseholdData) : Nat × LocalState :=
  (ls.nextHouseholdId,
    { ls with households := ls.households ++ [{ toHouseholdData := d, id := ls.nextHouseholdId }]
              nextHouseholdId := ls.nextHouseholdId + 1 })

/-- `db.households.update(id, data)`. -/
def localUpdateHousehold (ls : LocalState) (id : Nat) (d : HouseholdData) : LocalState :=
  { ls with households := ls.households.map (fun h => if h.id = id then { toHouseholdData := d, id := h.id } else h) }

/-- `db.citizens.add(data)`. -/
def localAddCitizen (ls : LocalState) (d : CitizenData) : Nat × LocalState :=
  (ls.nextCitizenId,
    { ls with citizens := ls.citizens ++ [{ toCitizenData := d, id := ls.nextCitizenId }]
              nextCitizenId := ls.nextCitizenId + 1 })

/-- `db.citizens.update(id, data)`. -/
def localUpdateCitizen (ls : LocalState) (id : Nat) (d : CitizenData) : LocalState :=
  { ls with citizens := ls.citizens.map (fun c => if c.id = id then { toCitizenData := d, id := c.id } else c) }

/-! ## Remote store operations (supabase-js / PostgREST)

Every operation resolves to a `(data, error)`-style pair and never throws.
`.single()` yields a row exactly when the filter matches one row, and an
error (with `data = null`) otherwise.  When the remote store is unreachable
every request resolves to an error. -/

/-- `supabase.from('wards').select('id').eq('code', code).single()` —
the matched row id, or `none` (the callers discard the error component). -/
def remoteSelectWardId (r : RemoteState) (code : String) : Option Nat :=
  if r.reachable then
    match r.wards.filter (fun w => w.code == code) with
    | [w] => some w.id
    | _ => none
  else none

/-- `supabase.from('villages').select('id').eq('code', code).single()`. -/
def remoteSelectVillageId (r : RemoteState) (code : String) : Option Nat :=
  if r.reachable then
    match r.villages.filter (fun v => v.code == code) with
    | [v] => some v.id
    | _ => none
  else none

/-- `supabase.from('households').select('id').eq('code', code).single()`. -/
def remoteSelectHouseholdId (r : RemoteState) (code : String) : Option Nat :=
  if r.reachable then
    match r.households.filter (fun h => h.code == code) with
    | [h] => some h.id
    | _ => none
  else none

/-- `supabase.from('citizens').select('id').eq('unique_id', uid).single()`. -/
def remoteSelectCitizenId (r : RemoteState) (uid : String) : Option Nat :=
  if r.reachable then
    match r.citizens.filter (fun c => c.unique_id == uid) with
    | [c] => some c.id
    | _ => none
  else none

/-- `supabase.from('wards').insert(row)` — state and error value. -/
def remoteInsertWard (r : RemoteState) (w : SupabaseWard) : RemoteState × Option String :=
  if r.reachable then ({ r with wards := r.wards ++ [w] }, none)
  else (r, some "TypeError: Failed to fetch")

/-- `supabase.from('wards').update(row).eq('id', id)` — the row carries every
column, so the matched row is replaced wholesale. -/
def remoteUpdateWard (r : RemoteState) (id : Nat) (w : SupabaseWard) : RemoteState × Option String :=
  if r.reachable then
    ({ r with wards := r.wards.map (fun rw => if rw.id = id then w else rw) }, none)
  else (r, some "TypeError: Failed to fetch")

/-- `supabase.from('villages').insert(row)`. -/
def remoteInsertVillage (r : RemoteState) (v : SupabaseVillage) : RemoteState × Option String :=
  if r.reachable then ({ r with villages := r.villages ++ [v] }, none)
  else (r, some "TypeError: Failed to fetch")

/-- `supabase.from('villages').update(row).eq('id', id)`. -/
def remoteUpdateVillage (r : RemoteState) (id : Nat) (v : SupabaseVillage) : RemoteState × Option String :=
  if r.reachable then
    ({ r with villages := r.villages.map (fun rv => if rv.id = id then v else rv) }, none)
  else (r, some "TypeError: Failed to fetch")

/-- `undefined` object properties are dropped from the JSON request body, so
an update leaves the corresponding column untouched; a present value
overwrites it. -/
def updCol (newVal oldVal : Option α) : Option α :=
  match newVal with
  | some v => some v
  | none => oldVal

/-- Column-wise effect of `update(householdRow)` on the matched row
(optional columns with `undefined` values are left untouched). -/
def mergeHouseholdRow (old row : SupabaseHousehold) : SupabaseHousehold :=
  { id := row.id, village_id := row.village_id, code := row.code
    head_name := row.head_name
    location_description := updCol row.location_description old.location_description
    latitude := updCol row.latitude old.latitude
    longitude := updCol row.longitude old.longitude
    created_at := row.created_at, updated_at := row.updated_at }

/-- `supabase.from('households').insert(row)`. -/
def remoteInsertHousehold (r : RemoteState) (h : SupabaseHousehold) : RemoteState × Option String :=
  if r.reachable then ({ r with households := r.households ++ [h] }, none)
  else (r, some "TypeError: Failed to fetch")

/-- `supabase.from('households').update(row).eq('id', id)`. -/
def remoteUpdateHousehold (r : RemoteState) (id : Nat) (h : SupabaseHousehold) :
    RemoteState × Option String :=
  if r.reachable then
    ({ r with households := r.households.map (fun rh => if rh.id = id then mergeHouseholdRow rh h else rh) }, none)
  else (r, some "TypeError: Failed to fetch")

/-- Column-wise effect of `update(citizenRow)` on the matched row. -/
def mergeCitizenRow (old row : SupabaseCitizen) : SupabaseCitizen :=
  { id := row.id, unique_id := row.unique_id, household_id := row.household_id
    village_id := row.village_id, ward_id := row.ward_id
    first_name := row.first_name, last_name := row.last_name
    other_names := updCol row.other_names old.other_names
    sex := row.sex
    date_of_birth := updCol row.date_of_birth old.date_of_birth
    age := updCol row.age old.age
    phone_number := updCol row.phone_number old.phone_number
    occupation := updCol row.occupation old.occupation
    disability_status := row.disability_status
    disability_notes := updCol row.disability_notes old.disability_notes
    photo_url := updCol row.photo_url old.photo_url
    fingerprint_url := updCol row.fingerprint_url old.fingerprint_url
    consent_given := row.consent_given
    consent_date := updCol row.consent_date old.consent_date
    recorder_name := updCol row.recorder_name old.recorder_name
    notes := updCol row.notes old.notes
    created_at := row.created_at, updated_at := row.updated_at
    synced_at := updCol row.synced_at old.synced_at
    device_id := updCol row.device_id old.device_id }

/-- `supabase.from('citizens').insert(row)`. -/
def remoteInsertCitizen (r : RemoteState) (c : SupabaseCitizen) : RemoteState × Option String :=
  if r.reachable then ({ r with citizens := r.citizens ++ [c] }, none)
  else (r, some "TypeError: Failed to fetch")

/-- `supabase.from('citizens').update(row).eq('id', id)`. -/
def remoteUpdateCitizen (r : RemoteState) (id : Nat) (c : SupabaseCitizen) :
    RemoteState × Option String :=
  if r.reachable then
    ({ r with citizens := r.citizens.map (fun rc => if rc.id = id then mergeCitizenRow rc c else rc) }, none)
  else (r, some "TypeError: Failed to fetch")

/-- `select('*').order('created_at', ascending)` on `wards` — the rows sorted
by creation time, or an error when the remote is unreachable. -/
def remoteFetchWards (r : RemoteState) : Option (List SupabaseWard) :=
  if r.reachable then
    some (List.insertionSort (fun a b => a.created_at ≤ b.created_at) r.wards)
  else none

/-- Ordered fetch of `villages`. -/
def remoteFetchVillages (r : RemoteState) : Option (List SupabaseVillage) :=
  if r.reachable then
    some (List.insertionSort (fun a b => a.created_at ≤ b.created_at) r.villages)
  else none

/-- Ordered fetch of `households`. -/
def remoteFetchHouseholds (r : RemoteState) : Option (List SupabaseHousehold) :=
  if r.reachable then
    some (List.insertionSort (fun a b => a.created_at ≤ b.created_at) r.households)
  else none

/-- Ordered fetch of `citizens`. -/
def remoteFetchCitizens (r : RemoteState) : Option (List SupabaseCitizen) :=
  if r.reachable then
    some (List.insertionSort (fun a b => a.created_at ≤ b.created_at) r.citizens)
  else none

/-! ## Attachment transfer (`uploadPhotoToStorage` and friends) -/

/-- The public URL of a photo object (file name is owner id + timestamp). -/
def photoUrlFor (citizenId : String) (now : Nat) : String :=
  "citizen-photos/" ++ citizenId ++ "-" ++ toString now ++ ".jpg"

/-- The public URL of a fingerprint object. -/
def fingerprintUrlFor (citizenId : String) (now : Nat) : String :=
  "citizen-fingerprints/" ++ citizenId ++ "-" ++ toString now ++ ".jpg"

/-- `uploadPhotoToStorage` — store the decoded bytes under a fresh
timestamped object name (`upsert: true`) and return the public URL, or
`null` on any failure (all failures are caught inside the helper). -/
def uploadPhotoToStorage (env : Env) (r : RemoteState) (photoData : String)
    (citizenId : String) : Option String × RemoteState :=
  if r.reachable && r.photosOk then
    let url := photoUrlFor citizenId env.now
    (some url, { r with photos := (url, photoData) :: r.photos.filter (fun p => p.1 != url) })
  else (none, r)

/-- `uploadFingerprintToStorage`. -/
def uploadFingerprintToStorage (env : Env) (r : RemoteState) (fingerprintData : String)
    (citizenId : String) : Option String × RemoteState :=
  if r.reachable && r.fingerprintsOk then
    let url := fingerprintUrlFor citizenId env.now
    (some url, { r with fingerprints := (url, fingerprintData) :: r.fingerprints.filter (fun p => p.1 != url) })
  else (none, r)

/-- `downloadPhotoFromStorage` — fetch the object and re-encode it as a data
URL; `null` on failure. -/
def downloadPhotoFromStorage (r : RemoteState) (url : String) : Option String :=
  if r.reachable && r.photosOk then (r.photos.find? (fun p => p.1 == url)).map (fun p => p.2)
  else none

/-- `downloadFingerprintFromStorage`. -/
def downloadFingerprintFromStorage (r : RemoteState) (url : String) : Option String :=
  if r.reachable && r.fingerprintsOk then (r.fingerprints.find? (fun p => p.1 == url)).map (fun p => p.2)
  else none

/-! ## Converters (`supabaseSync.ts`)

`existingId || crypto.randomUUID()` is modelled by `existingId.getD freshId`
with `freshId` drawn from the session UUID counter (which only advances when
no existing id was found, i.e. exactly when `crypto.randomUUID()` runs). -/

/-- `wardToSupabase`. -/
def wardToSupabase (ward : Ward) (existingId : Option Nat) (freshId : Nat) : SupabaseWard :=
  { id := existingId.getD freshId
    code := ward.code
    name := ward.name
    created_at := ward.createdAt }

/-- `supabaseToWard` — `Omit<Ward, "id">`. -/
def supabaseToWard (ward : SupabaseWard) : WardData :=
  { code := ward.code
    name := ward.name
    createdAt := ward.created_at }

/-- `villageToSupabase`. -/
def villageToSupabase (village : Village) (wardUuid : Nat) (existingId : Option Nat)
    (freshId : Nat) : SupabaseVillage :=
  { id := existingId.getD freshId
    ward_id := wardUuid
    code := village.code
    name := village.name
    created_at := village.createdAt }

/-- `supabaseToVillage`. -/
def supabaseToVillage (village : SupabaseVillage) (localWardId : Nat) : VillageData :=
  { wardId := localWardId
    code := village.code
    name := village.name
    createdAt := village.created_at }

/-- `householdToSupabase`. -/
def householdToSupabase (household : Household) (villageUuid : Nat) (existingId : Option Nat)
    (freshId : Nat) : SupabaseHousehold :=
  { id := existingId.getD freshId
    village_id := villageUuid
    code := household.code
    head_name := household.headName
    location_description := household.locationDescription
    latitude := household.latitude
    longitude := household.longitude
    created_at := household.createdAt
    updated_at := household.updatedAt }

/-- `supabaseToHousehold`. -/
def supabaseToHousehold (household : SupabaseHousehold) (localVillageId : Nat) : HouseholdData :=
  { villageId := localVillageId
    code := household.code
    headName := household.head_name
    locationDescription := household.location_description
    latitude := household.latitude
    longitude := household.longitude
    createdAt := household.created_at
    updatedAt := household.updated_at }

/-- `citizenToSupabase` — photos and fingerprints are handled separately
(`photo_url`/`fingerprint_url` start out `undefined`); `synced_at` is the
time of this sync and `device_id` the persisted device identity. -/
def citizenToSupabase (env : Env) (citizen : Citizen) (householdUuid villageUuid wardUuid : Nat)
    (existingId : Option Nat) (freshId : Nat) : SupabaseCitizen :=
  { id := existingId.getD freshId
    unique_id := citizen.uniqueId
    household_id := householdUuid
    village_id := villageUuid
    ward_id := wardUuid
    first_name := citizen.firstName
    last_name := citizen.lastName
    other_names := citizen.otherNames
    sex := citizen.sex
    date_of_birth := citizen.dateOfBirth.map (fun d => d / msPerDay)
    age := citizen.age
    phone_number := citizen.phoneNumber
    occupation := citizen.occupation
    disability_status := citizen.disabilityStatus
    disability_notes := citizen.disabilityNotes
    photo_url := none
    fingerprint_url := none
    consent_given := citizen.consentGiven
    consent_date := citizen.consentDate
    recorder_name := citizen.recorderName
    notes := citizen.notes
    created_at := citizen.createdAt
    updated_at := citizen.updatedAt
    synced_at := some env.now
    device_id := some env.deviceId }

/-- `supabaseToCitizen` — photos and fingerprints are handled separately;
`new Date(date_of_birth)` turns the stored calendar date back into midnight
UTC of that day. -/
def supabaseToCitizen (citizen : SupabaseCitizen) (localHouseholdId localVillageId localWardId : Nat) :
    CitizenData :=
  { uniqueId := citizen.unique_id
    householdId := localHouseholdId
    villageId := localVillageId
    wardId := localWardId
    firstName := citizen.first_name
    lastName := citizen.last_name
    otherNames := citizen.other_names
    sex := citizen.sex
    dateOfBirth := citizen.date_of_birth.map (fun day => day * msPerDay)
    age := citizen.age
    phoneNumber := citizen.phone_number
    occupation := citizen.occupation
    disabilityStatus := citizen.disability_status
    disabilityNotes := citizen.disability_notes
    photoData := none
    fingerprintData := none
    notes := citizen.notes
    consentGiven := citizen.consent_given
    consentDate := citizen.consent_date
    recorderName := citizen.recorder_name
    createdAt := citizen.created_at
    updatedAt := citizen.updated_at }

/-! ## Upload (`syncToSupabase`) -/

/-- Per-type counters of a `SyncResult`. -/
structure SyncCounts where
  wards : Nat
  villages : Nat
  households : Nat
  citizens : Nat
deriving DecidableEq

/-- The aggregated result of a sync run. -/
structure SyncResult where
  success : Bool
  uploaded : SyncCounts
  downloaded : SyncCounts
  errors : List String
deriving DecidableEq

/-- The running state of an upload session: the evolving remote store, the
three session id maps (local id to remote UUID), the fresh-UUID counter, the
per-type counters and the error list. -/
structure UpState where
  remote : RemoteState
  wardIdMap : List (Nat × Nat)
  villageIdMap : List (Nat × Nat)
  householdIdMap : List (Nat × Nat)
  uuid : Nat
  upWards : Nat
  upVillages : Nat
  upHouseholds : Nat
  upCitizens : Nat
  errors : List String
deriving DecidableEq

/-- One iteration of the `UPLOAD WARDS` loop.  The lookup error and the
insert/update results are discarded by the source (`.1` below); nothing in
the body can throw, so the per-record `catch` is dead for wards. -/
def uploadWardStep (st : UpState) (ward : Ward) : UpState :=
  let existing := remoteSelectWardId st.remote ward.code
  let supabaseWard := wardToSupabase ward existing st.uuid
  let uuidNext := if existing.isSome then st.uuid else st.uuid + 1
  let remoteNext :=
    match existing with
    | some eid => (remoteUpdateWard st.remote eid supabaseWard).1
    | none => (remoteInsertWard st.remote supabaseWard).1
  { st with remote := remoteNext
            uuid := uuidNext
            wardIdMap := mapSet st.wardIdMap ward.id supabaseWard.id
            upWards := st.upWards + 1 }

/-- One iteration of the `UPLOAD VILLAGES` loop: a village whose ward id is
absent from the session map is skipped with a per-record error. -/
def uploadVillageStep (st : UpState) (village : Village) : UpState :=
  match mapGet st.wardIdMap village.wardId with
  | none =>
    { st with errors := st.errors ++ ["Village " ++ village.code ++ ": Ward not found"] }
  | some wardUuid =>
    let existing := remoteSelectVillageId st.remote village.code
    let supabaseVillage := villageToSupabase village wardUuid existing st.uuid
    let uuidNext := if existing.isSome then st.uuid else st.uuid + 1
    let remoteNext :=
      match existing with
      | some eid => (remoteUpdateVillage st.remote eid supabaseVillage).1
      | none => (remoteInsertVillage st.remote supabaseVillage).1
    { st with remote := remoteNext
              uuid := uuidNext
              villageIdMap := mapSet st.villageIdMap village.id supabaseVillage.id
              upVillages := st.upVillages + 1 }

/-- One iteration of the `UPLOAD HOUSEHOLDS` loop. -/
def uploadHouseholdStep (st : UpState) (household : Household) : UpState :=
  match mapGet st.villageIdMap household.villageId with
  | none =>
    { st with errors := st.errors ++ ["Household " ++ household.code ++ ": Village not found"] }
  | some villageUuid =>
    let existing := remoteSelectHouseholdId st.remote household.code
    let supabaseHousehold := householdToSupabase household villageUuid existing st.uuid
    let uuidNext := if existing.isSome then st.uuid else st.uuid + 1
    let remoteNext :=
      match existing with
      | some eid => (remoteUpdateHousehold st.remote eid supabaseHousehold).1
      | none => (remoteInsertHousehold st.remote supabaseHousehold).1
    { st with remote := remoteNext
              uuid := uuidNext
              householdIdMap := mapSet st.householdIdMap household.id supabaseHousehold.id
              upHouseholds := st.upHouseholds + 1 }

/-- One iteration of the `UPLOAD CITIZENS` loop: all three ancestor ids must
be mapped; the photo then the fingerprint are uploaded (failures leave the
corresponding URL unset and are not recorded); finally the row is written. -/
def uploadCitizenStep (env : Env) (st : UpState) (citizen : Citizen) : UpState :=
  match mapGet st.householdIdMap citizen.householdId,
        mapGet st.villageIdMap citizen.villageId,
        mapGet st.wardIdMap citizen.wardId with
  | some householdUuid, some villageUuid, some wardUuid =>
    let existing := remoteSelectCitizenId st.remote citizen.uniqueId
    let base := citizenToSupabase env citizen householdUuid villageUuid wardUuid existing st.uuid
    let uuidNext := if existing.isSome then st.uuid else st.uuid + 1
    let photoRes :=
      match citizen.photoData with
      | none => (none, st.remote)
      | some photoData => uploadPhotoToStorage env st.remote photoData citizen.uniqueId
    let sc1 := { base with photo_url := updCol photoRes.1 base.photo_url }
    let fingerprintRes :=
      match citizen.fingerprintData with
      | none => (none, photoRes.2)
      | some fingerprintData =>
        uploadFingerprintToStorage env photoRes.2 fingerprintData citizen.uniqueId
    let sc2 := { sc1 with fingerprint_url := updCol fingerprintRes.1 sc1.fingerprint_url }
    let remoteNext :=
      match existing with
      | some eid => (remoteUpdateCitizen fingerprintRes.2 eid sc2).1
      | none => (remoteInsertCitizen fingerprintRes.2 sc2).1
    { st with remote := remoteNext
              uuid := uuidNext
              upCitizens := st.upCitizens + 1 }
  | _, _, _ =>
    { st with errors := st.errors ++ ["Citizen " ++ citizen.uniqueId ++ ": Missing parent records"] }

/-- The `UPLOAD WARDS` phase. -/
def uploadWards (st : UpState) (wards : List Ward) : UpState :=
  wards.foldl uploadWardStep st

/-- The `UPLOAD VILLAGES` phase. -/
def uploadVillages (st : UpState) (villages : List Village) : UpState :=
  villages.foldl uploadVillageStep st

/-- The `UPLOAD HOUSEHOLDS` phase. -/
def uploadHouseholds (st : UpState) (households : List Household) : UpState :=
  households.foldl uploadHouseholdStep st

/-- The `UPLOAD CITIZENS` phase. -/
def uploadCitizens (env : Env) (st : UpState) (citizens : List Citizen) : UpState :=
  citizens.foldl (uploadCitizenStep env) st

/-- The initial upload session state over a given remote store. -/
def initUpState (env : Env) (r : RemoteState) : UpState :=
  { remote := r, wardIdMap := [], villageIdMap := [], householdIdMap := []
    uuid := env.uuidStart, upWards := 0, upVillages := 0, upHouseholds := 0
    upCitizens := 0, errors := [] }

/-- `syncToSupabase` — the upload entry point.  The only connectivity check
is `navigator.onLine`; its failure throws before any record is processed and
is caught by the top-level handler, which reports a single fatal error with
zero counters.  Otherwise all four tiers run and `success` is
`errors.length === 0`. -/
def syncToSupabase (env : Env) (ls : LocalState) (r : RemoteState) : SyncResult × RemoteState :=
  if env.online then
    let st1 := uploadWards (initUpState env r) ls.wards
    let st2 := uploadVillages st1 ls.villages
    let st3 := uploadHouseholds st2 ls.households
    let st4 := uploadCitizens env st3 ls.citizens
    ({ success := st4.errors.isEmpty
       uploaded := ⟨st4.upWards, st4.upVillages, st4.upHouseholds, st4.upCitizens⟩
       downloaded := ⟨0, 0, 0, 0⟩
       errors := st4.errors }, st4.remote)
  else
    ({ success := false
       uploaded := ⟨0, 0, 0, 0⟩
       downloaded := ⟨0, 0, 0, 0⟩
       errors := ["Sync failed: Error: No internet connection"] }, r)

/-! ## Download (`restoreFromSupabase`) -/

/-- The running state of a download session: the evolving local store, the
three UUID-to-local-id maps, the per-type counters and the error list. -/
structure DnState where
  localSt : LocalState
  wardUuidToLocalId : List (Nat × Nat)
  villageUuidToLocalId : List (Nat × Nat)
  householdUuidToLocalId : List (Nat × Nat)
  dnWards : Nat
  dnVillages : Nat
  dnHouseholds : Nat
  dnCitizens : Nat
  errors : List String
deriving DecidableEq

/-- One iteration of the `DOWNLOAD WARDS` loop: match by code
(`where('code').equals(..).first()`), update in place or add, record the
UUID-to-local-id mapping.  `add` always returns a key, so the
`newId === undefined` throw is dead code. -/
def downloadWardStep (st : DnState) (ward : SupabaseWard) : DnState :=
  let existing := st.localSt.wards.find? (fun w => w.code == ward.code)
  let localWard := supabaseToWard ward
  match existing with
  | some e =>
    { st with localSt := localUpdateWard st.localSt e.id localWard
              wardUuidToLocalId := mapSet st.wardUuidToLocalId ward.id e.id
              dnWards := st.dnWards + 1 }
  | none =>
    let added := localAddWard st.localSt localWard
    { st with localSt := added.2
              wardUuidToLocalId := mapSet st.wardUuidToLocalId ward.id added.1
              dnWards := st.dnWards + 1 }

/-- One iteration of the `DOWNLOAD VILLAGES` loop: the parent ward UUID must
already be mapped (`!localWardId` is falsy only for `undefined` here since
Dexie keys start at 1), otherwise the village is skipped with an error. -/
def downloadVillageStep (st : DnState) (village : SupabaseVillage) : DnState :=
  match mapGet st.wardUuidToLocalId village.ward_id with
  | none =>
    { st with errors := st.errors ++ ["Village " ++ village.code ++ ": Ward not found locally"] }
  | some localWardId =>
    let existing := st.localSt.villages.find? (fun v => v.code == village.code)
    let localVillage := supabaseToVillage village localWardId
    match existing with
    | some e =>
      { st with localSt := localUpdateVillage st.localSt e.id localVillage
                villageUuidToLocalId := mapSet st.villageUuidToLocalId village.id e.id
                dnVillages := st.dnVillages + 1 }
    | none =>
      let added := localAddVillage st.localSt localVillage
      { st with localSt := added.2
                villageUuidToLocalId := mapSet st.villageUuidToLocalId village.id added.1
                dnVillages := st.dnVillages + 1 }

/-- One iteration of the `DOWNLOAD HOUSEHOLDS` loop. -/
def downloadHouseholdStep (st : DnState) (household : SupabaseHousehold) : DnState :=
  match mapGet st.villageUuidToLocalId household.village_id with
  | none =>
    { st with errors := st.errors ++ ["Household " ++ household.code ++ ": Village not found locally"] }
  | some localVillageId =>
    let existing := st.localSt.households.find? (fun h => h.code == household.code)
    let localHousehold := supabaseToHousehold household localVillageId
    match existing with
    | some e =>
      { st with localSt := localUpdateHousehold st.localSt e.id localHousehold
                householdUuidToLocalId := mapSet st.householdUuidToLocalId household.id e.id
                dnHouseholds := st.dnHouseholds + 1 }
    | none =>
      let added := localAddHousehold st.localSt localHousehold
      { st with localSt := added.2
                householdUuidToLocalId := mapSet st.householdUuidToLocalId household.id added.1
                dnHouseholds := st.dnHouseholds + 1 }

/-- One iteration of the `DOWNLOAD CITIZENS` loop: all three ancestor UUIDs
must be mapped; the photo and fingerprint blobs are fetched (a failure leaves
the local attachment unset and is not recorded); then upsert by `uniqueId`. -/
def downloadCitizenStep (r : RemoteState) (st : DnState) (citizen : SupabaseCitizen) : DnState :=
  match mapGet st.householdUuidToLocalId citizen.household_id,
        mapGet st.villageUuidToLocalId citizen.village_id,
        mapGet st.wardUuidToLocalId citizen.ward_id with
  | some localHouseholdId, some localVillageId, some localWardId =>
    let existing := st.localSt.citizens.find? (fun c => c.uniqueId == citizen.unique_id)
    let base := supabaseToCitizen citizen localHouseholdId localVillageId localWardId
    let withPhoto :=
      match citizen.photo_url with
      | none => base
      | some url =>
        match downloadPhotoFromStorage r url with
        | some photoData => { base with photoData := some photoData }
        | none => base
    let localCitizen :=
      match citizen.fingerprint_url with
      | none => withPhoto
      | some url =>
        match downloadFingerprintFromStorage r url with
        | some fingerprintData => { withPhoto with fingerprintData := some fingerprintData }
        | none => withPhoto
    match existing with
    | some e =>
      { st with localSt := localUpdateCitizen st.localSt e.id localCitizen
                dnCitizens := st.dnCitizens + 1 }
    | none =>
      let added := localAddCitizen st.localSt localCitizen
      { st with localSt := added.2
                dnCitizens := st.dnCitizens + 1 }
  | _, _, _ =>
    { st with errors := st.errors ++ ["Citizen " ++ citizen.unique_id ++ ": Missing parent records"] }

/-- The `DOWNLOAD WARDS` phase: a failed fetch records one error and skips
the loop (the later phases still run). -/
def downloadWards (r : RemoteState) (st : DnState) : DnState :=
  match remoteFetchWards r with
  | none => { st with errors := st.errors ++ ["Failed to fetch wards: TypeError: Failed to fetch"] }
  | some rows => rows.foldl downloadWardStep st

/-- The `DOWNLOAD VILLAGES` phase. -/
def downloadVillages (r : RemoteState) (st : DnState) : DnState :=
  match remoteFetchVillages r with
  | none => { st with errors := st.errors ++ ["Failed to fetch villages: TypeError: Failed to fetch"] }
  | some rows => rows.foldl downloadVillageStep st

/-- The `DOWNLOAD HOUSEHOLDS` phase. -/
def downloadHouseholds (r : RemoteState) (st : DnState) : DnState :=
  match remoteFetchHouseholds r with
  | none => { st with errors := st.errors ++ ["Failed to fetch households: TypeError: Failed to fetch"] }
  | some rows => rows.foldl downloadHouseholdStep st

/-- The `DOWNLOAD CITIZENS` phase. -/
def downloadCitizens (r : RemoteState) (st : DnState) : DnState :=
  match remoteFetchCitizens r with
  | none => { st with errors := st.errors ++ ["Failed to fetch citizens: TypeError: Failed to fetch"] }
  | some rows => rows.foldl (downloadCitizenStep r) st

/-- The initial download session state over a given local store. -/
def initDnState (ls : LocalState) : DnState :=
  { localSt := ls, wardUuidToLocalId := [], villageUuidToLocalId := []
    householdUuidToLocalId := [], dnWards := 0, dnVillages := 0, dnHouseholds := 0
    dnCitizens := 0, errors := [] }

/-- `restoreFromSupabase` — the download entry point.  Mirrors the upload:
`navigator.onLine` is the only pre-check; each tier is fetched in
`created_at` order and reconciled into the local store. -/
def restoreFromSupabase (env : Env) (ls : LocalState) (r : RemoteState) : SyncResult × LocalState :=
  if env.online then
    let st1 := downloadWards r (initDnState ls)
    let st2 := downloadVillages r st1
    let st3 := downloadHouseholds r st2
    let st4 := downloadCitizens r st3
    ({ success := st4.errors.isEmpty
       uploaded := ⟨0, 0, 0, 0⟩
       downloaded := ⟨st4.dnWards, st4.dnVillages, st4.dnHouseholds, st4.dnCitizens⟩
       errors := st4.errors }, st4.localSt)
  else
    ({ success := false
       uploaded := ⟨0, 0, 0, 0⟩
       downloaded := ⟨0, 0, 0, 0⟩
       errors := ["Restore failed: Error: No internet connection"] }, ls)

/-! ## Characterisations of a run over a fresh remote store

These recursive functions describe the rows, storage objects and session
maps produced by an upload into an empty remote store (and, mirrored, the
records produced by a download into an empty local store).  They are proof
devices: the theorems establish that the folds above compute them. -/

/-- The ward rows inserted by the ward phase, with consecutive fresh ids. -/
def insertedWards : List Ward → Nat → List SupabaseWard
  | [], _ => []
  | w :: ws, u => wardToSupabase w none u :: insertedWards ws (u + 1)

/-- The ward id map accumulated by the ward phase. -/
def wardPairs : List Ward → Nat → List (Nat × Nat) → List (Nat × Nat)
  | [], _, m => m
  | w :: ws, u, m => wardPairs ws (u + 1) (mapSet m w.id u)

/-- The village rows inserted by the village phase (parent ids resolved
through the ward map). -/
def insertedVillages (μw : List (Nat × Nat)) : List Village → Nat → List SupabaseVillage
  | [], _ => []
  | v :: vs, u =>
    villageToSupabase v ((mapGet μw v.wardId).getD 0) none u :: insertedVillages μw vs (u + 1)

/-- The village id map accumulated by the village phase. -/
def villagePairs : List Village → Nat → List (Nat × Nat) → List (Nat × Nat)
  | [], _, m => m
  | v :: vs, u, m => villagePairs vs (u + 1) (mapSet m v.id u)

/-- The household rows inserted by the household phase. -/
def insertedHouseholds (μv : List (Nat × Nat)) : List Household → Nat → List SupabaseHousehold
  | [], _ => []
  | h :: hs, u =>
    householdToSupabase h ((mapGet μv h.villageId).getD 0) none u :: insertedHouseholds μv hs (u + 1)

/-- The household id map accumulated by the household phase. -/
def householdPairs : List Household → Nat → List (Nat × Nat) → List (Nat × Nat)
  | [], _, m => m
  | h :: hs, u, m => householdPairs hs (u + 1) (mapSet m h.id u)

/-- The citizen row inserted for one local citizen (attachment URLs present
exactly when the local attachment is present, the transfers succeeding). -/
def insertedCitizen (env : Env) (μh μv μw : List (Nat × Nat)) (c : Citizen) (u : Nat) :
    SupabaseCitizen :=
  { citizenToSupabase env c ((mapGet μh c.householdId).getD 0) ((mapGet μv c.villageId).getD 0)
      ((mapGet μw c.wardId).getD 0) none u with
    photo_url := if c.photoData.isSome then some (photoUrlFor c.uniqueId env.now) else none
    fingerprint_url :=
      if c.fingerprintData.isSome then some (fingerprintUrlFor c.uniqueId env.now) else none }

/-- The citizen rows inserted by the citizen phase. -/
def insertedCitizens (env : Env) (μh μv μw : List (Nat × Nat)) : List Citizen → Nat → List SupabaseCitizen
  | [], _ => []
  | c :: cs, u => insertedCitizen env μh μv μw c u :: insertedCitizens env μh μv μw cs (u + 1)

/-- The photo bucket contents after the citizen phase. -/
def citizenPhotos (now : Nat) : List Citizen → List (String × String) → List (String × String)
  | [], m => m
  | c :: cs, m =>
    citizenPhotos now cs
      (match c.photoData with
       | none => m
       | some pd =>
         (photoUrlFor c.uniqueId now, pd) :: m.filter (fun p => p.1 != photoUrlFor c.uniqueId now))

/-- The fingerprint bucket contents after the citizen phase. -/
def citizenFingerprints (now : Nat) : List Citizen → List (String × String) → List (String × String)
  | [], m => m
  | c :: cs, m =>
    citizenFingerprints now cs
      (match c.fingerprintData with
       | none => m
       | some fd =>
         (fingerprintUrlFor c.uniqueId now, fd) :: m.filter (fun p => p.1 != fingerprintUrlFor c.uniqueId now))

/-- The ward records added by the download ward phase into a store that has
no matching codes, with consecutive Dexie keys. -/
def addedWards : List SupabaseWard → Nat → List Ward
  | [], _ => []
  | rw :: rows, n => { toWardData := supabaseToWard rw, id := n } :: addedWards rows (n + 1)

/-- The UUID-to-local-id map accumulated by the download ward phase. -/
def dnWardPairs : List SupabaseWard → Nat → List (Nat × Nat) → List (Nat × Nat)
  | [], _, m => m
  | rw :: rows, n, m => dnWardPairs rows (n + 1) (mapSet m rw.id n)

/-- The village records added by the download village phase. -/
def addedVillages (μw : List (Nat × Nat)) : List SupabaseVillage → Nat → List Village
  | [], _ => []
  | rv :: rows, n =>
    { toVillageData := supabaseToVillage rv ((mapGet μw rv.ward_id).getD 0), id := n }
      :: addedVillages μw rows (n + 1)

/-- The UUID-to-local-id map accumulated by the download village phase. -/
def dnVillagePairs : List SupabaseVillage → Nat → List (Nat × Nat) → List (Nat × Nat)
  | [], _, m => m
  | rv :: rows, n, m => dnVillagePairs rows (n + 1) (mapSet m rv.id n)

/-- The household records added by the download household phase. -/
def addedHouseholds (μv : List (Nat × Nat)) : List SupabaseHousehold → Nat → List Household
  | [], _ => []
  | rh :: rows, n =>
    { toHouseholdData := supabaseToHousehold rh ((mapGet μv rh.village_id).getD 0), id := n }
      :: addedHouseholds μv rows (n + 1)

/-- The UUID-to-local-id map accumulated by the download household phase. -/
def dnHouseholdPairs : List SupabaseHousehold → Nat → List (Nat × Nat) → List (Nat × Nat)
  | [], _, m => m
  | rh :: rows, n, m => dnHouseholdPairs rows (n + 1) (mapSet m rh.id n)

/-- The citizen record added for one fetched citizen row (attachments are
fetched from storage by their URLs). -/
def addedCitizen (r : RemoteState) (μh μv μw : List (Nat × Nat)) (rc : SupabaseCitizen) (n : Nat) :
    Citizen :=
  { toCitizenData :=
      { supabaseToCitizen rc ((mapGet μh rc.household_id).getD 0) ((mapGet μv rc.village_id).getD 0)
          ((mapGet μw rc.ward_id).getD 0) with
        photoData := rc.photo_url.bind (downloadPhotoFromStorage r)
        fingerprintData := rc.fingerprint_url.bind (downloadFingerprintFromStorage r) }
    id := n }

/-- The citizen records added by the download citizen phase. -/
def addedCitizens (r : RemoteState) (μh μv μw : List (Nat × Nat)) : List SupabaseCitizen → Nat → List Citizen
  | [], _ => []
  | rc :: rows, n => addedCitizen r μh μv μw rc n :: addedCitizens r μh μv μw rows (n + 1)

/-- Well-formedness of a local dataset: unique natural keys, unique primary
keys, and a complete hierarchy (every cascading parent reference resolves).
These are the invariants the data model guarantees (codes are
application-unique; Dexie primary keys are unique). -/
def WellFormed (ls : LocalState) : Prop :=
  (ls.wards.map (fun w => w.code)).Nodup ∧
  (ls.villages.map (fun v => v.code)).Nodup ∧
  (ls.households.map (fun h => h.code)).Nodup ∧
  (ls.citizens.map (fun c => c.uniqueId)).Nodup ∧
  (ls.wards.map (fun w => w.id)).Nodup ∧
  (ls.villages.map (fun v => v.id)).Nodup ∧
  (ls.households.map (fun h => h.id)).Nodup ∧
  (∀ v ∈ ls.villages, ∃ w ∈ ls.wards, w.id = v.wardId) ∧
  (∀ h ∈ ls.households, ∃ v ∈ ls.villages, v.id = h.villageId) ∧
  (∀ c ∈ ls.citizens, (∃ h ∈ ls.households, h.id = c.householdId) ∧
    (∃ v ∈ ls.villages, v.id = c.villageId) ∧ (∃ w ∈ ls.wards, w.id = c.wardId))

/-- The ward id map after an upload into a fresh remote store. -/
def freshWardMap (env : Env) (ls : LocalState) : List (Nat × Nat) :=
  wardPairs ls.wards env.uuidStart []

/-- The village id map after an upload into a fresh remote store. -/
def freshVillageMap (env : Env) (ls : LocalState) : List (Nat × Nat) :=
  villagePairs ls.villages (env.uuidStart + ls.wards.length) []

/-- The household id map after an upload into a fresh remote store. -/
def freshHouseholdMap (env : Env) (ls : LocalState) : List (Nat × Nat) :=
  householdPairs ls.households (env.uuidStart + ls.wards.length + ls.villages.length) []

/-- The remote store produced by an upload of a well-formed local store into
a fresh remote store (proof device; the theorems establish the fold computes
it). -/
def freshUploadRemote (env : Env) (ls : LocalState) : RemoteState :=
  { reachable := true
    wards := insertedWards ls.wards env.uuidStart
    villages := insertedVillages (freshWardMap env ls) ls.villages (env.uuidStart + ls.wards.length)
    households := insertedHouseholds (freshVillageMap env ls) ls.households
      (env.uuidStart + ls.wards.length + ls.villages.length)
    citizens := insertedCitizens env (freshHouseholdMap env ls) (freshVillageMap env ls)
      (freshWardMap env ls) ls.citizens
      (env.uuidStart + ls.wards.length + ls.villages.length + ls.households.length)
    photos := citizenPhotos env.now ls.citizens []
    fingerprints := citizenFingerprints env.now ls.citizens []
    photosOk := true
    fingerprintsOk := true }

/-- The upload session state after the ward phase of a fresh run. -/
def freshSt1 (env : Env) (ls : LocalState) : UpState :=
  { remote := { emptyRemote with wards := insertedWards ls.wards env.uuidStart }
    wardIdMap := freshWardMap env ls
    villageIdMap := []
    householdIdMap := []
    uuid := env.uuidStart + ls.wards.length
    upWards := ls.wards.length
    upVillages := 0
    upHouseholds := 0
    upCitizens := 0
    errors := [] }

/-- The upload session state after the village phase of a fresh run. -/
def freshSt2 (env : Env) (ls : LocalState) : UpState :=
  { remote := { emptyRemote with
      wards := insertedWards ls.wards env.uuidStart
      villages := insertedVillages (freshWardMap env ls) ls.villages
        (env.uuidStart + ls.wards.length) }
    wardIdMap := freshWardMap env ls
    villageIdMap := freshVillageMap env ls
    householdIdMap := []
    uuid := env.uuidStart + ls.wards.length + ls.villages.length
    upWards := ls.wards.length
    upVillages := ls.villages.length
    upHouseholds := 0
    upCitizens := 0
    errors := [] }

/-- The upload session state after the household phase of a fresh run. -/
def freshSt3 (env : Env) (ls : LocalState) : UpState :=
  { remote := { emptyRemote with
      wards := insertedWards ls.wards env.uuidStart
      villages := insertedVillages (freshWardMap env ls) ls.villages
        (env.uuidStart + ls.wards.length)
      households := insertedHouseholds (freshVillageMap env ls) ls.households
        (env.uuidStart + ls.wards.length + ls.villages.length) }
    wardIdMap := freshWardMap env ls
    villageIdMap := freshVillageMap env ls
    householdIdMap := freshHouseholdMap env ls
    uuid := env.uuidStart + ls.wards.length + ls.villages.length + ls.households.length
    upWards := ls.wards.length
    upVillages := ls.villages.length
    upHouseholds := ls.households.length
    upCitizens := 0
    errors := [] }

/-- The upload session state after the citizen phase of a fresh run. -/
def freshSt4 (env : Env) (ls : LocalState) : UpState :=
  { remote := freshUploadRemote env ls
    wardIdMap := freshWardMap env ls
    villageIdMap := freshVillageMap env ls
    householdIdMap := freshHouseholdMap env ls
    uuid := env.uuidStart + ls.wards.length + ls.villages.length + ls.households.length
      + ls.citizens.length
    upWards := ls.wards.length
    upVillages := ls.villages.length
    upHouseholds := ls.households.length
    upCitizens := ls.citizens.length
    errors := [] }

/-- The ward rows of `freshUploadRemote` (proof device). -/
def rtWardRows (env1 : Env) (ls : LocalState) : List SupabaseWard :=
  insertedWards ls.wards env1.uuidStart

/-- The village rows of `freshUploadRemote` (proof device). -/
def rtVillageRows (env1 : Env) (ls : LocalState) : List SupabaseVillage :=
  insertedVillages (freshWardMap env1 ls) ls.villages (env1.uuidStart + ls.wards.length)

/-- The household rows of `freshUploadRemote` (proof device). -/
def rtHouseholdRows (env1 : Env) (ls : LocalState) : List SupabaseHousehold :=
  insertedHouseholds (freshVillageMap env1 ls) ls.households
    (env1.uuidStart + ls.wards.length + ls.villages.length)

/-- The citizen rows of `freshUploadRemote` (proof device). -/
def rtCitizenRows (env1 : Env) (ls : LocalState) : List SupabaseCitizen :=
  insertedCitizens env1 (freshHouseholdMap env1 ls) (freshVillageMap env1 ls)
    (freshWardMap env1 ls) ls.citizens
    (env1.uuidStart + ls.wards.length + ls.villages.length + ls.households.length)

/-- The ward UUID-to-local-id map of a download into a fresh local store. -/
def dnWardMapOf (env1 : Env) (ls : LocalState) : List (Nat × Nat) :=
  dnWardPairs (rtWardRows env1 ls) 1 []

/-- The village UUID-to-local-id map of a download into a fresh local store. -/
def dnVillageMapOf (env1 : Env) (ls : LocalState) : List (Nat × Nat) :=
  dnVillagePairs (rtVillageRows env1 ls) 1 []

/-- The household UUID-to-local-id map of a download into a fresh local
store. -/
def dnHouseholdMapOf (env1 : Env) (ls : LocalState) : List (Nat × Nat) :=
  dnHouseholdPairs (rtHouseholdRows env1 ls) 1 []

/-- The local store produced by downloading a fresh upload of `ls` into an
empty local store (proof device; the theorems establish the reconciler
computes it). -/
def roundTripLocal (env1 : Env) (ls : LocalState) : LocalState :=
  { wards := addedWards (rtWardRows env1 ls) 1
    villages := addedVillages (dnWardMapOf env1 ls) (rtVillageRows env1 ls) 1
    households := addedHouseholds (dnVillageMapOf env1 ls) (rtHouseholdRows env1 ls) 1
    citizens := addedCitizens (freshUploadRemote env1 ls) (dnHouseholdMapOf env1 ls)
      (dnVillageMapOf env1 ls) (dnWardMapOf env1 ls) (rtCitizenRows env1 ls) 1
    nextWardId := 1 + ls.wards.length
    nextVillageId := 1 + ls.villages.length
    nextHouseholdId := 1 + ls.households.length
    nextCitizenId := 1 + ls.citizens.length }

/-- The download session state after the ward phase of a round trip. -/
def rtSt1 (env1 : Env) (ls : LocalState) : DnState :=
  { localSt := { wards := addedWards (rtWardRows env1 ls) 1
                 villages := [], households := [], citizens := []
                 nextWardId := 1 + ls.wards.length
                 nextVillageId := 1, nextHouseholdId := 1, nextCitizenId := 1 }
    wardUuidToLocalId := dnWardMapOf env1 ls
    villageUuidToLocalId := []
    householdUuidToLocalId := []
    dnWards := ls.wards.length
    dnVillages := 0, dnHouseholds := 0, dnCitizens := 0
    errors := [] }

/-- The download session state after the village phase of a round trip. -/
def rtSt2 (env1 : Env) (ls : LocalState) : DnState :=
  { localSt := { wards := addedWards (rtWardRows env1 ls) 1
                 villages := addedVillages (dnWardMapOf env1 ls) (rtVillageRows env1 ls) 1
                 households := [], citizens := []
                 nextWardId := 1 + ls.wards.length
                 nextVillageId := 1 + ls.villages.length
                 nextHouseholdId := 1, nextCitizenId := 1 }
    wardUuidToLocalId := dnWardMapOf env1 ls
    villageUuidToLocalId := dnVillageMapOf env1 ls
    householdUuidToLocalId := []
    dnWards := ls.wards.length
    dnVillages := ls.villages.length
    dnHouseholds := 0, dnCitizens := 0
    errors := [] }

/-- The download session state after the household phase of a round trip. -/
def rtSt3 (env1 : Env) (ls : LocalState) : DnState :=
  { localSt := { wards := addedWards (rtWardRows env1 ls) 1
                 villages := addedVillages (dnWardMapOf env1 ls) (rtVillageRows env1 ls) 1
                 households := addedHouseholds (dnVillageMapOf env1 ls)
                   (rtHouseholdRows env1 ls) 1
                 citizens := []
                 nextWardId := 1 + ls.wards.length
                 nextVillageId := 1 + ls.villages.length
                 nextHouseholdId := 1 + ls.households.length
                 nextCitizenId := 1 }
    wardUuidToLocalId := dnWardMapOf env1 ls
    villageUuidToLocalId := dnVillageMapOf env1 ls
    householdUuidToLocalId := dnHouseholdMapOf env1 ls
    dnWards := ls.wards.length
    dnVillages := ls.villages.length
    dnHouseholds := ls.households.length
    dnCitizens := 0
    errors := [] }

/-- The download session state after the citizen phase of a round trip. -/
def rtSt4 (env1 : Env) (ls : LocalState) : DnState :=
  { localSt := roundTripLocal env1 ls
    wardUuidToLocalId := dnWardMapOf env1 ls
    villageUuidToLocalId := dnVillageMapOf env1 ls
    householdUuidToLocalId := dnHouseholdMapOf env1 ls
    dnWards := ls.wards.length
    dnVillages := ls.villages.length
    dnHouseholds := ls.households.length
    dnCitizens := ls.citizens.length
    errors := [] }

/-- The column-level effect of a re-upload on an existing citizen row: only
`synced_at`, `device_id` and the attachment URLs (re-timestamped) change. -/
def retimeCitizenRow (env2 : Env) (rc : SupabaseCitizen) : SupabaseCitizen :=
  { rc with synced_at := some env2.now
            device_id := some env2.deviceId
            photo_url := rc.photo_url.map (fun _ => photoUrlFor rc.unique_id env2.now)
            fingerprint_url := rc.fingerprint_url.map
              (fun _ => fingerprintUrlFor rc.unique_id env2.now) }

/-- Retime exactly the rows whose unique id is in the given list. -/
def mapRetimeOn (env2 : Env) (uids : List String) (rows : List SupabaseCitizen) :
    List SupabaseCitizen :=
  rows.map (fun rc => if rc.unique_id ∈ uids then retimeCitizenRow env2 rc else rc)

/-- The session id map accumulated by a re-upload: each record's key is bound
to the remote id found by the natural-key lookup (proof device). -/
def rerunPairs (key : α → Nat) (kOf : α → Nat) : List α → List (Nat × Nat) → List (Nat × Nat)
  | [], m => m
  | x :: xs, m => rerunPairs key kOf xs (mapSet m (key x) (kOf x))

/-- The ward id map of a second upload run over `freshUploadRemote`. -/
def rerunWardMap (env1 : Env) (ls : LocalState) : List (Nat × Nat) :=
  rerunPairs (fun w => w.id) (fun w => (mapGet (freshWardMap env1 ls) w.id).getD 0) ls.wards []

/-- The village id map of a second upload run. -/
def rerunVillageMap (env1 : Env) (ls : LocalState) : List (Nat × Nat) :=
  rerunPairs (fun v => v.id) (fun v => (mapGet (freshVillageMap env1 ls) v.id).getD 0)
    ls.villages []

/-- The household id map of a second upload run. -/
def rerunHouseholdMap (env1 : Env) (ls : LocalState) : List (Nat × Nat) :=
  rerunPairs (fun h => h.id) (fun h => (mapGet (freshHouseholdMap env1 ls) h.id).getD 0)
    ls.households []

/-- The session state after the ward phase of a second upload run. -/
def rerunSt1 (env1 env2 : Env) (ls : LocalState) : UpState :=
  { remote := freshUploadRemote env1 ls
    wardIdMap := rerunWardMap env1 ls
    villageIdMap := []
    householdIdMap := []
    uuid := env2.uuidStart
    upWards := ls.wards.length
    upVillages := 0, upHouseholds := 0, upCitizens := 0
    errors := [] }

/-- The session state after the village phase of a second upload run. -/
def rerunSt2 (env1 env2 : Env) (ls : LocalState) : UpState :=
  { remote := freshUploadRemote env1 ls
    wardIdMap := rerunWardMap env1 ls
    villageIdMap := rerunVillageMap env1 ls
    householdIdMap := []
    uuid := env2.uuidStart
    upWards := ls.wards.length
    upVillages := ls.villages.length
    upHouseholds := 0, upCitizens := 0
    errors := [] }

/-- The session state after the household phase of a second upload run. -/
def rerunSt3 (env1 env2 : Env) (ls : LocalState) : UpState :=
  { remote := freshUploadRemote env1 ls
    wardIdMap := rerunWardMap env1 ls
    villageIdMap := rerunVillageMap env1 ls
    householdIdMap := rerunHouseholdMap env1 ls
    uuid := env2.uuidStart
    upWards := ls.wards.length
    upVillages := ls.villages.length
    upHouseholds := ls.households.length
    upCitizens := 0
    errors := [] }

/-- The loop body of `findDuplicates`, named so that the fold can be
characterised (proof device; verified equal to the inline lambda by `rfl`). -/
def dupBody (newCitizen : CitizenInput) (threshold : JsNum)
    (ds : List DuplicateMatch) (existing : Citizen) : List DuplicateMatch :=
  let acc := scoreCitizen newCitizen existing
  if acc.scoreCount > 0 then
    let matchScore := acc.totalScore.div (JsNum.ofNat acc.scoreCount)
    if threshold.le matchScore ∧ acc.matchReasons.length ≥ 2 then
      ds ++ [⟨existing, matchScore, acc.matchReasons⟩]
    else ds
  else ds

/-- The per-record selection made by the `findDuplicates` loop: `some match`
when the record is reported, `none` when it is not (proof device). -/
def selectCitizen (newCitizen : CitizenInput) (threshold : JsNum)
    (existing : Citizen) : Option DuplicateMatch :=
  let acc := scoreCitizen newCitizen existing
  if acc.scoreCount > 0 then
    let matchScore := acc.totalScore.div (JsNum.ofNat acc.scoreCount)
    if threshold.le matchScore ∧ acc.matchReasons.length ≥ 2 then
      some ⟨existing, matchScore, acc.matchReasons⟩
    else none
  else none

/-! ## Sample data for witnesses and counterexamples -/

/-- Sample Area `W01`. -/
def sampleWard : Ward := { code := "W01", name := "North", createdAt := 100, id := 1 }

/-- Sample Subarea `V01` under `W01`. -/
def sampleVillage : Village := { wardId := 1, code := "V01", name := "Lakeside", createdAt := 200, id := 1 }

/-- Sample Unit `H001` under `V01`. -/
def sampleHousehold : Household :=
  { villageId := 1, code := "H001", headName := "Doe", locationDescription := none
    latitude := none, longitude := none, createdAt := 300, updatedAt := 301, id := 1 }

/-- Sample Member with a photo and a birth date 1 ms past midnight UTC. -/
def sampleCitizen : Citizen :=
  { uniqueId := "W01-V01-000001", householdId := 1, villageId := 1, wardId := 1
    firstName := "Jane", lastName := "Doe", otherNames := none, sex := .female
    dateOfBirth := some 1, age := none, phoneNumber := some "5551234"
    occupation := none, disabilityStatus := .none, disabilityNotes := none
    photoData := some "data:image/jpeg;base64,JANE", fingerprintData := none, notes := none
    consentGiven := true, consentDate := some 50, recorderName := some "Rec"
    createdAt := 400, updatedAt := 401, id := 1 }

/-- A complete sample dataset (one record per tier). -/
def sampleLocal : LocalState :=
  { wards := [sampleWard], villages := [sampleVillage], households := [sampleHousehold]
    citizens := [sampleCitizen], nextWardId := 2, nextVillageId := 2, nextHouseholdId := 2
    nextCitizenId := 2 }

/-- A sample online session environment. -/
def sampleEnv : Env := { online := true, now := 1000, deviceId := "device-1", uuidStart := 10 }

/-- A later session on the same device. -/
def sampleEnv2 : Env := { online := true, now := 2000, deviceId := "device-1", uuidStart := 50 }

/-- An unreachable remote store (network present, remote down). -/
def unreachableRemote : RemoteState := { emptyRemote with reachable := false }

/-- A reachable remote store whose photo bucket rejects uploads. -/
def photoBrokenRemote : RemoteState := { emptyRemote with photosOk := false }

/-- The existing record of the fuzzy-match scenario of the specification. -/
def scenarioExisting : Citizen :=
  { uniqueId := "JS-000001", householdId := 1, villageId := 1, wardId := 1
    firstName := "John", lastName := "Smith", otherNames := none, sex := .male
    dateOfBirth := none, age := none, phoneNumber := some "555-0001"
    occupation := none, disabilityStatus := .none, disabilityNotes := none
    photoData := none, fingerprintData := none, notes := none
    consentGiven := false, consentDate := none, recorderName := none
    createdAt := 0, updatedAt := 0, id := 1 }

/-- The candidate record of the fuzzy-match scenario. -/
def scenarioCandidate : CitizenInput :=
  { firstName := some "Jon", lastName := some "Smith", phoneNumber := none
    dateOfBirth := none, householdId := none, villageId := none }

/-! ## Helper lemmas: behaviour against an unreachable remote store -/

/-- A ward upload step against an unreachable remote: the lookup error and
the insert error are both discarded, so the id mapping is still recorded and
the counter still incremented, while nothing is written and no error is
reported. -/
theorem uploadWardStep_unreachable (st : UpState) (w : Ward)
    (h : st.remote.reachable = false) :
    uploadWardStep st w =
      { st with uuid := st.uuid + 1, wardIdMap := mapSet st.wardIdMap w.id st.uuid
                upWards := st.upWards + 1 } := by
  unfold uploadWardStep remoteSelectWardId remoteInsertWard wardToSupabase
  simp [h]

/-- The whole ward phase against an unreachable remote: every ward is
"uploaded" (counted and mapped) but the remote store is untouched. -/
theorem uploadWards_unreachable (ws : List Ward) (st : UpState)
    (h : st.remote.reachable = false) :
    uploadWards st ws =
      { st with uuid := st.uuid + ws.length, wardIdMap := wardPairs ws st.uuid st.wardIdMap
                upWards := st.upWards + ws.length } := by
  induction ws generalizing st with
  | nil => simp [uploadWards, wardPairs]
  | cons w ws ih =>
    have hstep := uploadWardStep_unreachable st w h
    have : uploadWards st (w :: ws) = uploadWards (uploadWardStep st w) ws := rfl
    rw [this, hstep, ih _ (by simp [h])]
    simp [wardPairs, Nat.add_assoc, Nat.add_comm 1 ws.length]

/-- A village step never changes the remote store when it is unreachable,
and never touches the ward counter. -/
theorem uploadVillageStep_unreachable (st : UpState) (v : Village)
    (h : st.remote.reachable = false) :
    (uploadVillageStep st v).remote = st.remote ∧
    (uploadVillageStep st v).upWards = st.upWards := by
  unfold uploadVillageStep remoteSelectVillageId remoteInsertVillage
  cases hm : mapGet st.wardIdMap v.wardId <;> simp [h]

/-- The village phase preserves the remote store and ward counter when the
remote is unreachable. -/
theorem uploadVillages_unreachable (vs : List Village) (st : UpState)
    (h : st.remote.reachable = false) :
    (uploadVillages st vs).remote = st.remote ∧
    (uploadVillages st vs).upWards = st.upWards := by
  induction vs generalizing st with
  | nil => exact ⟨rfl, rfl⟩
  | cons v vs ih =>
    have hstep := uploadVillageStep_unreachable st v h
    have hfold : uploadVillages st (v :: vs) = uploadVillages (uploadVillageStep st v) vs := rfl
    rw [hfold]
    have h2 : (uploadVillageStep st v).remote.reachable = false := by rw [hstep.1]; exact h
    exact ⟨(ih _ h2).1.trans hstep.1, (ih _ h2).2.trans hstep.2⟩

/-- A household step never changes the remote store when it is unreachable. -/
theorem uploadHouseholdStep_unreachable (st : UpState) (hh : Household)
    (h : st.remote.reachable = false) :
    (uploadHouseholdStep st hh).remote = st.remote ∧
    (uploadHouseholdStep st hh).upWards = st.upWards := by
  unfold uploadHouseholdStep remoteSelectHouseholdId remoteInsertHousehold
  cases hm : mapGet st.villageIdMap hh.villageId <;> simp [h]

/-- The household phase preserves the remote store and ward counter when the
remote is unreachable. -/
theorem uploadHouseholds_unreachable (hs : List Household) (st : UpState)
    (h : st.remote.reachable = false) :
    (uploadHouseholds st hs).remote = st.remote ∧
    (uploadHouseholds st hs).upWards = st.upWards := by
  induction hs generalizing st with
  | nil => exact ⟨rfl, rfl⟩
  | cons hh hs ih =>
    have hstep := uploadHouseholdStep_unreachable st hh h
    have hfold : uploadHouseholds st (hh :: hs) = uploadHouseholds (uploadHouseholdStep st hh) hs := rfl
    rw [hfold]
    have h2 : (uploadHouseholdStep st hh).remote.reachable = false := by rw [hstep.1]; exact h
    exact ⟨(ih _ h2).1.trans hstep.1, (ih _ h2).2.trans hstep.2⟩

/-- A citizen step never changes the remote store when it is unreachable
(both storage uploads and the row write fail and are discarded). -/
theorem uploadCitizenStep_unreachable (env : Env) (st : UpState) (c : Citizen)
    (h : st.remote.reachable = false) :
    (uploadCitizenStep env st c).remote = st.remote ∧
    (uploadCitizenStep env st c).upWards = st.upWards := by
  unfold uploadCitizenStep remoteSelectCitizenId remoteInsertCitizen
    uploadPhotoToStorage uploadFingerprintToStorage
  cases hm1 : mapGet st.householdIdMap c.householdId <;>
    cases hm2 : mapGet st.villageIdMap c.villageId <;>
      cases hm3 : mapGet st.wardIdMap c.wardId <;>
        cases hp : c.photoData <;> cases hf : c.fingerprintData <;> simp [h]

/-- The citizen phase preserves the remote store and ward counter when the
remote is unreachable. -/
theorem uploadCitizens_unreachable (env : Env) (cs : List Citizen) (st : UpState)
    (h : st.remote.reachable = false) :
    (uploadCitizens env st cs).remote = st.remote ∧
    (uploadCitizens env st cs).upWards = st.upWards := by
  induction cs generalizing st with
  | nil => exact ⟨rfl, rfl⟩
  | cons c cs ih =>
    have hstep := uploadCitizenStep_unreachable env st c h
    have hfold : uploadCitizens env st (c :: cs) = uploadCitizens env (uploadCitizenStep env st c) cs := rfl
    rw [hfold]
    have h2 : (uploadCitizenStep env st c).remote.reachable = false := by rw [hstep.1]; exact h
    exact ⟨(ih _ h2).1.trans hstep.1, (ih _ h2).2.trans hstep.2⟩

/-! ## Claim C4 -/

/-- C4: for every run of upload and every run of download, the returned
`SyncResult` has `success = true` exactly when its error list is empty. -/
theorem c4_successIffNoErrors (env : Env) (ls : LocalState) (r : RemoteState) :
    ((syncToSupabase env ls r).1.success = true ↔ (syncToSupabase env ls r).1.errors = []) ∧
    ((restoreFromSupabase env ls r).1.success = true ↔ (restoreFromSupabase env ls r).1.errors = []) := by
  constructor
  · unfold syncToSupabase
    split <;> simp [List.isEmpty_iff]
  · unfold restoreFromSupabase
    split <;> simp [List.isEmpty_iff]

/-- C4 witness: the equivalence at a concrete run. -/
theorem c4_successIffNoErrors_witness :
    ((syncToSupabase sampleEnv sampleLocal emptyRemote).1.success = true ↔
      (syncToSupabase sampleEnv sampleLocal emptyRemote).1.errors = []) ∧
    ((restoreFromSupabase sampleEnv sampleLocal emptyRemote).1.success = true ↔
      (restoreFromSupabase sampleEnv sampleLocal emptyRemote).1.errors = []) :=
  c4_successIffNoErrors sampleEnv sampleLocal emptyRemote

/-! ## Claim C5 -/

/-- C5 counterexample: with the network up but the remote store unreachable,
`syncToSupabase` does not abort — it runs to completion, reports
`success = true`, counts the ward as uploaded and appends no error, because
no remote-reachability pre-check exists inside the sync function and every
per-record error value is discarded. -/
theorem c5_fatalPrechecks_counterexample :
    (syncToSupabase sampleEnv sampleLocal unreachableRemote).1.success = true ∧
    (syncToSupabase sampleEnv sampleLocal unreachableRemote).1.uploaded.wards = 1 ∧
    (syncToSupabase sampleEnv sampleLocal unreachableRemote).1.errors = [] := by
  decide

/-- C5 (amended): the missing-connectivity pre-check is real: an offline run
aborts before any write with zero counters and `success = false`, for both
upload and download.  But no remote-reachability pre-check exists inside the
sync functions (it lives only in the UI, which then starts no run): an
upload against an unreachable remote proceeds through every record — writing
nothing yet counting every ward — and a download against an unreachable
remote records one fetch error per tier, changes nothing locally and returns
zero counters with `success = false`. -/
theorem c5_fatalPrechecks_amended :
    (∀ (env : Env) (ls : LocalState) (r : RemoteState), env.online = false →
      syncToSupabase env ls r =
        ({ success := false, uploaded := ⟨0, 0, 0, 0⟩, downloaded := ⟨0, 0, 0, 0⟩
           errors := ["Sync failed: Error: No internet connection"] }, r)) ∧
    (∀ (env : Env) (ls : LocalState) (r : RemoteState), env.online = false →
      restoreFromSupabase env ls r =
        ({ success := false, uploaded := ⟨0, 0, 0, 0⟩, downloaded := ⟨0, 0, 0, 0⟩
           errors := ["Restore failed: Error: No internet connection"] }, ls)) ∧
    (∀ (env : Env) (ls : LocalState) (r : RemoteState), env.online = true → r.reachable = false →
      (syncToSupabase env ls r).2 = r ∧
      (syncToSupabase env ls r).1.uploaded.wards = ls.wards.length) ∧
    (∀ (env : Env) (ls : LocalState) (r : RemoteState), env.online = true → r.reachable = false →
      (restoreFromSupabase env ls r).2 = ls ∧
      (restoreFromSupabase env ls r).1.success = false ∧
      (restoreFromSupabase env ls r).1.downloaded = ⟨0, 0, 0, 0⟩) := by
  refine ⟨?_, ?_, ?_, ?_⟩
  · intro env ls r h
    unfold syncToSupabase
    simp [h]
  · intro env ls r h
    unfold restoreFromSupabase
    simp [h]
  · intro env ls r honline hre
    have h1 := uploadWards_unreachable ls.wards (initUpState env r) (by simpa [initUpState] using hre)
    have h1re : (uploadWards (initUpState env r) ls.wards).remote.reachable = false := by
      rw [h1]; simpa [initUpState] using hre
    have h2 := uploadVillages_unreachable ls.villages _ h1re
    have h2re : (uploadVillages (uploadWards (initUpState env r) ls.wards) ls.villages).remote.reachable = false := by
      rw [h2.1]; exact h1re
    have h3 := uploadHouseholds_unreachable ls.households _ h2re
    have h3re : (uploadHouseholds (uploadVillages (uploadWards (initUpState env r) ls.wards) ls.villages) ls.households).remote.reachable = false := by
      rw [h3.1]; exact h2re
    have h4 := uploadCitizens_unreachable env ls.citizens _ h3re
    unfold syncToSupabase
    simp only [honline, if_true]
    constructor
    · rw [h4.1, h3.1, h2.1, h1]
      simp [initUpState]
    · rw [h4.2, h3.2, h2.2, h1]
      simp [initUpState]
  · intro env ls r honline hre
    unfold restoreFromSupabase downloadWards downloadVillages downloadHouseholds downloadCitizens
      remoteFetchWards remoteFetchVillages remoteFetchHouseholds remoteFetchCitizens
    simp [honline, hre, initDnState]

/-- C5 witness: the amended behaviour at concrete runs (offline upload,
offline download, unreachable upload, unreachable download). -/
theorem c5_fatalPrechecks_amended_witness :
    (syncToSupabase { sampleEnv with online := false } sampleLocal emptyRemote =
      ({ success := false, uploaded := ⟨0, 0, 0, 0⟩, downloaded := ⟨0, 0, 0, 0⟩
         errors := ["Sync failed: Error: No internet connection"] }, emptyRemote)) ∧
    (restoreFromSupabase { sampleEnv with online := false } sampleLocal emptyRemote =
      ({ success := false, uploaded := ⟨0, 0, 0, 0⟩, downloaded := ⟨0, 0, 0, 0⟩
         errors := ["Restore failed: Error: No internet connection"] }, sampleLocal)) ∧
    ((syncToSupabase sampleEnv sampleLocal unreachableRemote).2 = unreachableRemote ∧
      (syncToSupabase sampleEnv sampleLocal unreachableRemote).1.uploaded.wards = 1) ∧
    ((restoreFromSupabase sampleEnv sampleLocal unreachableRemote).2 = sampleLocal ∧
      (restoreFromSupabase sampleEnv sampleLocal unreachableRemote).1.success = false ∧
      (restoreFromSupabase sampleEnv sampleLocal unreachableRemote).1.downloaded = ⟨0, 0, 0, 0⟩) := by
  refine ⟨c5_fatalPrechecks_amended.1 _ _ _ (by decide),
          c5_fatalPrechecks_amended.2.1 _ _ _ (by decide),
          ?_, ?_⟩
  · have h := c5_fatalPrechecks_amended.2.2.1 sampleEnv sampleLocal unreachableRemote
      (by decide) (by decide)
    exact ⟨h.1, by rw [h.2]; decide⟩
  · exact c5_fatalPrechecks_amended.2.2.2 sampleEnv sampleLocal unreachableRemote
      (by decide) (by decide)

/-! ## Claim C10 -/

/-- C10: insert/update results are discarded during upload.  Against a
remote store where every write fails by returning an error value, a ward
step still increments the counter, still records the local-to-remote id
mapping, appends no error and leaves the remote store unchanged (the error
the insert returned is demonstrably present and dropped); a subsequent
village whose parent resolves to such a phantom identifier is processed
normally (counted, mapped, no error) referencing a parent that was never
written. -/
theorem c10_discardedWriteErrors (st : UpState) (ward : Ward) (village : Village) (wardUuid : Nat)
    (hre : st.remote.reachable = false) :
    (uploadWardStep st ward =
      { st with uuid := st.uuid + 1, wardIdMap := mapSet st.wardIdMap ward.id st.uuid
                upWards := st.upWards + 1 } ∧
     (remoteInsertWard st.remote (wardToSupabase ward none st.uuid)).2.isSome = true) ∧
    (mapGet st.wardIdMap village.wardId = some wardUuid →
      uploadVillageStep st village =
        { st with uuid := st.uuid + 1
                  villageIdMap := mapSet st.villageIdMap village.id st.uuid
                  upVillages := st.upVillages + 1 }) := by
  constructor
  · refine ⟨uploadWardStep_unreachable st ward hre, ?_⟩
    unfold remoteInsertWard
    simp [hre]
  · intro hm
    unfold uploadVillageStep remoteSelectVillageId remoteInsertVillage villageToSupabase
    simp [hm, hre]

/-- C10 witness: after one ward is processed against an unreachable remote,
its phantom mapping exists and the dependent village is uploaded against it. -/
theorem c10_discardedWriteErrors_witness :
    (uploadWardStep (uploadWardStep (initUpState sampleEnv unreachableRemote) sampleWard) sampleWard =
      { (uploadWardStep (initUpState sampleEnv unreachableRemote) sampleWard) with
        uuid := 12, wardIdMap := mapSet [(1, 10)] 1 11, upWards := 2 } ∧
     (remoteInsertWard unreachableRemote
        (wardToSupabase sampleWard none 11)).2.isSome = true) ∧
    (mapGet [(1, 10)] sampleVillage.wardId = some 10 →
      uploadVillageStep (uploadWardStep (initUpState sampleEnv unreachableRemote) sampleWard) sampleVillage =
        { (uploadWardStep (initUpState sampleEnv unreachableRemote) sampleWard) with
          uuid := 12, villageIdMap := mapSet [] sampleVillage.id 11, upVillages := 1 }) := by
  have h := c10_discardedWriteErrors
    (uploadWardStep (initUpState sampleEnv unreachableRemote) sampleWard)
    sampleWard sampleVillage 10 (by decide)
  constructor
  · constructor
    · rw [h.1.1]; decide
    · have := h.1.2; revert this; decide
  · intro hm
    rw [h.2 (by decide)]
    decide

/-! ## Claim C6 -/

/-- C6 counterexample: a Member whose photo upload fails (broken photo
bucket) is still counted and its core row written without a photo URL, but
no warning of any kind is appended to the result — the error list stays
empty, where the claim requires an appended warning. -/
theorem c6_attachmentIndependence_counterexample :
    (syncToSupabase sampleEnv sampleLocal photoBrokenRemote).1.errors = [] ∧
    (syncToSupabase sampleEnv sampleLocal photoBrokenRemote).1.uploaded.citizens = 1 ∧
    (syncToSupabase sampleEnv sampleLocal photoBrokenRemote).2.citizens.map
      (fun c => c.photo_url) = [none] := by
  decide

/-- C6 (amended): when a Member's photo transfer fails but its core fields
succeed, the Member upload counter still increments and the core upsert is
neither reverted nor skipped — but nothing at all is appended to the result
(the failure is only logged to the console), rather than a warning. -/
theorem c6_attachmentIndependence_amended (env : Env) (st : UpState) (c : Citizen)
    (hU vU wU : Nat) (pd : String)
    (hh : mapGet st.householdIdMap c.householdId = some hU)
    (hv : mapGet st.villageIdMap c.villageId = some vU)
    (hw : mapGet st.wardIdMap c.wardId = some wU)
    (hre : st.remote.reachable = true)
    (hpb : st.remote.photosOk = false)
    (hphoto : c.photoData = some pd)
    (hfp : c.fingerprintData = none)
    (hex : remoteSelectCitizenId st.remote c.uniqueId = none) :
    uploadCitizenStep env st c =
      { st with
        remote := { st.remote with
          citizens := st.remote.citizens ++ [citizenToSupabase env c hU vU wU none st.uuid] }
        uuid := st.uuid + 1
        upCitizens := st.upCitizens + 1 } := by
  unfold uploadCitizenStep uploadPhotoToStorage remoteInsertCitizen
  simp [hh, hv, hw, hre, hpb, hphoto, hfp, hex, updCol]

/-- C6 witness: the amended behaviour at a concrete step. -/
theorem c6_attachmentIndependence_amended_witness :
    uploadCitizenStep sampleEnv
      { initUpState sampleEnv photoBrokenRemote with
        wardIdMap := [(1, 10)], villageIdMap := [(1, 11)], householdIdMap := [(1, 12)] }
      sampleCitizen =
      { ({ initUpState sampleEnv photoBrokenRemote with
           wardIdMap := [(1, 10)], villageIdMap := [(1, 11)], householdIdMap := [(1, 12)] }) with
        remote := { photoBrokenRemote with
          citizens := [citizenToSupabase sampleEnv sampleCitizen 12 11 10 none 10] }
        uuid := 11
        upCitizens := 1 } := by
  have h := c6_attachmentIndependence_amended sampleEnv
    { initUpState sampleEnv photoBrokenRemote with
      wardIdMap := [(1, 10)], villageIdMap := [(1, 11)], householdIdMap := [(1, 12)] }
    sampleCitizen 12 11 10 "data:image/jpeg;base64,JANE"
    (by decide) (by decide) (by decide) (by decide) (by decide) (by decide) (by decide) (by decide)
  rw [h]
  rfl

/-! ## Claim C8 -/

/-- C8 counterexample: the fuzzy-match scenario of the specification reports
no match at all (the claim requires exactly one): the first-name similarity
of "Jon" and "John" is 0.75, which does not exceed the strict 0.8
contribution gate, so only the last name contributes and a single signal
never qualifies. -/
theorem c8_fuzzyScenario_counterexample :
    findDuplicates scenarioCandidate [scenarioExisting] ⟨6, 10⟩ = [] := by
  decide

/-- C8 (amended): for the candidate \x7bfirstName: "Jon", lastName: "Smith"\x7d
against existing \x7bfirstName: "John", lastName: "Smith", phone: "555-0001"\x7d
with threshold 0.6, `findDuplicates` reports no match: the first-name
similarity is 3/4 = 0.75 (not ≈ 0.83) and fails the strict `> 0.8` gate, the
last name matches exactly, so exactly one signal contributes and the
two-signal rule rejects the pair. -/
theorem c8_fuzzyScenario_amended :
    stringSimilarity "Jon" "John" = ⟨3, 4⟩ ∧
    (stringSimilarity "Jon" "John").toRat = 3 / 4 ∧
    ¬ JsNum.lt ⟨8, 10⟩ (stringSimilarity "Jon" "John") ∧
    stringSimilarity "Smith" "Smith" = JsNum.ofNat 1 ∧
    (scoreCitizen scenarioCandidate scenarioExisting).scoreCount = 1 ∧
    findDuplicates scenarioCandidate [scenarioExisting] ⟨6, 10⟩ = [] := by
  refine ⟨by decide, ?_, by decide, by decide, by decide, by decide⟩
  rw [show stringSimilarity "Jon" "John" = (⟨3, 4⟩ : JsNum) from by decide]
  norm_num [JsNum.toRat]

/-! ## Helper lemmas for skip-and-continue and orphan freedom (C3) -/

/-- A village step never changes the ward id map. -/
theorem uploadVillageStep_wardIdMap (st : UpState) (v : Village) :
    (uploadVillageStep st v).wardIdMap = st.wardIdMap := by
  unfold uploadVillageStep
  cases hm : mapGet st.wardIdMap v.wardId <;> simp

/-- Any village row present after one upload village step was either already
present or carries a parent id resolved through the session ward map. -/
theorem uploadVillageStep_mem_villages (st : UpState) (v : Village) (rv : SupabaseVillage)
    (h : rv ∈ (uploadVillageStep st v).remote.villages) :
    rv ∈ st.remote.villages ∨ ∃ k, mapGet st.wardIdMap k = some rv.ward_id := by
  unfold uploadVillageStep at h
  cases hm : mapGet st.wardIdMap v.wardId with
  | none => rw [hm] at h; exact Or.inl h
  | some wardUuid =>
    rw [hm] at h
    simp only at h
    cases hex : remoteSelectVillageId st.remote v.code with
    | some eid =>
      rw [hex] at h
      unfold remoteUpdateVillage at h
      by_cases hre : st.remote.reachable
      · simp only [hre, if_true] at h
        rcases List.mem_map.mp h with ⟨a, ha, hcond⟩
        by_cases hid : a.id = eid
        · rw [if_pos hid] at hcond
          subst hcond
          exact Or.inr ⟨v.wardId, by rw [hm]; rfl⟩
        · rw [if_neg hid] at hcond
          subst hcond
          exact Or.inl ha
      · simp only [hre, if_false] at h
        exact Or.inl h
    | none =>
      rw [hex] at h
      unfold remoteInsertVillage at h
      by_cases hre : st.remote.reachable
      · simp only [hre, if_true] at h
        rcases List.mem_append.mp h with ha | hb
        · exact Or.inl ha
        · rcases List.mem_singleton.mp hb with rfl
          exact Or.inr ⟨v.wardId, by rw [hm]; rfl⟩
      · simp only [hre, if_false] at h
        exact Or.inl h

/-- Orphan freedom for the upload village phase: every village row present
after the phase was either already present or carries a parent id resolved
through the session ward map. -/
theorem uploadVillages_no_orphan (vs : List Village) (st : UpState) :
    ∀ rv ∈ (uploadVillages st vs).remote.villages,
      rv ∈ st.remote.villages ∨ ∃ k, mapGet st.wardIdMap k = some rv.ward_id := by
  induction vs generalizing st with
  | nil => intro rv h; exact Or.inl h
  | cons v vs ih =>
    intro rv h
    have hfold : uploadVillages st (v :: vs) = uploadVillages (uploadVillageStep st v) vs := rfl
    rw [hfold] at h
    rcases ih (uploadVillageStep st v) rv h with hin | ⟨k, hk⟩
    · exact uploadVillageStep_mem_villages st v rv hin
    · rw [uploadVillageStep_wardIdMap] at hk
      exact Or.inr ⟨k, hk⟩

/-- A download village step never changes the ward UUID map. -/
theorem downloadVillageStep_wardMap (st : DnState) (rv : SupabaseVillage) :
    (downloadVillageStep st rv).wardUuidToLocalId = st.wardUuidToLocalId := by
  unfold downloadVillageStep
  cases hm : mapGet st.wardUuidToLocalId rv.ward_id with
  | none => rfl
  | some localWardId =>
    simp only
    cases hex : st.localSt.villages.find? (fun v => v.code == rv.code) <;> rfl

/-- Any local village present after one download village step was either
already present or carries a parent id resolved through the session map. -/
theorem downloadVillageStep_mem_villages (st : DnState) (rv : SupabaseVillage) (v : Village)
    (h : v ∈ (downloadVillageStep st rv).localSt.villages) :
    v ∈ st.localSt.villages ∨ ∃ k, mapGet st.wardUuidToLocalId k = some v.wardId := by
  unfold downloadVillageStep at h
  cases hm : mapGet st.wardUuidToLocalId rv.ward_id with
  | none => rw [hm] at h; exact Or.inl h
  | some localWardId =>
    rw [hm] at h
    simp only at h
    cases hex : st.localSt.villages.find? (fun w => w.code == rv.code) with
    | some e =>
      rw [hex] at h
      unfold localUpdateVillage at h
      simp only at h
      rcases List.mem_map.mp h with ⟨a, ha, hcond⟩
      by_cases hid : a.id = e.id
      · rw [if_pos hid] at hcond
        subst hcond
        exact Or.inr ⟨rv.ward_id, by rw [hm]; rfl⟩
      · rw [if_neg hid] at hcond
        subst hcond
        exact Or.inl ha
    | none =>
      rw [hex] at h
      unfold localAddVillage at h
      simp only at h
      rcases List.mem_append.mp h with ha | hb
      · exact Or.inl ha
      · rcases List.mem_singleton.mp hb with rfl
        exact Or.inr ⟨rv.ward_id, by rw [hm]; rfl⟩

/-- Orphan freedom for the download village phase. -/
theorem downloadVillages_no_orphan (rows : List SupabaseVillage) (st : DnState) :
    ∀ v ∈ (rows.foldl downloadVillageStep st).localSt.villages,
      v ∈ st.localSt.villages ∨ ∃ k, mapGet st.wardUuidToLocalId k = some v.wardId := by
  induction rows generalizing st with
  | nil => intro v h; exact Or.inl h
  | cons rv rows ih =>
    intro v h
    rcases ih (downloadVillageStep st rv) v h with hin | ⟨k, hk⟩
    · exact downloadVillageStep_mem_villages st rv v hin
    · rw [downloadVillageStep_wardMap] at hk
      exact Or.inr ⟨k, hk⟩

/-! ## Claim C3 -/

/-- C3: skip-and-continue on a missing cascading parent, in both directions.
A child record whose parent id is absent from the session identity map is
skipped with exactly a parent-not-found error appended (store, maps and
counters untouched); the fold then continues with the remaining records; and
no village row with an unmapped parent id is ever created in the destination
store (every row present after a phase was either there before or carries a
parent id resolved through the session map). -/
theorem c3_skipOnMissingParent :
    (∀ (st : UpState) (v : Village), mapGet st.wardIdMap v.wardId = none →
      uploadVillageStep st v =
        { st with errors := st.errors ++ ["Village " ++ v.code ++ ": Ward not found"] }) ∧
    (∀ (st : UpState) (v : Village) (vs : List Village), mapGet st.wardIdMap v.wardId = none →
      uploadVillages st (v :: vs) =
        uploadVillages { st with errors := st.errors ++ ["Village " ++ v.code ++ ": Ward not found"] } vs) ∧
    (∀ (st : UpState) (hh : Household), mapGet st.villageIdMap hh.villageId = none →
      uploadHouseholdStep st hh =
        { st with errors := st.errors ++ ["Household " ++ hh.code ++ ": Village not found"] }) ∧
    (∀ (env : Env) (st : UpState) (c : Citizen),
      mapGet st.householdIdMap c.householdId = none ∨ mapGet st.villageIdMap c.villageId = none ∨
        mapGet st.wardIdMap c.wardId = none →
      uploadCitizenStep env st c =
        { st with errors := st.errors ++ ["Citizen " ++ c.uniqueId ++ ": Missing parent records"] }) ∧
    (∀ (st : DnState) (rv : SupabaseVillage), mapGet st.wardUuidToLocalId rv.ward_id = none →
      downloadVillageStep st rv =
        { st with errors := st.errors ++ ["Village " ++ rv.code ++ ": Ward not found locally"] }) ∧
    (∀ (st : DnState) (rv : SupabaseVillage) (rows : List SupabaseVillage),
      mapGet st.wardUuidToLocalId rv.ward_id = none →
      (rv :: rows).foldl downloadVillageStep st =
        rows.foldl downloadVillageStep
          { st with errors := st.errors ++ ["Village " ++ rv.code ++ ": Ward not found locally"] }) ∧
    (∀ (st : DnState) (rh : SupabaseHousehold), mapGet st.villageUuidToLocalId rh.village_id = none →
      downloadHouseholdStep st rh =
        { st with errors := st.errors ++ ["Household " ++ rh.code ++ ": Village not found locally"] }) ∧
    (∀ (r : RemoteState) (st : DnState) (rc : SupabaseCitizen),
      mapGet st.householdUuidToLocalId rc.household_id = none ∨
        mapGet st.villageUuidToLocalId rc.village_id = none ∨
        mapGet st.wardUuidToLocalId rc.ward_id = none →
      downloadCitizenStep r st rc =
        { st with errors := st.errors ++ ["Citizen " ++ rc.unique_id ++ ": Missing parent records"] }) ∧
    (∀ (vs : List Village) (st : UpState), ∀ rv ∈ (uploadVillages st vs).remote.villages,
      rv ∈ st.remote.villages ∨ ∃ k, mapGet st.wardIdMap k = some rv.ward_id) ∧
    (∀ (rows : List SupabaseVillage) (st : DnState),
      ∀ v ∈ (rows.foldl downloadVillageStep st).localSt.villages,
        v ∈ st.localSt.villages ∨ ∃ k, mapGet st.wardUuidToLocalId k = some v.wardId) := by
  refine ⟨?_, ?_, ?_, ?_, ?_, ?_, ?_, ?_, uploadVillages_no_orphan, downloadVillages_no_orphan⟩
  · intro st v hm
    unfold uploadVillageStep
    rw [hm]
  · intro st v vs hm
    have hfold : uploadVillages st (v :: vs) = uploadVillages (uploadVillageStep st v) vs := rfl
    rw [hfold]
    congr 1
    unfold uploadVillageStep
    rw [hm]
  · intro st hh hm
    unfold uploadHouseholdStep
    rw [hm]
  · intro env st c hm
    unfold uploadCitizenStep
    rcases hm with h | h | h <;>
      cases h1 : mapGet st.householdIdMap c.householdId <;>
        cases h2 : mapGet st.villageIdMap c.villageId <;>
          cases h3 : mapGet st.wardIdMap c.wardId <;>
            simp_all
  · intro st rv hm
    unfold downloadVillageStep
    rw [hm]
  · intro st rv rows hm
    have hfold : (rv :: rows).foldl downloadVillageStep st =
        rows.foldl downloadVillageStep (downloadVillageStep st rv) := rfl
    rw [hfold]
    congr 1
    unfold downloadVillageStep
    rw [hm]
  · intro st rh hm
    unfold downloadHouseholdStep
    rw [hm]
  · intro r st rc hm
    unfold downloadCitizenStep
    rcases hm with h | h | h <;>
      cases h1 : mapGet st.householdUuidToLocalId rc.household_id <;>
        cases h2 : mapGet st.villageUuidToLocalId rc.village_id <;>
          cases h3 : mapGet st.wardUuidToLocalId rc.ward_id <;>
            simp_all

/-- C3 witness: every part of the skip-and-continue property at concrete
inputs (empty session maps make every parent lookup miss; the orphan-freedom
parts are exercised on a one-village phase with a mapped parent). -/
theorem c3_skipOnMissingParent_witness :
    (uploadVillageStep (initUpState sampleEnv emptyRemote) sampleVillage =
      { initUpState sampleEnv emptyRemote with
        errors := (initUpState sampleEnv emptyRemote).errors ++
          ["Village " ++ sampleVillage.code ++ ": Ward not found"] }) ∧
    (uploadVillages (initUpState sampleEnv emptyRemote) [sampleVillage] =
      uploadVillages
        { initUpState sampleEnv emptyRemote with
          errors := (initUpState sampleEnv emptyRemote).errors ++
            ["Village " ++ sampleVillage.code ++ ": Ward not found"] } []) ∧
    (uploadHouseholdStep (initUpState sampleEnv emptyRemote) sampleHousehold =
      { initUpState sampleEnv emptyRemote with
        errors := (initUpState sampleEnv emptyRemote).errors ++
          ["Household " ++ sampleHousehold.code ++ ": Village not found"] }) ∧
    (uploadCitizenStep sampleEnv (initUpState sampleEnv emptyRemote) sampleCitizen =
      { initUpState sampleEnv emptyRemote with
        errors := (initUpState sampleEnv emptyRemote).errors ++
          ["Citizen " ++ sampleCitizen.uniqueId ++ ": Missing parent records"] }) ∧
    (downloadVillageStep (initDnState emptyLocal) ⟨20, 10, "V01", "Lakeside", 200⟩ =
      { initDnState emptyLocal with
        errors := (initDnState emptyLocal).errors ++ ["Village V01: Ward not found locally"] }) ∧
    ([(⟨20, 10, "V01", "Lakeside", 200⟩ : SupabaseVillage)].foldl downloadVillageStep
        (initDnState emptyLocal) =
      ([] : List SupabaseVillage).foldl downloadVillageStep
        { initDnState emptyLocal with
          errors := (initDnState emptyLocal).errors ++ ["Village V01: Ward not found locally"] }) ∧
    (downloadHouseholdStep (initDnState emptyLocal) ⟨21, 11, "H001", "Doe", none, none, none, 300, 301⟩ =
      { initDnState emptyLocal with
        errors := (initDnState emptyLocal).errors ++ ["Household H001: Village not found locally"] }) ∧
    (downloadCitizenStep emptyRemote (initDnState emptyLocal)
        (citizenToSupabase sampleEnv sampleCitizen 1 1 1 none 30) =
      { initDnState emptyLocal with
        errors := (initDnState emptyLocal).errors ++
          ["Citizen " ++ sampleCitizen.uniqueId ++ ": Missing parent records"] }) ∧
    (villageToSupabase sampleVillage 10 none 10 ∈
        ({ initUpState sampleEnv emptyRemote with
           wardIdMap := [(1, 10)] } : UpState).remote.villages ∨
      ∃ k, mapGet [(1, 10)] k = some (villageToSupabase sampleVillage 10 none 10).ward_id) ∧
    (({ toVillageData := supabaseToVillage ⟨20, 10, "V01", "Lakeside", 200⟩ 1, id := 1 } : Village) ∈
        (initDnState emptyLocal).localSt.villages ∨
      ∃ k, mapGet [(10, 1)] k =
        some ({ toVillageData := supabaseToVillage ⟨20, 10, "V01", "Lakeside", 200⟩ 1, id := 1 } : Village).wardId) := by
  have T := c3_skipOnMissingParent
  refine ⟨T.1 _ _ (by decide), T.2.1 _ _ _ (by decide), T.2.2.1 _ _ (by decide),
    T.2.2.2.1 _ _ _ (Or.inl (by decide)), T.2.2.2.2.1 _ _ (by decide),
    T.2.2.2.2.2.1 _ _ _ (by decide), T.2.2.2.2.2.2.1 _ _ (by decide),
    T.2.2.2.2.2.2.2.1 _ _ _ (Or.inl (by decide)), ?_, ?_⟩
  · exact T.2.2.2.2.2.2.2.2.1 [sampleVillage]
      { initUpState sampleEnv emptyRemote with wardIdMap := [(1, 10)] }
      (villageToSupabase sampleVillage 10 none 10) (by decide)
  · exact T.2.2.2.2.2.2.2.2.2
      [⟨20, 10, "V01", "Lakeside", 200⟩]
      { initDnState emptyLocal with wardUuidToLocalId := [(10, 1)] }
      { toVillageData := supabaseToVillage ⟨20, 10, "V01", "Lakeside", 200⟩ 1, id := 1 } (by decide)

/-! ## Helper lemmas for frame conditions and deletion freedom (C9) -/

/-- A download ward step only modifies the ward table, the ward key counter,
the ward UUID map and the ward download counter. -/
theorem downloadWardStep_shape (st : DnState) (rw : SupabaseWard) :
    ∃ ws n μ k, downloadWardStep st rw =
      { st with localSt := { st.localSt with wards := ws, nextWardId := n }
                wardUuidToLocalId := μ, dnWards := k } := by
  unfold downloadWardStep localUpdateWard localAddWard
  cases hex : st.localSt.wards.find? (fun w => w.code == rw.code) with
  | some e => exact ⟨_, _, _, _, rfl⟩
  | none => exact ⟨_, _, _, _, rfl⟩

/-- A download village step only modifies the village table, counters, map
and errors. -/
theorem downloadVillageStep_shape (st : DnState) (rv : SupabaseVillage) :
    ∃ vs n μ k e, downloadVillageStep st rv =
      { st with localSt := { st.localSt with villages := vs, nextVillageId := n }
                villageUuidToLocalId := μ, dnVillages := k, errors := e } := by
  unfold downloadVillageStep localUpdateVillage localAddVillage
  cases hm : mapGet st.wardUuidToLocalId rv.ward_id with
  | none => exact ⟨_, _, _, _, _, rfl⟩
  | some lid =>
    simp only
    cases hex : st.localSt.villages.find? (fun v => v.code == rv.code) with
    | some e => exact ⟨_, _, _, _, _, rfl⟩
    | none => exact ⟨_, _, _, _, _, rfl⟩

/-- A download household step only modifies the household table, counters,
map and errors. -/
theorem downloadHouseholdStep_shape (st : DnState) (rh : SupabaseHousehold) :
    ∃ hs n μ k e, downloadHouseholdStep st rh =
      { st with localSt := { st.localSt with households := hs, nextHouseholdId := n }
                householdUuidToLocalId := μ, dnHouseholds := k, errors := e } := by
  unfold downloadHouseholdStep localUpdateHousehold localAddHousehold
  cases hm : mapGet st.villageUuidToLocalId rh.village_id with
  | none => exact ⟨_, _, _, _, _, rfl⟩
  | some lid =>
    simp only
    cases hex : st.localSt.households.find? (fun h => h.code == rh.code) with
    | some e => exact ⟨_, _, _, _, _, rfl⟩
    | none => exact ⟨_, _, _, _, _, rfl⟩

/-- A download citizen step only modifies the citizen table, counters and
errors. -/
theorem downloadCitizenStep_shape (r : RemoteState) (st : DnState) (rc : SupabaseCitizen) :
    ∃ cs n k e, downloadCitizenStep r st rc =
      { st with localSt := { st.localSt with citizens := cs, nextCitizenId := n }
                dnCitizens := k, errors := e } := by
  unfold downloadCitizenStep localUpdateCitizen localAddCitizen
  cases hm1 : mapGet st.householdUuidToLocalId rc.household_id with
  | none => exact ⟨_, _, _, _, rfl⟩
  | some lh =>
    cases hm2 : mapGet st.villageUuidToLocalId rc.village_id with
    | none => exact ⟨_, _, _, _, rfl⟩
    | some lv =>
      cases hm3 : mapGet st.wardUuidToLocalId rc.ward_id with
      | none => exact ⟨_, _, _, _, rfl⟩
      | some lw =>
        simp only
        cases hex : st.localSt.citizens.find? (fun c => c.uniqueId == rc.unique_id) with
        | some e => exact ⟨_, _, _, _, rfl⟩
        | none => exact ⟨_, _, _, _, rfl⟩

/-- The village download phase leaves every non-village part of the local
store (and the ward UUID map) unchanged. -/
theorem downloadVillages_frame (rows : List SupabaseVillage) (st : DnState) :
    (rows.foldl downloadVillageStep st).localSt.wards = st.localSt.wards ∧
    (rows.foldl downloadVillageStep st).localSt.households = st.localSt.households ∧
    (rows.foldl downloadVillageStep st).localSt.citizens = st.localSt.citizens ∧
    (rows.foldl downloadVillageStep st).localSt.nextWardId = st.localSt.nextWardId ∧
    (rows.foldl downloadVillageStep st).localSt.nextHouseholdId = st.localSt.nextHouseholdId ∧
    (rows.foldl downloadVillageStep st).localSt.nextCitizenId = st.localSt.nextCitizenId ∧
    (rows.foldl downloadVillageStep st).wardUuidToLocalId = st.wardUuidToLocalId := by
  induction rows generalizing st with
  | nil => exact ⟨rfl, rfl, rfl, rfl, rfl, rfl, rfl⟩
  | cons rv rows ih =>
    obtain ⟨vs, n, μ, k, e, hstep⟩ := downloadVillageStep_shape st rv
    have h1 := ih (downloadVillageStep st rv)
    exact ⟨h1.1.trans (by rw [hstep]), h1.2.1.trans (by rw [hstep]),
      h1.2.2.1.trans (by rw [hstep]), h1.2.2.2.1.trans (by rw [hstep]),
      h1.2.2.2.2.1.trans (by rw [hstep]), h1.2.2.2.2.2.1.trans (by rw [hstep]),
      h1.2.2.2.2.2.2.trans (by rw [hstep])⟩

/-- The ward download phase leaves every non-ward part of the local store
unchanged. -/
theorem downloadWardsFold_frame (rows : List SupabaseWard) (st : DnState) :
    (rows.foldl downloadWardStep st).localSt.villages = st.localSt.villages ∧
    (rows.foldl downloadWardStep st).localSt.households = st.localSt.households ∧
    (rows.foldl downloadWardStep st).localSt.citizens = st.localSt.citizens ∧
    (rows.foldl downloadWardStep st).localSt.nextVillageId = st.localSt.nextVillageId ∧
    (rows.foldl downloadWardStep st).localSt.nextHouseholdId = st.localSt.nextHouseholdId ∧
    (rows.foldl downloadWardStep st).localSt.nextCitizenId = st.localSt.nextCitizenId ∧
    (rows.foldl downloadWardStep st).villageUuidToLocalId = st.villageUuidToLocalId ∧
    (rows.foldl downloadWardStep st).householdUuidToLocalId = st.householdUuidToLocalId := by
  induction rows generalizing st with
  | nil => exact ⟨rfl, rfl, rfl, rfl, rfl, rfl, rfl, rfl⟩
  | cons rw rows ih =>
    obtain ⟨ws, n, μ, k, hstep⟩ := downloadWardStep_shape st rw
    have h1 := ih (downloadWardStep st rw)
    exact ⟨h1.1.trans (by rw [hstep]), h1.2.1.trans (by rw [hstep]),
      h1.2.2.1.trans (by rw [hstep]), h1.2.2.2.1.trans (by rw [hstep]),
      h1.2.2.2.2.1.trans (by rw [hstep]), h1.2.2.2.2.2.1.trans (by rw [hstep]),
      h1.2.2.2.2.2.2.1.trans (by rw [hstep]), h1.2.2.2.2.2.2.2.trans (by rw [hstep])⟩

/-- The household download phase leaves every non-household part of the
local store unchanged. -/
theorem downloadHouseholdsFold_frame (rows : List SupabaseHousehold) (st : DnState) :
    (rows.foldl downloadHouseholdStep st).localSt.wards = st.localSt.wards ∧
    (rows.foldl downloadHouseholdStep st).localSt.villages = st.localSt.villages ∧
    (rows.foldl downloadHouseholdStep st).localSt.citizens = st.localSt.citizens ∧
    (rows.foldl downloadHouseholdStep st).localSt.nextWardId = st.localSt.nextWardId ∧
    (rows.foldl downloadHouseholdStep st).localSt.nextVillageId = st.localSt.nextVillageId ∧
    (rows.foldl downloadHouseholdStep st).localSt.nextCitizenId = st.localSt.nextCitizenId ∧
    (rows.foldl downloadHouseholdStep st).wardUuidToLocalId = st.wardUuidToLocalId ∧
    (rows.foldl downloadHouseholdStep st).villageUuidToLocalId = st.villageUuidToLocalId := by
  induction rows generalizing st with
  | nil => exact ⟨rfl, rfl, rfl, rfl, rfl, rfl, rfl, rfl⟩
  | cons rh rows ih =>
    obtain ⟨hs, n, μ, k, e, hstep⟩ := downloadHouseholdStep_shape st rh
    have h1 := ih (downloadHouseholdStep st rh)
    exact ⟨h1.1.trans (by rw [hstep]), h1.2.1.trans (by rw [hstep]),
      h1.2.2.1.trans (by rw [hstep]), h1.2.2.2.1.trans (by rw [hstep]),
      h1.2.2.2.2.1.trans (by rw [hstep]), h1.2.2.2.2.2.1.trans (by rw [hstep]),
      h1.2.2.2.2.2.2.1.trans (by rw [hstep]), h1.2.2.2.2.2.2.2.trans (by rw [hstep])⟩

/-- The citizen download phase leaves every non-citizen part of the local
store unchanged. -/
theorem downloadCitizensFold_frame (r : RemoteState) (rows : List SupabaseCitizen) (st : DnState) :
    ((rows.foldl (downloadCitizenStep r) st).localSt.wards = st.localSt.wards ∧
     (rows.foldl (downloadCitizenStep r) st).localSt.villages = st.localSt.villages ∧
     (rows.foldl (downloadCitizenStep r) st).localSt.households = st.localSt.households) ∧
    ((rows.foldl (downloadCitizenStep r) st).localSt.nextWardId = st.localSt.nextWardId ∧
     (rows.foldl (downloadCitizenStep r) st).localSt.nextVillageId = st.localSt.nextVillageId ∧
     (rows.foldl (downloadCitizenStep r) st).localSt.nextHouseholdId = st.localSt.nextHouseholdId) := by
  induction rows generalizing st with
  | nil => exact ⟨⟨rfl, rfl, rfl⟩, rfl, rfl, rfl⟩
  | cons rc rows ih =>
    obtain ⟨cs, n, k, e, hstep⟩ := downloadCitizenStep_shape r st rc
    have h1 := ih (downloadCitizenStep r st rc)
    exact ⟨⟨h1.1.1.trans (by rw [hstep]), h1.1.2.1.trans (by rw [hstep]),
      h1.1.2.2.trans (by rw [hstep])⟩, h1.2.1.trans (by rw [hstep]),
      h1.2.2.1.trans (by rw [hstep]), h1.2.2.2.trans (by rw [hstep])⟩

/-- One download ward step leaves a local ward with a different natural key
completely unchanged (still present, still the unique record with its id,
ids still below the key counter). -/
theorem downloadWardStep_untouched (st : DnState) (rw : SupabaseWard) (w : Ward)
    (hw : w ∈ st.localSt.wards)
    (huniq : ∀ x ∈ st.localSt.wards, x.id = w.id → x = w)
    (hbound : ∀ x ∈ st.localSt.wards, x.id < st.localSt.nextWardId)
    (hcode : rw.code ≠ w.code) :
    w ∈ (downloadWardStep st rw).localSt.wards ∧
    (∀ x ∈ (downloadWardStep st rw).localSt.wards, x.id = w.id → x = w) ∧
    (∀ x ∈ (downloadWardStep st rw).localSt.wards,
      x.id < (downloadWardStep st rw).localSt.nextWardId) := by
  unfold downloadWardStep localUpdateWard localAddWard
  cases hex : st.localSt.wards.find? (fun x => x.code == rw.code) with
  | some e =>
    have hecode : e.code = rw.code := by
      have := List.find?_some hex
      simpa using this
    have hew : e ≠ w := by
      intro h
      exact hcode (by rw [← hecode, h])
    have heid : e.id ≠ w.id := fun h => hew (huniq e (List.mem_of_find?_eq_some hex) h)
    simp only
    refine ⟨?_, ?_, ?_⟩
    · exact List.mem_map.mpr ⟨w, hw, by rw [if_neg (fun h => heid (by rw [h]))]⟩
    · intro x hx hxid
      rcases List.mem_map.mp hx with ⟨a, ha, hax⟩
      by_cases haid : a.id = e.id
      · rw [if_pos haid] at hax
        exact absurd (by rw [← hax] at hxid; exact (haid ▸ hxid : e.id = w.id)) heid
      · rw [if_neg haid] at hax
        subst hax
        exact huniq a ha hxid
    · intro x hx
      rcases List.mem_map.mp hx with ⟨a, ha, hax⟩
      by_cases haid : a.id = e.id
      · rw [if_pos haid] at hax
        rw [← hax]
        exact hbound a ha
      · rw [if_neg haid] at hax
        subst hax
        exact hbound a ha
  | none =>
    simp only
    refine ⟨List.mem_append.mpr (Or.inl hw), ?_, ?_⟩
    · intro x hx hxid
      rcases List.mem_append.mp hx with ha | hb
      · exact huniq x ha hxid
      · rcases List.mem_singleton.mp hb with rfl
        exact absurd hxid.symm (Nat.ne_of_lt (hbound w hw))
    · intro x hx
      rcases List.mem_append.mp hx with ha | hb
      · exact Nat.lt_trans (hbound x ha) (Nat.lt_succ_self _)
      · rcases List.mem_singleton.mp hb with rfl
        exact Nat.lt_succ_self _

/-- The ward download phase leaves a local ward whose code is absent from
the fetched rows completely unchanged. -/
theorem downloadWards_untouched (rows : List SupabaseWard) (w : Ward) :
    ∀ st : DnState, w ∈ st.localSt.wards →
      (∀ x ∈ st.localSt.wards, x.id = w.id → x = w) →
      (∀ x ∈ st.localSt.wards, x.id < st.localSt.nextWardId) →
      (∀ rw ∈ rows, rw.code ≠ w.code) →
      w ∈ (rows.foldl downloadWardStep st).localSt.wards := by
  induction rows with
  | nil => intro st hw _ _ _; exact hw
  | cons rw rows ih =>
    intro st hw huniq hbound hcode
    have hstep := downloadWardStep_untouched st rw w hw huniq hbound (hcode rw (by simp))
    exact ih (downloadWardStep st rw) hstep.1 hstep.2.1 hstep.2.2
      (fun x hx => hcode x (List.mem_cons_of_mem _ hx))

/-- One download village step leaves a local village with a different
natural key completely unchanged. -/
theorem downloadVillageStep_untouched (st : DnState) (rv : SupabaseVillage) (v : Village)
    (hv : v ∈ st.localSt.villages)
    (huniq : ∀ x ∈ st.localSt.villages, x.id = v.id → x = v)
    (hbound : ∀ x ∈ st.localSt.villages, x.id < st.localSt.nextVillageId)
    (hcode : rv.code ≠ v.code) :
    v ∈ (downloadVillageStep st rv).localSt.villages ∧
    (∀ x ∈ (downloadVillageStep st rv).localSt.villages, x.id = v.id → x = v) ∧
    (∀ x ∈ (downloadVillageStep st rv).localSt.villages,
      x.id < (downloadVillageStep st rv).localSt.nextVillageId) := by
  unfold downloadVillageStep localUpdateVillage localAddVillage
  cases hm : mapGet st.wardUuidToLocalId rv.ward_id with
  | none => exact ⟨hv, huniq, hbound⟩
  | some lid =>
    simp only
    cases hex : st.localSt.villages.find? (fun x => x.code == rv.code) with
    | some e =>
      have hecode : e.code = rv.code := by
        have := List.find?_some hex
        simpa using this
      have hew : e ≠ v := by
        intro h
        exact hcode (by rw [← hecode, h])
      have heid : e.id ≠ v.id := fun h => hew (huniq e (List.mem_of_find?_eq_some hex) h)
      refine ⟨?_, ?_, ?_⟩
      · exact List.mem_map.mpr ⟨v, hv, by rw [if_neg (fun h => heid (by rw [h]))]⟩
      · intro x hx hxid
        rcases List.mem_map.mp hx with ⟨a, ha, hax⟩
        by_cases haid : a.id = e.id
        · rw [if_pos haid] at hax
          exact absurd (by rw [← hax] at hxid; exact (haid ▸ hxid : e.id = v.id)) heid
        · rw [if_neg haid] at hax
          subst hax
          exact huniq a ha hxid
      · intro x hx
        rcases List.mem_map.mp hx with ⟨a, ha, hax⟩
        by_cases haid : a.id = e.id
        · rw [if_pos haid] at hax
          rw [← hax]
          exact hbound a ha
        · rw [if_neg haid] at hax
          subst hax
          exact hbound a ha
    | none =>
      refine ⟨List.mem_append.mpr (Or.inl hv), ?_, ?_⟩
      · intro x hx hxid
        rcases List.mem_append.mp hx with ha | hb
        · exact huniq x ha hxid
        · rcases List.mem_singleton.mp hb with rfl
          exact absurd hxid.symm (Nat.ne_of_lt (hbound v hv))
      · intro x hx
        rcases List.mem_append.mp hx with ha | hb
        · exact Nat.lt_trans (hbound x ha) (Nat.lt_succ_self _)
        · rcases List.mem_singleton.mp hb with rfl
          exact Nat.lt_succ_self _

/-- The village download phase leaves a local village whose code is absent
from the fetched rows completely unchanged. -/
theorem downloadVillages_untouched (rows : List SupabaseVillage) (v : Village) :
    ∀ st : DnState, v ∈ st.localSt.villages →
      (∀ x ∈ st.localSt.villages, x.id = v.id → x = v) →
      (∀ x ∈ st.localSt.villages, x.id < st.localSt.nextVillageId) →
      (∀ rv ∈ rows, rv.code ≠ v.code) →
      v ∈ (rows.foldl downloadVillageStep st).localSt.villages := by
  induction rows with
  | nil => intro st hv _ _ _; exact hv
  | cons rv rows ih =>
    intro st hv huniq hbound hcode
    have hstep := downloadVillageStep_untouched st rv v hv huniq hbound (hcode rv (by simp))
    exact ih (downloadVillageStep st rv) hstep.1 hstep.2.1 hstep.2.2
      (fun x hx => hcode x (List.mem_cons_of_mem _ hx))

/-- One download household step leaves a local household with a different
natural key completely unchanged. -/
theorem downloadHouseholdStep_untouched (st : DnState) (rh : SupabaseHousehold) (hh : Household)
    (hv : hh ∈ st.localSt.households)
    (huniq : ∀ x ∈ st.localSt.households, x.id = hh.id → x = hh)
    (hbound : ∀ x ∈ st.localSt.households, x.id < st.localSt.nextHouseholdId)
    (hcode : rh.code ≠ hh.code) :
    hh ∈ (downloadHouseholdStep st rh).localSt.households ∧
    (∀ x ∈ (downloadHouseholdStep st rh).localSt.households, x.id = hh.id → x = hh) ∧
    (∀ x ∈ (downloadHouseholdStep st rh).localSt.households,
      x.id < (downloadHouseholdStep st rh).localSt.nextHouseholdId) := by
  unfold downloadHouseholdStep localUpdateHousehold localAddHousehold
  cases hm : mapGet st.villageUuidToLocalId rh.village_id with
  | none => exact ⟨hv, huniq, hbound⟩
  | some lid =>
    simp only
    cases hex : st.localSt.households.find? (fun x => x.code == rh.code) with
    | some e =>
      have hecode : e.code = rh.code := by
        have := List.find?_some hex
        simpa using this
      have hew : e ≠ hh := by
        intro h
        exact hcode (by rw [← hecode, h])
      have heid : e.id ≠ hh.id := fun h => hew (huniq e (List.mem_of_find?_eq_some hex) h)
      refine ⟨?_, ?_, ?_⟩
      · exact List.mem_map.mpr ⟨hh, hv, by rw [if_neg (fun h => heid (by rw [h]))]⟩
      · intro x hx hxid
        rcases List.mem_map.mp hx with ⟨a, ha, hax⟩
        by_cases haid : a.id = e.id
        · rw [if_pos haid] at hax
          exact absurd (by rw [← hax] at hxid; exact (haid ▸ hxid : e.id = hh.id)) heid
        · rw [if_neg haid] at hax
          subst hax
          exact huniq a ha hxid
      · intro x hx
        rcases List.mem_map.mp hx with ⟨a, ha, hax⟩
        by_cases haid : a.id = e.id
        · rw [if_pos haid] at hax
          rw [← hax]
          exact hbound a ha
        · rw [if_neg haid] at hax
          subst hax
          exact hbound a ha
    | none =>
      refine ⟨List.mem_append.mpr (Or.inl hv), ?_, ?_⟩
      · intro x hx hxid
        rcases List.mem_append.mp hx with ha | hb
        · exact huniq x ha hxid
        · rcases List.mem_singleton.mp hb with rfl
          exact absurd hxid.symm (Nat.ne_of_lt (hbound hh hv))
      · intro x hx
        rcases List.mem_append.mp hx with ha | hb
        · exact Nat.lt_trans (hbound x ha) (Nat.lt_succ_self _)
        · rcases List.mem_singleton.mp hb with rfl
          exact Nat.lt_succ_self _

/-- The household download phase leaves a local household whose code is
absent from the fetched rows completely unchanged. -/
theorem downloadHouseholds_untouched (rows : List SupabaseHousehold) (hh : Household) :
    ∀ st : DnState, hh ∈ st.localSt.households →
      (∀ x ∈ st.localSt.households, x.id = hh.id → x = hh) →
      (∀ x ∈ st.localSt.households, x.id < st.localSt.nextHouseholdId) →
      (∀ rh ∈ rows, rh.code ≠ hh.code) →
      hh ∈ (rows.foldl downloadHouseholdStep st).localSt.households := by
  induction rows with
  | nil => intro st hv _ _ _; exact hv
  | cons rh rows ih =>
    intro st hv huniq hbound hcode
    have hstep := downloadHouseholdStep_untouched st rh hh hv huniq hbound (hcode rh (by simp))
    exact ih (downloadHouseholdStep st rh) hstep.1 hstep.2.1 hstep.2.2
      (fun x hx => hcode x (List.mem_cons_of_mem _ hx))

/-- One download citizen step leaves a local citizen with a different
`uniqueId` completely unchanged. -/
theorem downloadCitizenStep_untouched (r : RemoteState) (st : DnState) (rc : SupabaseCitizen)
    (c : Citizen)
    (hc : c ∈ st.localSt.citizens)
    (huniq : ∀ x ∈ st.localSt.citizens, x.id = c.id → x = c)
    (hbound : ∀ x ∈ st.localSt.citizens, x.id < st.localSt.nextCitizenId)
    (hkey : rc.unique_id ≠ c.uniqueId) :
    c ∈ (downloadCitizenStep r st rc).localSt.citizens ∧
    (∀ x ∈ (downloadCitizenStep r st rc).localSt.citizens, x.id = c.id → x = c) ∧
    (∀ x ∈ (downloadCitizenStep r st rc).localSt.citizens,
      x.id < (downloadCitizenStep r st rc).localSt.nextCitizenId) := by
  unfold downloadCitizenStep localUpdateCitizen localAddCitizen
  cases hm1 : mapGet st.householdUuidToLocalId rc.household_id with
  | none => exact ⟨hc, huniq, hbound⟩
  | some lh =>
    cases hm2 : mapGet st.villageUuidToLocalId rc.village_id with
    | none => exact ⟨hc, huniq, hbound⟩
    | some lv =>
      cases hm3 : mapGet st.wardUuidToLocalId rc.ward_id with
      | none => exact ⟨hc, huniq, hbound⟩
      | some lw =>
        simp only
        cases hex : st.localSt.citizens.find? (fun x => x.uniqueId == rc.unique_id) with
        | some e =>
          have hekey : e.uniqueId = rc.unique_id := by
            have := List.find?_some hex
            simpa using this
          have hew : e ≠ c := by
            intro h
            exact hkey (by rw [← hekey, h])
          have heid : e.id ≠ c.id := fun h => hew (huniq e (List.mem_of_find?_eq_some hex) h)
          refine ⟨?_, ?_, ?_⟩
          · exact List.mem_map.mpr ⟨c, hc, by rw [if_neg (fun h => heid (by rw [h]))]⟩
          · intro x hx hxid
            rcases List.mem_map.mp hx with ⟨a, ha, hax⟩
            by_cases haid : a.id = e.id
            · rw [if_pos haid] at hax
              exact absurd (by rw [← hax] at hxid; exact (haid ▸ hxid : e.id = c.id)) heid
            · rw [if_neg haid] at hax
              subst hax
              exact huniq a ha hxid
          · intro x hx
            rcases List.mem_map.mp hx with ⟨a, ha, hax⟩
            by_cases haid : a.id = e.id
            · rw [if_pos haid] at hax
              rw [← hax]
              exact hbound a ha
            · rw [if_neg haid] at hax
              subst hax
              exact hbound a ha
        | none =>
          refine ⟨List.mem_append.mpr (Or.inl hc), ?_, ?_⟩
          · intro x hx hxid
            rcases List.mem_append.mp hx with ha | hb
            · exact huniq x ha hxid
            · rcases List.mem_singleton.mp hb with rfl
              exact absurd hxid.symm (Nat.ne_of_lt (hbound c hc))
          · intro x hx
            rcases List.mem_append.mp hx with ha | hb
            · exact Nat.lt_trans (hbound x ha) (Nat.lt_succ_self _)
            · rcases List.mem_singleton.mp hb with rfl
              exact Nat.lt_succ_self _

/-- The citizen download phase leaves a local citizen whose `uniqueId` is
absent from the fetched rows completely unchanged. -/
theorem downloadCitizens_untouched (r : RemoteState) (rows : List SupabaseCitizen) (c : Citizen) :
    ∀ st : DnState, c ∈ st.localSt.citizens →
      (∀ x ∈ st.localSt.citizens, x.id = c.id → x = c) →
      (∀ x ∈ st.localSt.citizens, x.id < st.localSt.nextCitizenId) →
      (∀ rc ∈ rows, rc.unique_id ≠ c.uniqueId) →
      c ∈ (rows.foldl (downloadCitizenStep r) st).localSt.citizens := by
  induction rows with
  | nil => intro st hc _ _ _; exact hc
  | cons rc rows ih =>
    intro st hc huniq hbound hkey
    have hstep := downloadCitizenStep_untouched r st rc c hc huniq hbound (hkey rc (by simp))
    exact ih (downloadCitizenStep r st rc) hstep.1 hstep.2.1 hstep.2.2
      (fun x hx => hkey x (List.mem_cons_of_mem _ hx))

/-! ### Deletion freedom: every pre-existing record id survives -/

/-- One download ward step preserves every local ward id. -/
theorem downloadWardStep_keeps_ids (st : DnState) (rw : SupabaseWard) :
    ∀ x ∈ st.localSt.wards, ∃ y ∈ (downloadWardStep st rw).localSt.wards, y.id = x.id := by
  intro x hx
  unfold downloadWardStep localUpdateWard localAddWard
  cases hex : st.localSt.wards.find? (fun w => w.code == rw.code) with
  | some e =>
    simp only
    refine ⟨if x.id = e.id then { toWardData := supabaseToWard rw, id := x.id } else x,
      List.mem_map.mpr ⟨x, hx, rfl⟩, ?_⟩
    by_cases h : x.id = e.id
    · rw [if_pos h]
    · rw [if_neg h]
  | none => exact ⟨x, List.mem_append.mpr (Or.inl hx), rfl⟩

/-- The ward download phase preserves every local ward id. -/
theorem downloadWards_keeps_ids (rows : List SupabaseWard) :
    ∀ st : DnState, ∀ x ∈ st.localSt.wards,
      ∃ y ∈ (rows.foldl downloadWardStep st).localSt.wards, y.id = x.id := by
  induction rows with
  | nil => intro st x hx; exact ⟨x, hx, rfl⟩
  | cons rw rows ih =>
    intro st x hx
    obtain ⟨y, hy, hyid⟩ := downloadWardStep_keeps_ids st rw x hx
    obtain ⟨z, hz, hzid⟩ := ih (downloadWardStep st rw) y hy
    exact ⟨z, hz, hzid.trans hyid⟩

/-- One download village step preserves every local village id. -/
theorem downloadVillageStep_keeps_ids (st : DnState) (rv : SupabaseVillage) :
    ∀ x ∈ st.localSt.villages, ∃ y ∈ (downloadVillageStep st rv).localSt.villages, y.id = x.id := by
  intro x hx
  unfold downloadVillageStep localUpdateVillage localAddVillage
  cases hm : mapGet st.wardUuidToLocalId rv.ward_id with
  | none => exact ⟨x, hx, rfl⟩
  | some lid =>
    simp only
    cases hex : st.localSt.villages.find? (fun v => v.code == rv.code) with
    | some e =>
      refine ⟨if x.id = e.id then { toVillageData := supabaseToVillage rv lid, id := x.id } else x,
        List.mem_map.mpr ⟨x, hx, rfl⟩, ?_⟩
      by_cases h : x.id = e.id
      · rw [if_pos h]
      · rw [if_neg h]
    | none => exact ⟨x, List.mem_append.mpr (Or.inl hx), rfl⟩

/-- The village download phase preserves every local village id. -/
theorem downloadVillages_keeps_ids (rows : List SupabaseVillage) :
    ∀ st : DnState, ∀ x ∈ st.localSt.villages,
      ∃ y ∈ (rows.foldl downloadVillageStep st).localSt.villages, y.id = x.id := by
  induction rows with
  | nil => intro st x hx; exact ⟨x, hx, rfl⟩
  | cons rv rows ih =>
    intro st x hx
    obtain ⟨y, hy, hyid⟩ := downloadVillageStep_keeps_ids st rv x hx
    obtain ⟨z, hz, hzid⟩ := ih (downloadVillageStep st rv) y hy
    exact ⟨z, hz, hzid.trans hyid⟩

/-- One download household step preserves every local household id. -/
theorem downloadHouseholdStep_keeps_ids (st : DnState) (rh : SupabaseHousehold) :
    ∀ x ∈ st.localSt.households, ∃ y ∈ (downloadHouseholdStep st rh).localSt.households, y.id = x.id := by
  intro x hx
  unfold downloadHouseholdStep localUpdateHousehold localAddHousehold
  cases hm : mapGet st.villageUuidToLocalId rh.village_id with
  | none => exact ⟨x, hx, rfl⟩
  | some lid =>
    simp only
    cases hex : st.localSt.households.find? (fun h => h.code == rh.code) with
    | some e =>
      refine ⟨if x.id = e.id then { toHouseholdData := supabaseToHousehold rh lid, id := x.id } else x,
        List.mem_map.mpr ⟨x, hx, rfl⟩, ?_⟩
      by_cases h : x.id = e.id
      · rw [if_pos h]
      · rw [if_neg h]
    | none => exact ⟨x, List.mem_append.mpr (Or.inl hx), rfl⟩

/-- The household download phase preserves every local household id. -/
theorem downloadHouseholds_keeps_ids (rows : List SupabaseHousehold) :
    ∀ st : DnState, ∀ x ∈ st.localSt.households,
      ∃ y ∈ (rows.foldl downloadHouseholdStep st).localSt.households, y.id = x.id := by
  induction rows with
  | nil => intro st x hx; exact ⟨x, hx, rfl⟩
  | cons rh rows ih =>
    intro st x hx
    obtain ⟨y, hy, hyid⟩ := downloadHouseholdStep_keeps_ids st rh x hx
    obtain ⟨z, hz, hzid⟩ := ih (downloadHouseholdStep st rh) y hy
    exact ⟨z, hz, hzid.trans hyid⟩

/-- One download citizen step preserves every local citizen id. -/
theorem downloadCitizenStep_keeps_ids (r : RemoteState) (st : DnState) (rc : SupabaseCitizen) :
    ∀ x ∈ st.localSt.citizens, ∃ y ∈ (downloadCitizenStep r st rc).localSt.citizens, y.id = x.id := by
  intro x hx
  obtain ⟨cs, n, k, e, hstep⟩ := downloadCitizenStep_shape r st rc
  unfold downloadCitizenStep localUpdateCitizen localAddCitizen
  cases hm1 : mapGet st.householdUuidToLocalId rc.household_id with
  | none => exact ⟨x, hx, rfl⟩
  | some lh =>
    cases hm2 : mapGet st.villageUuidToLocalId rc.village_id with
    | none => exact ⟨x, hx, rfl⟩
    | some lv =>
      cases hm3 : mapGet st.wardUuidToLocalId rc.ward_id with
      | none => exact ⟨x, hx, rfl⟩
      | some lw =>
        simp only
        cases hex : st.localSt.citizens.find? (fun c => c.uniqueId == rc.unique_id) with
        | some e =>
          refine ⟨_, List.mem_map.mpr ⟨x, hx, rfl⟩, ?_⟩
          by_cases h : x.id = e.id
          · rw [if_pos h]
          · rw [if_neg h]
        | none => exact ⟨x, List.mem_append.mpr (Or.inl hx), rfl⟩

/-- The citizen download phase preserves every local citizen id. -/
theorem downloadCitizens_keeps_ids (r : RemoteState) (rows : List SupabaseCitizen) :
    ∀ st : DnState, ∀ x ∈ st.localSt.citizens,
      ∃ y ∈ (rows.foldl (downloadCitizenStep r) st).localSt.citizens, y.id = x.id := by
  induction rows with
  | nil => intro st x hx; exact ⟨x, hx, rfl⟩
  | cons rc rows ih =>
    intro st x hx
    obtain ⟨y, hy, hyid⟩ := downloadCitizenStep_keeps_ids r st rc x hx
    obtain ⟨z, hz, hzid⟩ := ih (downloadCitizenStep r st rc) y hy
    exact ⟨z, hz, hzid.trans hyid⟩

/-- An upload ward step leaves every non-ward part of the remote store
unchanged. -/
theorem uploadWardStep_frame (st : UpState) (ward : Ward) :
    (uploadWardStep st ward).remote.villages = st.remote.villages ∧
    (uploadWardStep st ward).remote.households = st.remote.households ∧
    (uploadWardStep st ward).remote.citizens = st.remote.citizens ∧
    (uploadWardStep st ward).remote.photos = st.remote.photos ∧
    (uploadWardStep st ward).remote.fingerprints = st.remote.fingerprints := by
  unfold uploadWardStep remoteInsertWard remoteUpdateWard
  cases hex : remoteSelectWardId st.remote ward.code <;>
    cases hre : st.remote.reachable <;>
      exact ⟨rfl, rfl, rfl, rfl, rfl⟩

/-- An upload village step leaves every non-village part of the remote
store unchanged. -/
theorem uploadVillageStep_frame (st : UpState) (v : Village) :
    (uploadVillageStep st v).remote.wards = st.remote.wards ∧
    (uploadVillageStep st v).remote.households = st.remote.households ∧
    (uploadVillageStep st v).remote.citizens = st.remote.citizens ∧
    (uploadVillageStep st v).remote.photos = st.remote.photos ∧
    (uploadVillageStep st v).remote.fingerprints = st.remote.fingerprints := by
  unfold uploadVillageStep remoteInsertVillage remoteUpdateVillage
  cases hm : mapGet st.wardIdMap v.wardId with
  | none => exact ⟨rfl, rfl, rfl, rfl, rfl⟩
  | some wU =>
    simp only
    cases hex : remoteSelectVillageId st.remote v.code <;>
      cases hre : st.remote.reachable <;>
        exact ⟨rfl, rfl, rfl, rfl, rfl⟩

/-- An upload household step leaves every non-household part of the remote
store unchanged. -/
theorem uploadHouseholdStep_frame (st : UpState) (hh : Household) :
    (uploadHouseholdStep st hh).remote.wards = st.remote.wards ∧
    (uploadHouseholdStep st hh).remote.villages = st.remote.villages ∧
    (uploadHouseholdStep st hh).remote.citizens = st.remote.citizens ∧
    (uploadHouseholdStep st hh).remote.photos = st.remote.photos ∧
    (uploadHouseholdStep st hh).remote.fingerprints = st.remote.fingerprints := by
  unfold uploadHouseholdStep remoteInsertHousehold remoteUpdateHousehold
  cases hm : mapGet st.villageIdMap hh.villageId with
  | none => exact ⟨rfl, rfl, rfl, rfl, rfl⟩
  | some vU =>
    simp only
    cases hex : remoteSelectHouseholdId st.remote hh.code <;>
      cases hre : st.remote.reachable <;>
        exact ⟨rfl, rfl, rfl, rfl, rfl⟩

/-- A citizen insert touches only the citizen table. -/
theorem remoteInsertCitizen_frame (r : RemoteState) (c : SupabaseCitizen) :
    (remoteInsertCitizen r c).1.wards = r.wards ∧
    (remoteInsertCitizen r c).1.villages = r.villages ∧
    (remoteInsertCitizen r c).1.households = r.households := by
  unfold remoteInsertCitizen
  cases hre : r.reachable <;> exact ⟨rfl, rfl, rfl⟩

/-- A citizen update touches only the citizen table. -/
theorem remoteUpdateCitizen_frame (r : RemoteState) (id : Nat) (c : SupabaseCitizen) :
    (remoteUpdateCitizen r id c).1.wards = r.wards ∧
    (remoteUpdateCitizen r id c).1.villages = r.villages ∧
    (remoteUpdateCitizen r id c).1.households = r.households := by
  unfold remoteUpdateCitizen
  cases hre : r.reachable <;> exact ⟨rfl, rfl, rfl⟩

/-- A photo upload touches only the photo bucket. -/
theorem uploadPhotoToStorage_frame (env : Env) (r : RemoteState) (pd uid : String) :
    (uploadPhotoToStorage env r pd uid).2.wards = r.wards ∧
    (uploadPhotoToStorage env r pd uid).2.villages = r.villages ∧
    (uploadPhotoToStorage env r pd uid).2.households = r.households ∧
    (uploadPhotoToStorage env r pd uid).2.reachable = r.reachable ∧
    (uploadPhotoToStorage env r pd uid).2.citizens = r.citizens ∧
    (uploadPhotoToStorage env r pd uid).2.fingerprintsOk = r.fingerprintsOk := by
  unfold uploadPhotoToStorage
  cases hok : r.reachable && r.photosOk <;> exact ⟨rfl, rfl, rfl, rfl, rfl, rfl⟩

/-- A fingerprint upload touches only the fingerprint bucket. -/
theorem uploadFingerprintToStorage_frame (env : Env) (r : RemoteState) (fd uid : String) :
    (uploadFingerprintToStorage env r fd uid).2.wards = r.wards ∧
    (uploadFingerprintToStorage env r fd uid).2.villages = r.villages ∧
    (uploadFingerprintToStorage env r fd uid).2.households = r.households ∧
    (uploadFingerprintToStorage env r fd uid).2.reachable = r.reachable ∧
    (uploadFingerprintToStorage env r fd uid).2.citizens = r.citizens := by
  unfold uploadFingerprintToStorage
  cases hok : r.reachable && r.fingerprintsOk <;> exact ⟨rfl, rfl, rfl, rfl, rfl⟩

/-- An upload citizen step leaves the three hierarchy tables of the remote
store unchanged. -/
theorem uploadCitizenStep_frame (env : Env) (st : UpState) (c : Citizen) :
    (uploadCitizenStep env st c).remote.wards = st.remote.wards ∧
    (uploadCitizenStep env st c).remote.villages = st.remote.villages ∧
    (uploadCitizenStep env st c).remote.households = st.remote.households := by
  unfold uploadCitizenStep
  cases hm1 : mapGet st.householdIdMap c.householdId with
  | none => exact ⟨rfl, rfl, rfl⟩
  | some hU =>
    cases hm2 : mapGet st.villageIdMap c.villageId with
    | none => exact ⟨rfl, rfl, rfl⟩
    | some vU =>
      cases hm3 : mapGet st.wardIdMap c.wardId with
      | none => exact ⟨rfl, rfl, rfl⟩
      | some wU =>
        simp only
        cases hex : remoteSelectCitizenId st.remote c.uniqueId <;>
          cases hp : c.photoData <;>
            cases hf : c.fingerprintData <;>
              refine ⟨?_, ?_, ?_⟩ <;>
                simp only [remoteInsertCitizen_frame, remoteUpdateCitizen_frame,
                  uploadPhotoToStorage_frame, uploadFingerprintToStorage_frame,
                  (remoteInsertCitizen_frame _ _).1, (remoteInsertCitizen_frame _ _).2.1,
                  (remoteInsertCitizen_frame _ _).2.2,
                  (remoteUpdateCitizen_frame _ _ _).1, (remoteUpdateCitizen_frame _ _ _).2.1,
                  (remoteUpdateCitizen_frame _ _ _).2.2,
                  (uploadPhotoToStorage_frame _ _ _ _).1, (uploadPhotoToStorage_frame _ _ _ _).2.1,
                  (uploadPhotoToStorage_frame _ _ _ _).2.2.1,
                  (uploadFingerprintToStorage_frame _ _ _ _).1,
                  (uploadFingerprintToStorage_frame _ _ _ _).2.1,
                  (uploadFingerprintToStorage_frame _ _ _ _).2.2.1]

/-- A ward insert preserves every existing row id. -/
theorem remoteInsertWard_keeps_ids (r : RemoteState) (w : SupabaseWard) :
    ∀ x ∈ r.wards, ∃ y ∈ (remoteInsertWard r w).1.wards, y.id = x.id := by
  intro x hx
  unfold remoteInsertWard
  cases hre : r.reachable with
  | false => exact ⟨x, hx, rfl⟩
  | true => exact ⟨x, List.mem_append.mpr (Or.inl hx), rfl⟩

/-- A ward update (whose row carries the matched id) preserves every row id. -/
theorem remoteUpdateWard_keeps_ids (r : RemoteState) (eid : Nat) (w : SupabaseWard)
    (hid : w.id = eid) :
    ∀ x ∈ r.wards, ∃ y ∈ (remoteUpdateWard r eid w).1.wards, y.id = x.id := by
  intro x hx
  unfold remoteUpdateWard
  cases hre : r.reachable with
  | false => exact ⟨x, hx, rfl⟩
  | true =>
    refine ⟨if x.id = eid then w else x, List.mem_map.mpr ⟨x, hx, rfl⟩, ?_⟩
    by_cases h : x.id = eid
    · rw [if_pos h, hid, h]
    · rw [if_neg h]

/-- A village insert preserves every existing row id. -/
theorem remoteInsertVillage_keeps_ids (r : RemoteState) (v : SupabaseVillage) :
    ∀ x ∈ r.villages, ∃ y ∈ (remoteInsertVillage r v).1.villages, y.id = x.id := by
  intro x hx
  unfold remoteInsertVillage
  cases hre : r.reachable with
  | false => exact ⟨x, hx, rfl⟩
  | true => exact ⟨x, List.mem_append.mpr (Or.inl hx), rfl⟩

/-- A village update preserves every row id. -/
theorem remoteUpdateVillage_keeps_ids (r : RemoteState) (eid : Nat) (v : SupabaseVillage)
    (hid : v.id = eid) :
    ∀ x ∈ r.villages, ∃ y ∈ (remoteUpdateVillage r eid v).1.villages, y.id = x.id := by
  intro x hx
  unfold remoteUpdateVillage
  cases hre : r.reachable with
  | false => exact ⟨x, hx, rfl⟩
  | true =>
    refine ⟨if x.id = eid then v else x, List.mem_map.mpr ⟨x, hx, rfl⟩, ?_⟩
    by_cases h : x.id = eid
    · rw [if_pos h, hid, h]
    · rw [if_neg h]

/-- A household insert preserves every existing row id. -/
theorem remoteInsertHousehold_keeps_ids (r : RemoteState) (h : SupabaseHousehold) :
    ∀ x ∈ r.households, ∃ y ∈ (remoteInsertHousehold r h).1.households, y.id = x.id := by
  intro x hx
  unfold remoteInsertHousehold
  cases hre : r.reachable with
  | false => exact ⟨x, hx, rfl⟩
  | true => exact ⟨x, List.mem_append.mpr (Or.inl hx), rfl⟩

/-- A household update preserves every row id (the merged row keeps the
update row id, which is the matched id). -/
theorem remoteUpdateHousehold_keeps_ids (r : RemoteState) (eid : Nat) (h : SupabaseHousehold)
    (hid : h.id = eid) :
    ∀ x ∈ r.households, ∃ y ∈ (remoteUpdateHousehold r eid h).1.households, y.id = x.id := by
  intro x hx
  unfold remoteUpdateHousehold
  cases hre : r.reachable with
  | false => exact ⟨x, hx, rfl⟩
  | true =>
    refine ⟨if x.id = eid then mergeHouseholdRow x h else x, List.mem_map.mpr ⟨x, hx, rfl⟩, ?_⟩
    by_cases hxe : x.id = eid
    · rw [if_pos hxe]
      exact hid.trans hxe.symm
    · rw [if_neg hxe]

/-- A citizen insert preserves every existing row id. -/
theorem remoteInsertCitizen_keeps_ids (r : RemoteState) (c : SupabaseCitizen) :
    ∀ x ∈ r.citizens, ∃ y ∈ (remoteInsertCitizen r c).1.citizens, y.id = x.id := by
  intro x hx
  unfold remoteInsertCitizen
  cases hre : r.reachable with
  | false => exact ⟨x, hx, rfl⟩
  | true => exact ⟨x, List.mem_append.mpr (Or.inl hx), rfl⟩

/-- A citizen update preserves every row id. -/
theorem remoteUpdateCitizen_keeps_ids (r : RemoteState) (eid : Nat) (c : SupabaseCitizen)
    (hid : c.id = eid) :
    ∀ x ∈ r.citizens, ∃ y ∈ (remoteUpdateCitizen r eid c).1.citizens, y.id = x.id := by
  intro x hx
  unfold remoteUpdateCitizen
  cases hre : r.reachable with
  | false => exact ⟨x, hx, rfl⟩
  | true =>
    refine ⟨if x.id = eid then mergeCitizenRow x c else x, List.mem_map.mpr ⟨x, hx, rfl⟩, ?_⟩
    by_cases hxe : x.id = eid
    · rw [if_pos hxe]
      exact hid.trans hxe.symm
    · rw [if_neg hxe]

/-- An upload ward step preserves every remote ward id. -/
theorem uploadWardStep_keeps_ids (st : UpState) (ward : Ward) :
    ∀ x ∈ st.remote.wards, ∃ y ∈ (uploadWardStep st ward).remote.wards, y.id = x.id := by
  intro x hx
  unfold uploadWardStep
  cases hex : remoteSelectWardId st.remote ward.code with
  | some eid =>
    simp only
    exact remoteUpdateWard_keeps_ids st.remote eid _ rfl x hx
  | none =>
    simp only
    exact remoteInsertWard_keeps_ids st.remote _ x hx

/-- An upload village step preserves every remote village id. -/
theorem uploadVillageStep_keeps_ids (st : UpState) (v : Village) :
    ∀ x ∈ st.remote.villages, ∃ y ∈ (uploadVillageStep st v).remote.villages, y.id = x.id := by
  intro x hx
  unfold uploadVillageStep
  cases hm : mapGet st.wardIdMap v.wardId with
  | none => exact ⟨x, hx, rfl⟩
  | some wU =>
    simp only
    cases hex : remoteSelectVillageId st.remote v.code with
    | some eid => exact remoteUpdateVillage_keeps_ids st.remote eid _ rfl x hx
    | none => exact remoteInsertVillage_keeps_ids st.remote _ x hx

/-- An upload household step preserves every remote household id. -/
theorem uploadHouseholdStep_keeps_ids (st : UpState) (hh : Household) :
    ∀ x ∈ st.remote.households, ∃ y ∈ (uploadHouseholdStep st hh).remote.households, y.id = x.id := by
  intro x hx
  unfold uploadHouseholdStep
  cases hm : mapGet st.villageIdMap hh.villageId with
  | none => exact ⟨x, hx, rfl⟩
  | some vU =>
    simp only
    cases hex : remoteSelectHouseholdId st.remote hh.code with
    | some eid => exact remoteUpdateHousehold_keeps_ids st.remote eid _ rfl x hx
    | none => exact remoteInsertHousehold_keeps_ids st.remote _ x hx

/-- An upload citizen step preserves every remote citizen id (the storage
uploads do not touch the citizen table, and the row written on a match
carries the matched id). -/
theorem uploadCitizenStep_keeps_ids (env : Env) (st : UpState) (c : Citizen) :
    ∀ x ∈ st.remote.citizens, ∃ y ∈ (uploadCitizenStep env st c).remote.citizens, y.id = x.id := by
  intro x hx
  unfold uploadCitizenStep
  cases hm1 : mapGet st.householdIdMap c.householdId with
  | none => exact ⟨x, hx, rfl⟩
  | some hU =>
    cases hm2 : mapGet st.villageIdMap c.villageId with
    | none => exact ⟨x, hx, rfl⟩
    | some vU =>
      cases hm3 : mapGet st.wardIdMap c.wardId with
      | none => exact ⟨x, hx, rfl⟩
      | some wU =>
        simp only
        have hpc : ∀ (pd : String),
            (uploadPhotoToStorage env st.remote pd c.uniqueId).2.citizens = st.remote.citizens :=
          fun pd => (uploadPhotoToStorage_frame env st.remote pd c.uniqueId).2.2.2.2.1
        have hfc : ∀ (r : RemoteState) (fd : String),
            (uploadFingerprintToStorage env r fd c.uniqueId).2.citizens = r.citizens :=
          fun r fd => (uploadFingerprintToStorage_frame env r fd c.uniqueId).2.2.2.2
        cases hex : remoteSelectCitizenId st.remote c.uniqueId with
        | some eid =>
          cases hp : c.photoData with
          | none =>
            cases hf : c.fingerprintData with
            | none => exact remoteUpdateCitizen_keeps_ids st.remote eid _ rfl x hx
            | some fd =>
              exact remoteUpdateCitizen_keeps_ids _ eid _ rfl x
                ((hfc st.remote fd).symm ▸ hx)
          | some pd =>
            cases hf : c.fingerprintData with
            | none =>
              exact remoteUpdateCitizen_keeps_ids _ eid _ rfl x ((hpc pd).symm ▸ hx)
            | some fd =>
              exact remoteUpdateCitizen_keeps_ids _ eid _ rfl x
                (((hfc (uploadPhotoToStorage env st.remote pd c.uniqueId).2 fd).trans
                  (hpc pd)).symm ▸ hx)
        | none =>
          cases hp : c.photoData with
          | none =>
            cases hf : c.fingerprintData with
            | none => exact remoteInsertCitizen_keeps_ids st.remote _ x hx
            | some fd =>
              exact remoteInsertCitizen_keeps_ids _ _ x ((hfc st.remote fd).symm ▸ hx)
          | some pd =>
            cases hf : c.fingerprintData with
            | none =>
              exact remoteInsertCitizen_keeps_ids _ _ x ((hpc pd).symm ▸ hx)
            | some fd =>
              exact remoteInsertCitizen_keeps_ids _ _ x
                (((hfc (uploadPhotoToStorage env st.remote pd c.uniqueId).2 fd).trans
                  (hpc pd)).symm ▸ hx)

/-- The upload ward phase leaves the other remote tables unchanged. -/
theorem uploadWardsFold_frame (ws : List Ward) (st : UpState) :
    (uploadWards st ws).remote.villages = st.remote.villages ∧
    (uploadWards st ws).remote.households = st.remote.households ∧
    (uploadWards st ws).remote.citizens = st.remote.citizens := by
  induction ws generalizing st with
  | nil => exact ⟨rfl, rfl, rfl⟩
  | cons w ws ih =>
    have hstep := uploadWardStep_frame st w
    have h1 := ih (uploadWardStep st w)
    exact ⟨h1.1.trans hstep.1, h1.2.1.trans hstep.2.1, h1.2.2.trans hstep.2.2.1⟩

/-- The upload village phase leaves the other remote tables unchanged. -/
theorem uploadVillagesFold_frame (vs : List Village) (st : UpState) :
    (uploadVillages st vs).remote.wards = st.remote.wards ∧
    (uploadVillages st vs).remote.households = st.remote.households ∧
    (uploadVillages st vs).remote.citizens = st.remote.citizens := by
  induction vs generalizing st with
  | nil => exact ⟨rfl, rfl, rfl⟩
  | cons v vs ih =>
    have hstep := uploadVillageStep_frame st v
    have h1 := ih (uploadVillageStep st v)
    exact ⟨h1.1.trans hstep.1, h1.2.1.trans hstep.2.1, h1.2.2.trans hstep.2.2.1⟩

/-- The upload household phase leaves the other remote tables unchanged. -/
theorem uploadHouseholdsFold_frame (hs : List Household) (st : UpState) :
    (uploadHouseholds st hs).remote.wards = st.remote.wards ∧
    (uploadHouseholds st hs).remote.villages = st.remote.villages ∧
    (uploadHouseholds st hs).remote.citizens = st.remote.citizens := by
  induction hs generalizing st with
  | nil => exact ⟨rfl, rfl, rfl⟩
  | cons hh hs ih =>
    have hstep := uploadHouseholdStep_frame st hh
    have h1 := ih (uploadHouseholdStep st hh)
    exact ⟨h1.1.trans hstep.1, h1.2.1.trans hstep.2.1, h1.2.2.trans hstep.2.2.1⟩

/-- The upload citizen phase leaves the three hierarchy tables unchanged. -/
theorem uploadCitizensFold_frame (env : Env) (cs : List Citizen) (st : UpState) :
    (uploadCitizens env st cs).remote.wards = st.remote.wards ∧
    (uploadCitizens env st cs).remote.villages = st.remote.villages ∧
    (uploadCitizens env st cs).remote.households = st.remote.households := by
  induction cs generalizing st with
  | nil => exact ⟨rfl, rfl, rfl⟩
  | cons c cs ih =>
    have hstep := uploadCitizenStep_frame env st c
    have h1 := ih (uploadCitizenStep env st c)
    exact ⟨h1.1.trans hstep.1, h1.2.1.trans hstep.2.1, h1.2.2.trans hstep.2.2⟩

/-- The upload ward phase preserves every remote ward id. -/
theorem uploadWardsFold_keeps_ids (ws : List Ward) :
    ∀ st : UpState, ∀ x ∈ st.remote.wards,
      ∃ y ∈ (uploadWards st ws).remote.wards, y.id = x.id := by
  induction ws with
  | nil => intro st x hx; exact ⟨x, hx, rfl⟩
  | cons w ws ih =>
    intro st x hx
    obtain ⟨y, hy, hyid⟩ := uploadWardStep_keeps_ids st w x hx
    obtain ⟨z, hz, hzid⟩ := ih (uploadWardStep st w) y hy
    exact ⟨z, hz, hzid.trans hyid⟩

/-- The upload village phase preserves every remote village id. -/
theorem uploadVillagesFold_keeps_ids (vs : List Village) :
    ∀ st : UpState, ∀ x ∈ st.remote.villages,
      ∃ y ∈ (uploadVillages st vs).remote.villages, y.id = x.id := by
  induction vs with
  | nil => intro st x hx; exact ⟨x, hx, rfl⟩
  | cons v vs ih =>
    intro st x hx
    obtain ⟨y, hy, hyid⟩ := uploadVillageStep_keeps_ids st v x hx
    obtain ⟨z, hz, hzid⟩ := ih (uploadVillageStep st v) y hy
    exact ⟨z, hz, hzid.trans hyid⟩

/-- The upload household phase preserves every remote household id. -/
theorem uploadHouseholdsFold_keeps_ids (hs : List Household) :
    ∀ st : UpState, ∀ x ∈ st.remote.households,
      ∃ y ∈ (uploadHouseholds st hs).remote.households, y.id = x.id := by
  induction hs with
  | nil => intro st x hx; exact ⟨x, hx, rfl⟩
  | cons hh hs ih =>
    intro st x hx
    obtain ⟨y, hy, hyid⟩ := uploadHouseholdStep_keeps_ids st hh x hx
    obtain ⟨z, hz, hzid⟩ := ih (uploadHouseholdStep st hh) y hy
    exact ⟨z, hz, hzid.trans hyid⟩

/-- The upload citizen phase preserves every remote citizen id. -/
theorem uploadCitizensFold_keeps_ids (env : Env) (cs : List Citizen) :
    ∀ st : UpState, ∀ x ∈ st.remote.citizens,
      ∃ y ∈ (uploadCitizens env st cs).remote.citizens, y.id = x.id := by
  induction cs with
  | nil => intro st x hx; exact ⟨x, hx, rfl⟩
  | cons c cs ih =>
    intro st x hx
    obtain ⟨y, hy, hyid⟩ := uploadCitizenStep_keeps_ids env st c x hx
    obtain ⟨z, hz, hzid⟩ := ih (uploadCitizenStep env st c) y hy
    exact ⟨z, hz, hzid.trans hyid⟩

/-- The ward download phase (including a failed fetch) preserves ids. -/
theorem downloadWardsPhase_keeps_ids (r : RemoteState) (st : DnState) :
    ∀ x ∈ st.localSt.wards, ∃ y ∈ (downloadWards r st).localSt.wards, y.id = x.id := by
  unfold downloadWards
  cases hf : remoteFetchWards r with
  | none => exact fun x hx => ⟨x, hx, rfl⟩
  | some rows => exact downloadWards_keeps_ids rows st

/-- The village download phase (including a failed fetch) preserves ids. -/
theorem downloadVillagesPhase_keeps_ids (r : RemoteState) (st : DnState) :
    ∀ x ∈ st.localSt.villages, ∃ y ∈ (downloadVillages r st).localSt.villages, y.id = x.id := by
  unfold downloadVillages
  cases hf : remoteFetchVillages r with
  | none => exact fun x hx => ⟨x, hx, rfl⟩
  | some rows => exact downloadVillages_keeps_ids rows st

/-- The household download phase (including a failed fetch) preserves ids. -/
theorem downloadHouseholdsPhase_keeps_ids (r : RemoteState) (st : DnState) :
    ∀ x ∈ st.localSt.households, ∃ y ∈ (downloadHouseholds r st).localSt.households, y.id = x.id := by
  unfold downloadHouseholds
  cases hf : remoteFetchHouseholds r with
  | none => exact fun x hx => ⟨x, hx, rfl⟩
  | some rows => exact downloadHouseholds_keeps_ids rows st

/-- The citizen download phase (including a failed fetch) preserves ids. -/
theorem downloadCitizensPhase_keeps_ids (r : RemoteState) (st : DnState) :
    ∀ x ∈ st.localSt.citizens, ∃ y ∈ (downloadCitizens r st).localSt.citizens, y.id = x.id := by
  unfold downloadCitizens
  cases hf : remoteFetchCitizens r with
  | none => exact fun x hx => ⟨x, hx, rfl⟩
  | some rows => exact downloadCitizens_keeps_ids r rows st

/-- The ward download phase (including a failed fetch) leaves the other
local tables and counters unchanged. -/
theorem downloadWardsPhase_frame (r : RemoteState) (st : DnState) :
    (downloadWards r st).localSt.villages = st.localSt.villages ∧
    (downloadWards r st).localSt.households = st.localSt.households ∧
    (downloadWards r st).localSt.citizens = st.localSt.citizens ∧
    (downloadWards r st).localSt.nextVillageId = st.localSt.nextVillageId ∧
    (downloadWards r st).localSt.nextHouseholdId = st.localSt.nextHouseholdId ∧
    (downloadWards r st).localSt.nextCitizenId = st.localSt.nextCitizenId := by
  unfold downloadWards
  cases hf : remoteFetchWards r with
  | none => exact ⟨rfl, rfl, rfl, rfl, rfl, rfl⟩
  | some rows =>
    have h := downloadWardsFold_frame rows st
    exact ⟨h.1, h.2.1, h.2.2.1, h.2.2.2.1, h.2.2.2.2.1, h.2.2.2.2.2.1⟩

/-- The village download phase (including a failed fetch) leaves the other
local tables and counters unchanged. -/
theorem downloadVillagesPhase_frame (r : RemoteState) (st : DnState) :
    (downloadVillages r st).localSt.wards = st.localSt.wards ∧
    (downloadVillages r st).localSt.households = st.localSt.households ∧
    (downloadVillages r st).localSt.citizens = st.localSt.citizens ∧
    (downloadVillages r st).localSt.nextWardId = st.localSt.nextWardId ∧
    (downloadVillages r st).localSt.nextHouseholdId = st.localSt.nextHouseholdId ∧
    (downloadVillages r st).localSt.nextCitizenId = st.localSt.nextCitizenId := by
  unfold downloadVillages
  cases hf : remoteFetchVillages r with
  | none => exact ⟨rfl, rfl, rfl, rfl, rfl, rfl⟩
  | some rows =>
    have h := downloadVillages_frame rows st
    exact ⟨h.1, h.2.1, h.2.2.1, h.2.2.2.1, h.2.2.2.2.1, h.2.2.2.2.2.1⟩

/-- The household download phase (including a failed fetch) leaves the other
local tables and counters unchanged. -/
theorem downloadHouseholdsPhase_frame (r : RemoteState) (st : DnState) :
    (downloadHouseholds r st).localSt.wards = st.localSt.wards ∧
    (downloadHouseholds r st).localSt.villages = st.localSt.villages ∧
    (downloadHouseholds r st).localSt.citizens = st.localSt.citizens ∧
    (downloadHouseholds r st).localSt.nextWardId = st.localSt.nextWardId ∧
    (downloadHouseholds r st).localSt.nextVillageId = st.localSt.nextVillageId ∧
    (downloadHouseholds r st).localSt.nextCitizenId = st.localSt.nextCitizenId := by
  unfold downloadHouseholds
  cases hf : remoteFetchHouseholds r with
  | none => exact ⟨rfl, rfl, rfl, rfl, rfl, rfl⟩
  | some rows =>
    have h := downloadHouseholdsFold_frame rows st
    exact ⟨h.1, h.2.1, h.2.2.1, h.2.2.2.1, h.2.2.2.2.1, h.2.2.2.2.2.1⟩

/-- The citizen download phase (including a failed fetch) leaves the other
local tables unchanged. -/
theorem downloadCitizensPhase_frame (r : RemoteState) (st : DnState) :
    (downloadCitizens r st).localSt.wards = st.localSt.wards ∧
    (downloadCitizens r st).localSt.villages = st.localSt.villages ∧
    (downloadCitizens r st).localSt.households = st.localSt.households := by
  unfold downloadCitizens
  cases hf : remoteFetchCitizens r with
  | none => exact ⟨rfl, rfl, rfl⟩
  | some rows => exact (downloadCitizensFold_frame r rows st).1

/-- The ward download phase leaves a ward with an unfetched code unchanged:
wrapper over the fold lemma, transporting the code condition through the
`created_at` sort. -/
theorem downloadWardsPhase_untouched (r : RemoteState) (st : DnState) (w : Ward)
    (hw : w ∈ st.localSt.wards)
    (huniq : ∀ x ∈ st.localSt.wards, x.id = w.id → x = w)
    (hbound : ∀ x ∈ st.localSt.wards, x.id < st.localSt.nextWardId)
    (hcode : ∀ rw ∈ r.wards, rw.code ≠ w.code) :
    w ∈ (downloadWards r st).localSt.wards := by
  unfold downloadWards
  cases hf : remoteFetchWards r with
  | none => exact hw
  | some rows =>
    refine downloadWards_untouched rows w st hw huniq hbound ?_
    intro rw hrw
    unfold remoteFetchWards at hf
    by_cases hre : r.reachable
    · rw [if_pos hre] at hf
      have : rows = List.insertionSort (fun a b => a.created_at ≤ b.created_at) r.wards :=
        (Option.some.injEq _ _).mp hf.symm
    
      exact hcode rw ((List.perm_insertionSort _ _).mem_iff.mp (this ▸ hrw))
    · rw [if_neg hre] at hf
      exact absurd hf (by simp)

/-- The village download phase leaves a village with an unfetched code
unchanged. -/
theorem downloadVillagesPhase_untouched (r : RemoteState) (st : DnState) (v : Village)
    (hv : v ∈ st.localSt.villages)
    (huniq : ∀ x ∈ st.localSt.villages, x.id = v.id → x = v)
    (hbound : ∀ x ∈ st.localSt.villages, x.id < st.localSt.nextVillageId)
    (hcode : ∀ rv ∈ r.villages, rv.code ≠ v.code) :
    v ∈ (downloadVillages r st).localSt.villages := by
  unfold downloadVillages
  cases hf : remoteFetchVillages r with
  | none => exact hv
  | some rows =>
    refine downloadVillages_untouched rows v st hv huniq hbound ?_
    intro rv hrv
    unfold remoteFetchVillages at hf
    by_cases hre : r.reachable
    · rw [if_pos hre] at hf
      have : rows = List.insertionSort (fun a b => a.created_at ≤ b.created_at) r.villages :=
        (Option.some.injEq _ _).mp hf.symm
      exact hcode rv ((List.perm_insertionSort _ _).mem_iff.mp (this ▸ hrv))
    · rw [if_neg hre] at hf
      exact absurd hf (by simp)

/-- The household download phase leaves a household with an unfetched code
unchanged. -/
theorem downloadHouseholdsPhase_untouched (r : RemoteState) (st : DnState) (hh : Household)
    (hv : hh ∈ st.localSt.households)
    (huniq : ∀ x ∈ st.localSt.households, x.id = hh.id → x = hh)
    (hbound : ∀ x ∈ st.localSt.households, x.id < st.localSt.nextHouseholdId)
    (hcode : ∀ rh ∈ r.households, rh.code ≠ hh.code) :
    hh ∈ (downloadHouseholds r st).localSt.households := by
  unfold downloadHouseholds
  cases hf : remoteFetchHouseholds r with
  | none => exact hv
  | some rows =>
    refine downloadHouseholds_untouched rows hh st hv huniq hbound ?_
    intro rh hrh
    unfold remoteFetchHouseholds at hf
    by_cases hre : r.reachable
    · rw [if_pos hre] at hf
      have : rows = List.insertionSort (fun a b => a.created_at ≤ b.created_at) r.households :=
        (Option.some.injEq _ _).mp hf.symm
      exact hcode rh ((List.perm_insertionSort _ _).mem_iff.mp (this ▸ hrh))
    · rw [if_neg hre] at hf
      exact absurd hf (by simp)

/-- The citizen download phase leaves a citizen with an unfetched
`uniqueId` unchanged. -/
theorem downloadCitizensPhase_untouched (r : RemoteState) (st : DnState) (c : Citizen)
    (hc : c ∈ st.localSt.citizens)
    (huniq : ∀ x ∈ st.localSt.citizens, x.id = c.id → x = c)
    (hbound : ∀ x ∈ st.localSt.citizens, x.id < st.localSt.nextCitizenId)
    (hkey : ∀ rc ∈ r.citizens, rc.unique_id ≠ c.uniqueId) :
    c ∈ (downloadCitizens r st).localSt.citizens := by
  unfold downloadCitizens
  cases hf : remoteFetchCitizens r with
  | none => exact hc
  | some rows =>
    refine downloadCitizens_untouched r rows c st hc huniq hbound ?_
    intro rc hrc
    unfold remoteFetchCitizens at hf
    by_cases hre : r.reachable
    · rw [if_pos hre] at hf
      have : rows = List.insertionSort (fun a b => a.created_at ≤ b.created_at) r.citizens :=
        (Option.some.injEq _ _).mp hf.symm
      exact hkey rc ((List.perm_insertionSort _ _).mem_iff.mp (this ▸ hrc))
    · rw [if_neg hre] at hf
      exact absurd hf (by simp)

/-- **C9** (download never deletes): for every run over any environment,
local store (with well-formed local ids: distinct and below the next-id
counters) and remote store, (a) every local ward/village/household whose
`code` — and every local citizen whose `uniqueId` — does not appear in the
corresponding remote table survives the download completely unchanged;
(b) the download preserves every local record id at every tier (records are
only inserted or updated, never deleted); and (c) the upload likewise
preserves every remote record id at every tier, so no operation of the sync
engine ever deletes a record from either store. -/
theorem c9_downloadNeverDeletes (env : Env) (ls : LocalState) (r : RemoteState)
    (hwn : (ls.wards.map (fun w => w.id)).Nodup)
    (hvn : (ls.villages.map (fun v => v.id)).Nodup)
    (hhn : (ls.households.map (fun h => h.id)).Nodup)
    (hcn : (ls.citizens.map (fun c => c.id)).Nodup)
    (hwb : ∀ w ∈ ls.wards, w.id < ls.nextWardId)
    (hvb : ∀ v ∈ ls.villages, v.id < ls.nextVillageId)
    (hhb : ∀ h ∈ ls.households, h.id < ls.nextHouseholdId)
    (hcb : ∀ c ∈ ls.citizens, c.id < ls.nextCitizenId) :
    (∀ w ∈ ls.wards, (∀ x ∈ r.wards, x.code ≠ w.code) →
       w ∈ (restoreFromSupabase env ls r).2.wards) ∧
    (∀ v ∈ ls.villages, (∀ x ∈ r.villages, x.code ≠ v.code) →
       v ∈ (restoreFromSupabase env ls r).2.villages) ∧
    (∀ h ∈ ls.households, (∀ x ∈ r.households, x.code ≠ h.code) →
       h ∈ (restoreFromSupabase env ls r).2.households) ∧
    (∀ c ∈ ls.citizens, (∀ x ∈ r.citizens, x.unique_id ≠ c.uniqueId) →
       c ∈ (restoreFromSupabase env ls r).2.citizens) ∧
    (∀ w ∈ ls.wards, ∃ y ∈ (restoreFromSupabase env ls r).2.wards, y.id = w.id) ∧
    (∀ v ∈ ls.villages, ∃ y ∈ (restoreFromSupabase env ls r).2.villages, y.id = v.id) ∧
    (∀ h ∈ ls.households, ∃ y ∈ (restoreFromSupabase env ls r).2.households, y.id = h.id) ∧
    (∀ c ∈ ls.citizens, ∃ y ∈ (restoreFromSupabase env ls r).2.citizens, y.id = c.id) ∧
    (∀ w ∈ r.wards, ∃ y ∈ (syncToSupabase env ls r).2.wards, y.id = w.id) ∧
    (∀ v ∈ r.villages, ∃ y ∈ (syncToSupabase env ls r).2.villages, y.id = v.id) ∧
    (∀ h ∈ r.households, ∃ y ∈ (syncToSupabase env ls r).2.households, y.id = h.id) ∧
    (∀ c ∈ r.citizens, ∃ y ∈ (syncToSupabase env ls r).2.citizens, y.id = c.id) := by
  cases honline : env.online with
  | false =>
    have hres : (restoreFromSupabase env ls r).2 = ls := by
      unfold restoreFromSupabase; rw [honline]; rfl
    have hsync : (syncToSupabase env ls r).2 = r := by
      unfold syncToSupabase; rw [honline]; rfl
    rw [hres, hsync]
    exact ⟨fun w hw _ => hw, fun v hv _ => hv, fun h hh _ => hh, fun c hc _ => hc,
           fun w hw => ⟨w, hw, rfl⟩, fun v hv => ⟨v, hv, rfl⟩,
           fun h hh => ⟨h, hh, rfl⟩, fun c hc => ⟨c, hc, rfl⟩,
           fun w hw => ⟨w, hw, rfl⟩, fun v hv => ⟨v, hv, rfl⟩,
           fun h hh => ⟨h, hh, rfl⟩, fun c hc => ⟨c, hc, rfl⟩⟩
  | true =>
    have hres : (restoreFromSupabase env ls r).2 =
        (downloadCitizens r (downloadHouseholds r (downloadVillages r
          (downloadWards r (initDnState ls))))).localSt := by
      unfold restoreFromSupabase; rw [honline]; rfl
    have hsync : (syncToSupabase env ls r).2 =
        (uploadCitizens env (uploadHouseholds (uploadVillages
          (uploadWards (initUpState env r) ls.wards) ls.villages) ls.households)
          ls.citizens).remote := by
      unfold syncToSupabase; rw [honline]; rfl
    have hf1 := downloadWardsPhase_frame r (initDnState ls)
    have hf2 := downloadVillagesPhase_frame r (downloadWards r (initDnState ls))
    have hf3 := downloadHouseholdsPhase_frame r
      (downloadVillages r (downloadWards r (initDnState ls)))
    have hf4 := downloadCitizensPhase_frame r
      (downloadHouseholds r (downloadVillages r (downloadWards r (initDnState ls))))
    have hu1 := uploadWardsFold_frame ls.wards (initUpState env r)
    have hu2 := uploadVillagesFold_frame ls.villages
      (uploadWards (initUpState env r) ls.wards)
    have hu3 := uploadHouseholdsFold_frame ls.households
      (uploadVillages (uploadWards (initUpState env r) ls.wards) ls.villages)
    have hu4 := uploadCitizensFold_frame env ls.citizens
      (uploadHouseholds (uploadVillages (uploadWards (initUpState env r) ls.wards)
        ls.villages) ls.households)
    refine ⟨?_, ?_, ?_, ?_, ?_, ?_, ?_, ?_, ?_, ?_, ?_, ?_⟩
    · intro w hw hcode
      have huniq : ∀ x ∈ (initDnState ls).localSt.wards, x.id = w.id → x = w :=
        fun x hx hxid => List.inj_on_of_nodup_map hwn hx hw hxid
      have hw1 := downloadWardsPhase_untouched r (initDnState ls) w hw huniq hwb hcode
      rw [hres, hf4.1, hf3.1, hf2.1]
      exact hw1
    · intro v hv hcode
      have h1v : (downloadWards r (initDnState ls)).localSt.villages = ls.villages := hf1.1
      have h1n : (downloadWards r (initDnState ls)).localSt.nextVillageId =
          ls.nextVillageId := hf1.2.2.2.1
      have hv1 : v ∈ (downloadWards r (initDnState ls)).localSt.villages := by
        rw [h1v]; exact hv
      have huniq : ∀ x ∈ (downloadWards r (initDnState ls)).localSt.villages,
          x.id = v.id → x = v := by
        rw [h1v]; exact fun x hx hxid => List.inj_on_of_nodup_map hvn hx hv hxid
      have hbound : ∀ x ∈ (downloadWards r (initDnState ls)).localSt.villages,
          x.id < (downloadWards r (initDnState ls)).localSt.nextVillageId := by
        rw [h1v, h1n]; exact hvb
      have hv2 := downloadVillagesPhase_untouched r (downloadWards r (initDnState ls))
        v hv1 huniq hbound hcode
      rw [hres, hf4.2.1, hf3.2.1]
      exact hv2
    · intro h hh hcode
      have h2h : (downloadVillages r (downloadWards r (initDnState ls))).localSt.households
          = ls.households := hf2.2.1.trans hf1.2.1
      have h2n : (downloadVillages r (downloadWards r (initDnState ls))).localSt.nextHouseholdId
          = ls.nextHouseholdId := hf2.2.2.2.2.1.trans hf1.2.2.2.2.1
      have hh2 : h ∈ (downloadVillages r (downloadWards r (initDnState ls))).localSt.households := by
        rw [h2h]; exact hh
      have huniq : ∀ x ∈ (downloadVillages r (downloadWards r (initDnState ls))).localSt.households,
          x.id = h.id → x = h := by
        rw [h2h]; exact fun x hx hxid => List.inj_on_of_nodup_map hhn hx hh hxid
      have hbound : ∀ x ∈ (downloadVillages r (downloadWards r (initDnState ls))).localSt.households,
          x.id < (downloadVillages r (downloadWards r (initDnState ls))).localSt.nextHouseholdId := by
        rw [h2h, h2n]; exact hhb
      have hh3 := downloadHouseholdsPhase_untouched r
        (downloadVillages r (downloadWards r (initDnState ls))) h hh2 huniq hbound hcode
      rw [hres, hf4.2.2]
      exact hh3
    · intro c hc hkey
      have h3c : (downloadHouseholds r (downloadVillages r (downloadWards r
          (initDnState ls)))).localSt.citizens = ls.citizens :=
        (hf3.2.2.1.trans hf2.2.2.1).trans hf1.2.2.1
      have h3n : (downloadHouseholds r (downloadVillages r (downloadWards r
          (initDnState ls)))).localSt.nextCitizenId = ls.nextCitizenId :=
        (hf3.2.2.2.2.2.trans hf2.2.2.2.2.2).trans hf1.2.2.2.2.2
      have hc3 : c ∈ (downloadHouseholds r (downloadVillages r (downloadWards r
          (initDnState ls)))).localSt.citizens := by
        rw [h3c]; exact hc
      have huniq : ∀ x ∈ (downloadHouseholds r (downloadVillages r (downloadWards r
          (initDnState ls)))).localSt.citizens, x.id = c.id → x = c := by
        rw [h3c]; exact fun x hx hxid => List.inj_on_of_nodup_map hcn hx hc hxid
      have hbound : ∀ x ∈ (downloadHouseholds r (downloadVillages r (downloadWards r
          (initDnState ls)))).localSt.citizens,
          x.id < (downloadHouseholds r (downloadVillages r (downloadWards r
            (initDnState ls)))).localSt.nextCitizenId := by
        rw [h3c, h3n]; exact hcb
      have hc4 := downloadCitizensPhase_untouched r
        (downloadHouseholds r (downloadVillages r (downloadWards r (initDnState ls))))
        c hc3 huniq hbound hkey
      rw [hres]
      exact hc4
    · intro w hw
      obtain ⟨y, hy, hid⟩ := downloadWardsPhase_keeps_ids r (initDnState ls) w hw
      rw [hres, hf4.1, hf3.1, hf2.1]
      exact ⟨y, hy, hid⟩
    · intro v hv
      have hv1 : v ∈ (downloadWards r (initDnState ls)).localSt.villages := by
        rw [hf1.1]; exact hv
      obtain ⟨y, hy, hid⟩ := downloadVillagesPhase_keeps_ids r
        (downloadWards r (initDnState ls)) v hv1
      rw [hres, hf4.2.1, hf3.2.1]
      exact ⟨y, hy, hid⟩
    · intro h hh
      have hh2 : h ∈ (downloadVillages r (downloadWards r (initDnState ls))).localSt.households := by
        rw [hf2.2.1, hf1.2.1]; exact hh
      obtain ⟨y, hy, hid⟩ := downloadHouseholdsPhase_keeps_ids r
        (downloadVillages r (downloadWards r (initDnState ls))) h hh2
      rw [hres, hf4.2.2]
      exact ⟨y, hy, hid⟩
    · intro c hc
      have hc3 : c ∈ (downloadHouseholds r (downloadVillages r (downloadWards r
          (initDnState ls)))).localSt.citizens := by
        rw [hf3.2.2.1, hf2.2.2.1, hf1.2.2.1]; exact hc
      obtain ⟨y, hy, hid⟩ := downloadCitizensPhase_keeps_ids r
        (downloadHouseholds r (downloadVillages r (downloadWards r (initDnState ls)))) c hc3
      rw [hres]
      exact ⟨y, hy, hid⟩
    · intro w hw
      obtain ⟨y, hy, hid⟩ := uploadWardsFold_keeps_ids ls.wards (initUpState env r) w hw
      rw [hsync, hu4.1, hu3.1, hu2.1]
      exact ⟨y, hy, hid⟩
    · intro v hv
      have hv1 : v ∈ (uploadWards (initUpState env r) ls.wards).remote.villages := by
        rw [hu1.1]; exact hv
      obtain ⟨y, hy, hid⟩ := uploadVillagesFold_keeps_ids ls.villages
        (uploadWards (initUpState env r) ls.wards) v hv1
      rw [hsync, hu4.2.1, hu3.2.1]
      exact ⟨y, hy, hid⟩
    · intro h hh
      have hh2 : h ∈ (uploadVillages (uploadWards (initUpState env r) ls.wards)
          ls.villages).remote.households := by
        rw [hu2.2.1, hu1.2.1]; exact hh
      obtain ⟨y, hy, hid⟩ := uploadHouseholdsFold_keeps_ids ls.households
        (uploadVillages (uploadWards (initUpState env r) ls.wards) ls.villages) h hh2
      rw [hsync, hu4.2.2]
      exact ⟨y, hy, hid⟩
    · intro c hc
      have hc3 : c ∈ (uploadHouseholds (uploadVillages (uploadWards (initUpState env r)
          ls.wards) ls.villages) ls.households).remote.citizens := by
        rw [hu3.2.2, hu2.2.2, hu1.2.2]; exact hc
      obtain ⟨y, hy, hid⟩ := uploadCitizensFold_keeps_ids env ls.citizens
        (uploadHouseholds (uploadVillages (uploadWards (initUpState env r) ls.wards)
          ls.villages) ls.households) c hc3
      rw [hsync]
      exact ⟨y, hy, hid⟩

/-- Witness for C9 at the sample store: the id-wellformedness hypotheses hold
there, and the conclusion follows by applying the theorem. -/
theorem c9_downloadNeverDeletes_witness :
    (sampleLocal.wards.map (fun w => w.id)).Nodup ∧
    (∀ w ∈ sampleLocal.wards, w.id < sampleLocal.nextWardId) ∧
    (∀ w ∈ sampleLocal.wards,
       ∃ y ∈ (restoreFromSupabase sampleEnv sampleLocal emptyRemote).2.wards, y.id = w.id) :=
  ⟨by decide, by decide,
   (c9_downloadNeverDeletes sampleEnv sampleLocal emptyRemote
     (by decide) (by decide) (by decide) (by decide)
     (by decide) (by decide) (by decide) (by decide)).2.2.2.2.1⟩

/-! ## Helper lemmas for the duplicate reporting rule (C7) -/

/-- `findDuplicates` is the sort of the fold of `dupBody`. -/
theorem findDuplicates_eq_dupBody (n : CitizenInput) (cs : List Citizen) (thr : JsNum) :
    findDuplicates n cs thr =
      List.insertionSort (fun a b => JsNum.le b.matchScore a.matchScore)
        (cs.foldl (dupBody n thr) []) := rfl

/-- One loop iteration appends exactly the selected match (if any). -/
theorem dupBody_eq_toList (n : CitizenInput) (thr : JsNum)
    (ds : List DuplicateMatch) (e : Citizen) :
    dupBody n thr ds e = ds ++ (selectCitizen n thr e).toList := by
  simp only [dupBody, selectCitizen]
  by_cases h1 : (scoreCitizen n e).scoreCount > 0
  · rw [if_pos h1, if_pos h1]
    by_cases h2 : thr.le ((scoreCitizen n e).totalScore.div
        (JsNum.ofNat (scoreCitizen n e).scoreCount)) ∧
        (scoreCitizen n e).matchReasons.length ≥ 2
    · rw [if_pos h2, if_pos h2]; rfl
    · rw [if_neg h2, if_neg h2]; simp
  · rw [if_neg h1, if_neg h1]; simp

/-- The `findDuplicates` fold collects exactly the selected matches. -/
theorem dupFold_eq_filterMap (n : CitizenInput) (thr : JsNum) (cs : List Citizen) :
    ∀ ds : List DuplicateMatch,
      cs.foldl (dupBody n thr) ds = ds ++ cs.filterMap (selectCitizen n thr) := by
  induction cs with
  | nil => intro ds; simp
  | cons e cs ih =>
    intro ds
    rw [List.foldl_cons, dupBody_eq_toList, ih, List.filterMap_cons]
    cases hsel : selectCitizen n thr e <;> simp [hsel]

/-- Membership in the `findDuplicates` result is selection of some scanned
record (the sort is a permutation, so membership passes through it). -/
theorem findDuplicates_mem (n : CitizenInput) (cs : List Citizen) (thr : JsNum)
    (m : DuplicateMatch) :
    m ∈ findDuplicates n cs thr ↔ ∃ e ∈ cs, selectCitizen n thr e = some m := by
  rw [findDuplicates_eq_dupBody, (List.perm_insertionSort _ _).mem_iff,
      dupFold_eq_filterMap, List.nil_append, List.mem_filterMap]

/-- When `selectCitizen` reports a match: positive signal count, score at or
above threshold, at least two reasons, and the match carries the computed
score (total divided by count) together with the accumulated reasons. -/
theorem selectCitizen_eq_some (n : CitizenInput) (thr : JsNum) (e : Citizen)
    (m : DuplicateMatch) :
    selectCitizen n thr e = some m ↔
      0 < (scoreCitizen n e).scoreCount ∧
      thr.le ((scoreCitizen n e).totalScore.div
        (JsNum.ofNat (scoreCitizen n e).scoreCount)) ∧
      2 ≤ (scoreCitizen n e).matchReasons.length ∧
      m = ⟨e, (scoreCitizen n e).totalScore.div
             (JsNum.ofNat (scoreCitizen n e).scoreCount),
           (scoreCitizen n e).matchReasons⟩ := by
  simp only [selectCitizen]
  by_cases h1 : (scoreCitizen n e).scoreCount > 0
  · rw [if_pos h1]
    by_cases h2 : thr.le ((scoreCitizen n e).totalScore.div
        (JsNum.ofNat (scoreCitizen n e).scoreCount)) ∧
        (scoreCitizen n e).matchReasons.length ≥ 2
    · rw [if_pos h2]
      constructor
      · intro hsome
        exact ⟨h1, h2.1, h2.2, ((Option.some.injEq _ _).mp hsome).symm⟩
      · intro ⟨_, _, _, hm⟩
        rw [hm]
    · rw [if_neg h2]
      constructor
      · intro h; exact absurd h (by simp)
      · intro ⟨_, ha, hb, _⟩; exact absurd ⟨ha, hb⟩ h2
  · rw [if_neg h1]
    constructor
    · intro h; exact absurd h (by simp)
    · intro ⟨ha, _, _, _⟩; exact absurd ha h1

/-- A signal check either returns the accumulator unchanged or records one
signal; either way the reasons-length-equals-count invariant is preserved. -/
theorem signal_length_step (acc acc' : SignalAcc)
    (h : acc' = acc ∨ ∃ r s, acc' = addSignal acc r s)
    (hlen : acc.matchReasons.length = acc.scoreCount) :
    acc'.matchReasons.length = acc'.scoreCount := by
  rcases h with rfl | ⟨r, s, rfl⟩
  · exact hlen
  · simp [addSignal, hlen]

/-- `checkFirstName` either keeps the accumulator or adds a signal. -/
theorem checkFirstName_shape (n : CitizenInput) (e : Citizen) (acc : SignalAcc) :
    checkFirstName n e acc = acc ∨ ∃ r s, checkFirstName n e acc = addSignal acc r s := by
  unfold checkFirstName
  cases n.firstName with
  | none => exact Or.inl rfl
  | some nf =>
    dsimp only
    by_cases h1 : nf ≠ "" ∧ e.firstName ≠ ""
    · rw [if_pos h1]
      by_cases h2 : JsNum.lt ⟨8, 10⟩ (stringSimilarity nf e.firstName)
      · rw [if_pos h2]; exact Or.inr ⟨_, _, rfl⟩
      · rw [if_neg h2]; exact Or.inl rfl
    · rw [if_neg h1]; exact Or.inl rfl

/-- `checkLastName` either keeps the accumulator or adds a signal. -/
theorem checkLastName_shape (n : CitizenInput) (e : Citizen) (acc : SignalAcc) :
    checkLastName n e acc = acc ∨ ∃ r s, checkLastName n e acc = addSignal acc r s := by
  unfold checkLastName
  cases n.lastName with
  | none => exact Or.inl rfl
  | some nl =>
    dsimp only
    by_cases h1 : nl ≠ "" ∧ e.lastName ≠ ""
    · rw [if_pos h1]
      by_cases h2 : JsNum.lt ⟨8, 10⟩ (stringSimilarity nl e.lastName)
      · rw [if_pos h2]; exact Or.inr ⟨_, _, rfl⟩
      · rw [if_neg h2]; exact Or.inl rfl
    · rw [if_neg h1]; exact Or.inl rfl

/-- `checkPhone` either keeps the accumulator or adds a signal. -/
theorem checkPhone_shape (n : CitizenInput) (e : Citizen) (acc : SignalAcc) :
    checkPhone n e acc = acc ∨ ∃ r s, checkPhone n e acc = addSignal acc r s := by
  unfold checkPhone
  cases n.phoneNumber with
  | none => exact Or.inl rfl
  | some np =>
    cases e.phoneNumber with
    | none => exact Or.inl rfl
    | some ep =>
      dsimp only
      by_cases h1 : np ≠ "" ∧ ep ≠ ""
      · rw [if_pos h1]
        by_cases h2 : digitsOnly np = digitsOnly ep ∧ (digitsOnly np).length > 0
        · rw [if_pos h2]; exact Or.inr ⟨_, _, rfl⟩
        · rw [if_neg h2]; exact Or.inl rfl
      · rw [if_neg h1]; exact Or.inl rfl

/-- `checkDob` either keeps the accumulator or adds a signal. -/
theorem checkDob_shape (n : CitizenInput) (e : Citizen) (acc : SignalAcc) :
    checkDob n e acc = acc ∨ ∃ r s, checkDob n e acc = addSignal acc r s := by
  unfold checkDob
  cases n.dateOfBirth with
  | none => exact Or.inl rfl
  | some nd =>
    cases e.dateOfBirth with
    | none => exact Or.inl rfl
    | some ed =>
      dsimp only
      by_cases h : nd / msPerDay = ed / msPerDay
      · rw [if_pos h]; exact Or.inr ⟨_, _, rfl⟩
      · rw [if_neg h]; exact Or.inl rfl

/-- `checkHousehold` either keeps the accumulator or adds a signal. -/
theorem checkHousehold_shape (n : CitizenInput) (e : Citizen) (acc : SignalAcc) :
    checkHousehold n e acc = acc ∨ ∃ r s, checkHousehold n e acc = addSignal acc r s := by
  unfold checkHousehold
  cases n.householdId with
  | none => exact Or.inl rfl
  | some nh =>
    dsimp only
    by_cases h : nh ≠ 0 ∧ e.householdId ≠ 0 ∧ nh = e.householdId
    · rw [if_pos h]; exact Or.inr ⟨_, _, rfl⟩
    · rw [if_neg h]; exact Or.inl rfl

/-- `checkVillage` either keeps the accumulator or adds a signal. -/
theorem checkVillage_shape (n : CitizenInput) (e : Citizen) (acc : SignalAcc) :
    checkVillage n e acc = acc ∨ ∃ r s, checkVillage n e acc = addSignal acc r s := by
  unfold checkVillage
  cases n.villageId with
  | none => exact Or.inl rfl
  | some nv =>
    dsimp only
    by_cases h : nv ≠ 0 ∧ e.villageId ≠ 0 ∧ nv = e.villageId
    · rw [if_pos h]; exact Or.inr ⟨_, _, rfl⟩
    · rw [if_neg h]; exact Or.inl rfl

/-- Every recorded reason corresponds to exactly one counted signal:
`matchReasons.length = scoreCount` after the whole scoring pass, so the
source's `matchReasons.length >= 2` gate is a two-signal gate. -/
theorem scoreCitizen_reasons_length (n : CitizenInput) (e : Citizen) :
    (scoreCitizen n e).matchReasons.length = (scoreCitizen n e).scoreCount := by
  unfold scoreCitizen
  apply signal_length_step _ _ (checkVillage_shape n e _)
  apply signal_length_step _ _ (checkHousehold_shape n e _)
  apply signal_length_step _ _ (checkDob_shape n e _)
  apply signal_length_step _ _ (checkPhone_shape n e _)
  apply signal_length_step _ _ (checkLastName_shape n e _)
  apply signal_length_step _ _ (checkFirstName_shape n e _)
  rfl

/-- **C7** (duplicate reporting rule): for every candidate, every scanned
record list and every threshold, (a) every reported match is a scanned record
whose `matchScore` is the accumulated signal total divided by the number of
contributing signals, whose reasons are the accumulated signal reasons, with
`threshold <= matchScore` and at least two contributing signals; (b) every
scanned record meeting those conditions is reported; and (c) a record for
which at most one signal contributed — e.g. same village alone — is never
reported, regardless of threshold. -/
theorem c7_duplicateReportingRule (newCitizen : CitizenInput)
    (existingCitizens : List Citizen) (threshold : JsNum) :
    (∀ m ∈ findDuplicates newCitizen existingCitizens threshold,
       m.citizen ∈ existingCitizens ∧
       0 < (scoreCitizen newCitizen m.citizen).scoreCount ∧
       m.matchScore = (scoreCitizen newCitizen m.citizen).totalScore.div
         (JsNum.ofNat (scoreCitizen newCitizen m.citizen).scoreCount) ∧
       m.matchReasons = (scoreCitizen newCitizen m.citizen).matchReasons ∧
       threshold.le m.matchScore ∧
       2 ≤ (scoreCitizen newCitizen m.citizen).scoreCount) ∧
    (∀ e ∈ existingCitizens,
       0 < (scoreCitizen newCitizen e).scoreCount →
       threshold.le ((scoreCitizen newCitizen e).totalScore.div
         (JsNum.ofNat (scoreCitizen newCitizen e).scoreCount)) →
       2 ≤ (scoreCitizen newCitizen e).scoreCount →
       (⟨e, (scoreCitizen newCitizen e).totalScore.div
              (JsNum.ofNat (scoreCitizen newCitizen e).scoreCount),
           (scoreCitizen newCitizen e).matchReasons⟩ : DuplicateMatch) ∈
         findDuplicates newCitizen existingCitizens threshold) ∧
    (∀ e ∈ existingCitizens, (scoreCitizen newCitizen e).scoreCount ≤ 1 →
       ∀ m ∈ findDuplicates newCitizen existingCitizens threshold, m.citizen ≠ e) := by
  refine ⟨?_, ?_, ?_⟩
  · intro m hm
    obtain ⟨e, he, hsel⟩ := (findDuplicates_mem newCitizen existingCitizens threshold m).mp hm
    obtain ⟨h1, h2, h3, hmeq⟩ := (selectCitizen_eq_some newCitizen threshold e m).mp hsel
    subst hmeq
    exact ⟨he, h1, rfl, rfl, h2, (scoreCitizen_reasons_length newCitizen e) ▸ h3⟩
  · intro e he h1 h2 h3
    exact (findDuplicates_mem newCitizen existingCitizens threshold _).mpr
      ⟨e, he, (selectCitizen_eq_some newCitizen threshold e _).mpr
        ⟨h1, h2, (scoreCitizen_reasons_length newCitizen e).symm ▸ h3, rfl⟩⟩
  · intro e _ hle m hm hcit
    obtain ⟨x, _, hsel⟩ := (findDuplicates_mem newCitizen existingCitizens threshold m).mp hm
    obtain ⟨_, _, h3, hmeq⟩ := (selectCitizen_eq_some newCitizen threshold x m).mp hsel
    subst hmeq
    rw [show x = e from hcit] at h3
    have := (scoreCitizen_reasons_length newCitizen e) ▸ h3
    omega
/-- Witness for C7: in the fuzzy scenario only one signal contributes, so the
theorem's single-signal clause applies and rules out every report against
that record. -/
theorem c7_duplicateReportingRule_witness :
    scenarioExisting ∈ [scenarioExisting] ∧
    (scoreCitizen scenarioCandidate scenarioExisting).scoreCount ≤ 1 ∧
    (∀ m ∈ findDuplicates scenarioCandidate [scenarioExisting] ⟨6, 10⟩,
       m.citizen ≠ scenarioExisting) :=
  ⟨by simp, by decide,
   (c7_duplicateReportingRule scenarioCandidate [scenarioExisting] ⟨6, 10⟩).2.2
     scenarioExisting (by simp) (by decide)⟩

/-! ## Helper lemmas for run characterisation (C1, C2) -/

/-- Setting then getting the same key. -/
theorem mapGet_set_self (m : List (Nat × Nat)) (k v : Nat) :
    mapGet (mapSet m k v) k = some v := by
  simp [mapGet, mapSet, List.find?_cons]

/-- Setting then getting a different key. -/
theorem mapGet_set_ne (m : List (Nat × Nat)) (k v x : Nat) (h : x ≠ k) :
    mapGet (mapSet m k v) x = mapGet m x := by
  have : (k == x) = false := by simpa using fun he => h he.symm
  simp [mapGet, mapSet, List.find?_cons, this]

/-- An update overwrite with the value already there is the identity. -/
theorem updCol_self (x : Option α) : updCol x x = x := by cases x <;> rfl

/-- A present value overwrites the column. -/
theorem updCol_some (v : α) (x : Option α) : updCol (some v) x = some v := rfl

/-- An absent value leaves the column untouched. -/
theorem updCol_none (x : Option α) : updCol (none : Option α) x = x := rfl

/-- Replacing the matched elements of a list by a row they already equal
leaves the list unchanged. -/
theorem map_replace_self (l : List α) (q : α → Prop) [DecidablePred q] (row : α)
    (h : ∀ x ∈ l, q x → x = row) : l.map (fun x => if q x then row else x) = l := by
  induction l with
  | nil => rfl
  | cons a l ih =>
    simp only [List.map_cons]
    rw [ih (fun x hx => h x (List.mem_cons_of_mem a hx))]
    by_cases hq : q a
    · rw [if_pos hq, h a (List.mem_cons_self a l) hq]
    · rw [if_neg hq]

/-- A code matching no ward row selects nothing. -/
theorem remoteSelectWardId_none (r : RemoteState) (code : String)
    (h : ∀ rw ∈ r.wards, rw.code ≠ code) : remoteSelectWardId r code = none := by
  unfold remoteSelectWardId
  cases hre : r.reachable
  · simp
  · have hf : r.wards.filter (fun w => w.code == code) = [] := by
      rw [List.filter_eq_nil_iff]
      intro a ha
      simpa using h a ha
    simp [hf]

/-- A code matching exactly one ward row selects its id. -/
theorem remoteSelectWardId_single (r : RemoteState) (code : String) (row : SupabaseWard)
    (hre : r.reachable = true)
    (hf : r.wards.filter (fun w => w.code == code) = [row]) :
    remoteSelectWardId r code = some row.id := by
  unfold remoteSelectWardId
  simp [hre, hf]

/-- A code matching no village row selects nothing. -/
theorem remoteSelectVillageId_none (r : RemoteState) (code : String)
    (h : ∀ rv ∈ r.villages, rv.code ≠ code) : remoteSelectVillageId r code = none := by
  unfold remoteSelectVillageId
  cases hre : r.reachable
  · simp
  · have hf : r.villages.filter (fun v => v.code == code) = [] := by
      rw [List.filter_eq_nil_iff]
      intro a ha
      simpa using h a ha
    simp [hf]

/-- A code matching exactly one village row selects its id. -/
theorem remoteSelectVillageId_single (r : RemoteState) (code : String) (row : SupabaseVillage)
    (hre : r.reachable = true)
    (hf : r.villages.filter (fun v => v.code == code) = [row]) :
    remoteSelectVillageId r code = some row.id := by
  unfold remoteSelectVillageId
  simp [hre, hf]

/-- A code matching no household row selects nothing. -/
theorem remoteSelectHouseholdId_none (r : RemoteState) (code : String)
    (h : ∀ rh ∈ r.households, rh.code ≠ code) : remoteSelectHouseholdId r code = none := by
  unfold remoteSelectHouseholdId
  cases hre : r.reachable
  · simp
  · have hf : r.households.filter (fun hh => hh.code == code) = [] := by
      rw [List.filter_eq_nil_iff]
      intro a ha
      simpa using h a ha
    simp [hf]

/-- A code matching exactly one household row selects its id. -/
theorem remoteSelectHouseholdId_single (r : RemoteState) (code : String) (row : SupabaseHousehold)
    (hre : r.reachable = true)
    (hf : r.households.filter (fun hh => hh.code == code) = [row]) :
    remoteSelectHouseholdId r code = some row.id := by
  unfold remoteSelectHouseholdId
  simp [hre, hf]

/-- A unique id matching no citizen row selects nothing. -/
theorem remoteSelectCitizenId_none (r : RemoteState) (uid : String)
    (h : ∀ rc ∈ r.citizens, rc.unique_id ≠ uid) : remoteSelectCitizenId r uid = none := by
  unfold remoteSelectCitizenId
  cases hre : r.reachable
  · simp
  · have hf : r.citizens.filter (fun c => c.unique_id == uid) = [] := by
      rw [List.filter_eq_nil_iff]
      intro a ha
      simpa using h a ha
    simp [hf]

/-- A unique id matching exactly one citizen row selects its id. -/
theorem remoteSelectCitizenId_single (r : RemoteState) (uid : String) (row : SupabaseCitizen)
    (hre : r.reachable = true)
    (hf : r.citizens.filter (fun c => c.unique_id == uid) = [row]) :
    remoteSelectCitizenId r uid = some row.id := by
  unfold remoteSelectCitizenId
  simp [hre, hf]

/-- Keys outside the processed ward list fall through the accumulated map. -/
theorem wardPairs_get_skip (ws : List Ward) : ∀ u m x, x ∉ ws.map (fun w => w.id) →
    mapGet (wardPairs ws u m) x = mapGet m x := by
  induction ws with
  | nil => intro u m x _; rfl
  | cons w ws ih =>
    intro u m x hx
    simp only [List.map_cons, List.mem_cons, not_or] at hx
    rw [wardPairs, ih (u + 1) _ x hx.2, mapGet_set_ne _ _ _ _ hx.1]

/-- A processed ward id (or an already-present key) is in the ward map. -/
theorem wardPairs_get_isSome (ws : List Ward) : ∀ u m x,
    ((∃ w ∈ ws, w.id = x) ∨ (mapGet m x).isSome = true) →
    (mapGet (wardPairs ws u m) x).isSome = true := by
  induction ws with
  | nil =>
    intro u m x h
    rcases h with ⟨w, hw, _⟩ | h
    · exact absurd hw (List.not_mem_nil w)
    · exact h
  | cons w ws ih =>
    intro u m x h
    rw [wardPairs]
    apply ih
    rcases h with ⟨w', hw', hx⟩ | h
    · rcases List.mem_cons.mp hw' with rfl | hmem
      · right; subst hx; rw [mapGet_set_self]; rfl
      · left; exact ⟨w', hmem, hx⟩
    · right
      by_cases hxk : x = w.id
      · subst hxk; rw [mapGet_set_self]; rfl
      · rw [mapGet_set_ne _ _ _ _ hxk]; exact h

/-- Keys outside the processed village list fall through the map. -/
theorem villagePairs_get_skip (vs : List Village) : ∀ u m x, x ∉ vs.map (fun v => v.id) →
    mapGet (villagePairs vs u m) x = mapGet m x := by
  induction vs with
  | nil => intro u m x _; rfl
  | cons v vs ih =>
    intro u m x hx
    simp only [List.map_cons, List.mem_cons, not_or] at hx
    rw [villagePairs, ih (u + 1) _ x hx.2, mapGet_set_ne _ _ _ _ hx.1]

/-- A processed village id (or an already-present key) is in the map. -/
theorem villagePairs_get_isSome (vs : List Village) : ∀ u m x,
    ((∃ v ∈ vs, v.id = x) ∨ (mapGet m x).isSome = true) →
    (mapGet (villagePairs vs u m) x).isSome = true := by
  induction vs with
  | nil =>
    intro u m x h
    rcases h with ⟨v, hv, _⟩ | h
    · exact absurd hv (List.not_mem_nil v)
    · exact h
  | cons v vs ih =>
    intro u m x h
    rw [villagePairs]
    apply ih
    rcases h with ⟨v', hv', hx⟩ | h
    · rcases List.mem_cons.mp hv' with rfl | hmem
      · right; subst hx; rw [mapGet_set_self]; rfl
      · left; exact ⟨v', hmem, hx⟩
    · right
      by_cases hxk : x = v.id
      · subst hxk; rw [mapGet_set_self]; rfl
      · rw [mapGet_set_ne _ _ _ _ hxk]; exact h

/-- Keys outside the processed household list fall through the map. -/
theorem householdPairs_get_skip (hs : List Household) : ∀ u m x, x ∉ hs.map (fun h => h.id) →
    mapGet (householdPairs hs u m) x = mapGet m x := by
  induction hs with
  | nil => intro u m x _; rfl
  | cons h hs ih =>
    intro u m x hx
    simp only [List.map_cons, List.mem_cons, not_or] at hx
    rw [householdPairs, ih (u + 1) _ x hx.2, mapGet_set_ne _ _ _ _ hx.1]

/-- A processed household id (or an already-present key) is in the map. -/
theorem householdPairs_get_isSome (hs : List Household) : ∀ u m x,
    ((∃ h ∈ hs, h.id = x) ∨ (mapGet m x).isSome = true) →
    (mapGet (householdPairs hs u m) x).isSome = true := by
  induction hs with
  | nil =>
    intro u m x hyp
    rcases hyp with ⟨h, hh, _⟩ | hyp
    · exact absurd hh (List.not_mem_nil h)
    · exact hyp
  | cons h hs ih =>
    intro u m x hyp
    rw [householdPairs]
    apply ih
    rcases hyp with ⟨h', hh', hx⟩ | hyp
    · rcases List.mem_cons.mp hh' with rfl | hmem
      · right; subst hx; rw [mapGet_set_self]; rfl
      · left; exact ⟨h', hmem, hx⟩
    · right
      by_cases hxk : x = h.id
      · subst hxk; rw [mapGet_set_self]; rfl
      · rw [mapGet_set_ne _ _ _ _ hxk]; exact hyp

/-- The inserted ward rows carry the local codes, in order. -/
theorem insertedWards_codes (ws : List Ward) : ∀ u,
    (insertedWards ws u).map (fun rw => rw.code) = ws.map (fun w => w.code) := by
  induction ws with
  | nil => intro u; rfl
  | cons w ws ih => intro u; simp [insertedWards, wardToSupabase, ih]

/-- The inserted ward rows carry consecutive fresh ids. -/
theorem insertedWards_ids (ws : List Ward) : ∀ u,
    (insertedWards ws u).map (fun rw => rw.id) = List.range' u ws.length := by
  induction ws with
  | nil => intro u; rfl
  | cons w ws ih => intro u; simp [insertedWards, wardToSupabase, ih, List.range'_succ]

/-- The inserted ward rows carry the local creation timestamps, in order. -/
theorem insertedWards_created (ws : List Ward) : ∀ u,
    (insertedWards ws u).map (fun rw => rw.created_at) = ws.map (fun w => w.createdAt) := by
  induction ws with
  | nil => intro u; rfl
  | cons w ws ih => intro u; simp [insertedWards, wardToSupabase, ih]

/-- A code absent from the ward list matches no inserted ward row. -/
theorem insertedWards_filter_nil (ws : List Ward) : ∀ u (code : String),
    code ∉ ws.map (fun w => w.code) →
    (insertedWards ws u).filter (fun rw => rw.code == code) = [] := by
  induction ws with
  | nil => intro u code _; rfl
  | cons w ws ih =>
    intro u code hc
    simp only [List.map_cons, List.mem_cons, not_or] at hc
    have h1 : ((wardToSupabase w none u).code == code) = false := by
      simpa [wardToSupabase] using fun he => hc.1 he.symm
    simp only [insertedWards, List.filter_cons, h1, Bool.false_eq_true, if_false]
    exact ih (u + 1) code hc.2

/-- The inserted village rows carry the local codes, in order. -/
theorem insertedVillages_codes (μw : List (Nat × Nat)) (vs : List Village) : ∀ u,
    (insertedVillages μw vs u).map (fun rv => rv.code) = vs.map (fun v => v.code) := by
  induction vs with
  | nil => intro u; rfl
  | cons v vs ih => intro u; simp [insertedVillages, villageToSupabase, ih]

/-- The inserted village rows carry consecutive fresh ids. -/
theorem insertedVillages_ids (μw : List (Nat × Nat)) (vs : List Village) : ∀ u,
    (insertedVillages μw vs u).map (fun rv => rv.id) = List.range' u vs.length := by
  induction vs with
  | nil => intro u; rfl
  | cons v vs ih => intro u; simp [insertedVillages, villageToSupabase, ih, List.range'_succ]

/-- The inserted village rows carry the local creation timestamps. -/
theorem insertedVillages_created (μw : List (Nat × Nat)) (vs : List Village) : ∀ u,
    (insertedVillages μw vs u).map (fun rv => rv.created_at) = vs.map (fun v => v.createdAt) := by
  induction vs with
  | nil => intro u; rfl
  | cons v vs ih => intro u; simp [insertedVillages, villageToSupabase, ih]

/-- A code absent from the village list matches no inserted village row. -/
theorem insertedVillages_filter_nil (μw : List (Nat × Nat)) (vs : List Village) : ∀ u (code : String),
    code ∉ vs.map (fun v => v.code) →
    (insertedVillages μw vs u).filter (fun rv => rv.code == code) = [] := by
  induction vs with
  | nil => intro u code _; rfl
  | cons v vs ih =>
    intro u code hc
    simp only [List.map_cons, List.mem_cons, not_or] at hc
    have h1 : ((villageToSupabase v ((mapGet μw v.wardId).getD 0) none u).code == code) = false := by
      simpa [villageToSupabase] using fun he => hc.1 he.symm
    simp only [insertedVillages, List.filter_cons, h1, Bool.false_eq_true, if_false]
    exact ih (u + 1) code hc.2

/-- The inserted household rows carry the local codes, in order. -/
theorem insertedHouseholds_codes (μv : List (Nat × Nat)) (hs : List Household) : ∀ u,
    (insertedHouseholds μv hs u).map (fun rh => rh.code) = hs.map (fun h => h.code) := by
  induction hs with
  | nil => intro u; rfl
  | cons h hs ih => intro u; simp [insertedHouseholds, householdToSupabase, ih]

/-- The inserted household rows carry consecutive fresh ids. -/
theorem insertedHouseholds_ids (μv : List (Nat × Nat)) (hs : List Household) : ∀ u,
    (insertedHouseholds μv hs u).map (fun rh => rh.id) = List.range' u hs.length := by
  induction hs with
  | nil => intro u; rfl
  | cons h hs ih => intro u; simp [insertedHouseholds, householdToSupabase, ih, List.range'_succ]

/-- The inserted household rows carry the local creation timestamps. -/
theorem insertedHouseholds_created (μv : List (Nat × Nat)) (hs : List Household) : ∀ u,
    (insertedHouseholds μv hs u).map (fun rh => rh.created_at) = hs.map (fun h => h.createdAt) := by
  induction hs with
  | nil => intro u; rfl
  | cons h hs ih => intro u; simp [insertedHouseholds, householdToSupabase, ih]

/-- A code absent from the household list matches no inserted household row. -/
theorem insertedHouseholds_filter_nil (μv : List (Nat × Nat)) (hs : List Household) :
    ∀ u (code : String), code ∉ hs.map (fun h => h.code) →
    (insertedHouseholds μv hs u).filter (fun rh => rh.code == code) = [] := by
  induction hs with
  | nil => intro u code _; rfl
  | cons h hs ih =>
    intro u code hc
    simp only [List.map_cons, List.mem_cons, not_or] at hc
    have h1 : ((householdToSupabase h ((mapGet μv h.villageId).getD 0) none u).code == code) = false := by
      simpa [householdToSupabase] using fun he => hc.1 he.symm
    simp only [insertedHouseholds, List.filter_cons, h1, Bool.false_eq_true, if_false]
    exact ih (u + 1) code hc.2

/-- The inserted citizen rows carry the local unique ids, in order. -/
theorem insertedCitizens_uids (env : Env) (μh μv μw : List (Nat × Nat)) (cs : List Citizen) : ∀ u,
    (insertedCitizens env μh μv μw cs u).map (fun rc => rc.unique_id) =
      cs.map (fun c => c.uniqueId) := by
  induction cs with
  | nil => intro u; rfl
  | cons c cs ih => intro u; simp [insertedCitizens, insertedCitizen, citizenToSupabase, ih]

/-- The inserted citizen rows carry consecutive fresh ids. -/
theorem insertedCitizens_ids (env : Env) (μh μv μw : List (Nat × Nat)) (cs : List Citizen) : ∀ u,
    (insertedCitizens env μh μv μw cs u).map (fun rc => rc.id) = List.range' u cs.length := by
  induction cs with
  | nil => intro u; rfl
  | cons c cs ih =>
    intro u; simp [insertedCitizens, insertedCitizen, citizenToSupabase, ih, List.range'_succ]

/-- The inserted citizen rows carry the local creation timestamps. -/
theorem insertedCitizens_created (env : Env) (μh μv μw : List (Nat × Nat)) (cs : List Citizen) : ∀ u,
    (insertedCitizens env μh μv μw cs u).map (fun rc => rc.created_at) =
      cs.map (fun c => c.createdAt) := by
  induction cs with
  | nil => intro u; rfl
  | cons c cs ih => intro u; simp [insertedCitizens, insertedCitizen, citizenToSupabase, ih]

/-- A unique id absent from the citizen list matches no inserted citizen row. -/
theorem insertedCitizens_filter_nil (env : Env) (μh μv μw : List (Nat × Nat)) (cs : List Citizen) :
    ∀ u (uid : String), uid ∉ cs.map (fun c => c.uniqueId) →
    (insertedCitizens env μh μv μw cs u).filter (fun rc => rc.unique_id == uid) = [] := by
  induction cs with
  | nil => intro u uid _; rfl
  | cons c cs ih =>
    intro u uid hc
    simp only [List.map_cons, List.mem_cons, not_or] at hc
    have h1 : ((insertedCitizen env μh μv μw c u).unique_id == uid) = false := by
      simpa [insertedCitizen, citizenToSupabase] using fun he => hc.1 he.symm
    simp only [insertedCitizens, List.filter_cons, h1, Bool.false_eq_true, if_false]
    exact ih (u + 1) uid hc.2

/-- One ward upload step against a table with no matching code: the row is
inserted with the next fresh UUID, which advances. -/
theorem uploadWardStep_insert (st : UpState) (w : Ward)
    (hre : st.remote.reachable = true)
    (hdis : ∀ rw ∈ st.remote.wards, rw.code ≠ w.code) :
    uploadWardStep st w =
      { st with
          remote := { st.remote with wards := st.remote.wards ++ [wardToSupabase w none st.uuid] }
          wardIdMap := mapSet st.wardIdMap w.id st.uuid
          uuid := st.uuid + 1
          upWards := st.upWards + 1 } := by
  have hsel := remoteSelectWardId_none st.remote w.code hdis
  simp [uploadWardStep, hsel, remoteInsertWard, hre, wardToSupabase]

/-- The ward phase against a table with no matching codes inserts exactly
the local wards with consecutive fresh UUIDs and accumulates the id map. -/
theorem uploadWards_fresh (ws : List Ward) :
    ∀ st : UpState, st.remote.reachable = true →
      (ws.map (fun w => w.code)).Nodup →
      (∀ w ∈ ws, ∀ rw ∈ st.remote.wards, rw.code ≠ w.code) →
      uploadWards st ws =
        { st with
            remote := { st.remote with wards := st.remote.wards ++ insertedWards ws st.uuid }
            wardIdMap := wardPairs ws st.uuid st.wardIdMap
            uuid := st.uuid + ws.length
            upWards := st.upWards + ws.length } := by
  induction ws with
  | nil =>
    intro st _ _ _
    show st = _
    simp [insertedWards, wardPairs]
  | cons w ws ih =>
    intro st hre hnd hdis
    have hstep := uploadWardStep_insert st w hre
      (fun rw hrw => hdis w (List.mem_cons_self w ws) rw hrw)
    have hnd' := (List.nodup_cons.mp hnd).2
    have hhead := (List.nodup_cons.mp hnd).1
    have hdis' : ∀ w' ∈ ws,
        ∀ rw ∈ st.remote.wards ++ [wardToSupabase w none st.uuid], rw.code ≠ w'.code := by
      intro w' hw' rw hrw
      rcases List.mem_append.mp hrw with hl | hr
      · exact hdis w' (List.mem_cons_of_mem w hw') rw hl
      · rw [List.mem_singleton.mp hr]
        show w.code ≠ w'.code
        intro he
        refine hhead ?_
        simpa [he] using List.mem_map_of_mem (fun x => x.code) hw'
    have hre2 : (uploadWardStep st w).remote.reachable = true := by rw [hstep]; exact hre
    have hdis2 : ∀ w' ∈ ws, ∀ rw ∈ (uploadWardStep st w).remote.wards, rw.code ≠ w'.code := by
      rw [hstep]; exact hdis'
    rw [show uploadWards st (w :: ws) = uploadWards (uploadWardStep st w) ws from rfl,
        ih (uploadWardStep st w) hre2 hnd' hdis2, hstep]
    simp only [insertedWards, wardPairs, List.append_assoc, List.singleton_append,
      List.length_cons, Nat.succ_add]
    rfl

/-- One village upload step against a table with no matching code: the row
is inserted with the parent's mapped UUID. -/
theorem uploadVillageStep_insert (st : UpState) (v : Village) (wid : Nat)
    (hre : st.remote.reachable = true)
    (hget : mapGet st.wardIdMap v.wardId = some wid)
    (hdis : ∀ rv ∈ st.remote.villages, rv.code ≠ v.code) :
    uploadVillageStep st v =
      { st with
          remote := { st.remote with
            villages := st.remote.villages ++ [villageToSupabase v wid none st.uuid] }
          villageIdMap := mapSet st.villageIdMap v.id st.uuid
          uuid := st.uuid + 1
          upVillages := st.upVillages + 1 } := by
  have hsel := remoteSelectVillageId_none st.remote v.code hdis
  simp [uploadVillageStep, hget, hsel, remoteInsertVillage, hre, villageToSupabase]

/-- The village phase against a fresh table: every village is inserted with
a consecutive fresh UUID and its parent resolved through the ward map. -/
theorem uploadVillages_fresh (vs : List Village) :
    ∀ st : UpState, st.remote.reachable = true →
      (vs.map (fun v => v.code)).Nodup →
      (∀ v ∈ vs, ∀ rv ∈ st.remote.villages, rv.code ≠ v.code) →
      (∀ v ∈ vs, (mapGet st.wardIdMap v.wardId).isSome = true) →
      uploadVillages st vs =
        { st with
            remote := { st.remote with
              villages := st.remote.villages ++ insertedVillages st.wardIdMap vs st.uuid }
            villageIdMap := villagePairs vs st.uuid st.villageIdMap
            uuid := st.uuid + vs.length
            upVillages := st.upVillages + vs.length } := by
  induction vs with
  | nil =>
    intro st _ _ _ _
    show st = _
    simp [insertedVillages, villagePairs]
  | cons v vs ih =>
    intro st hre hnd hdis hpar
    obtain ⟨wid, hget⟩ := Option.isSome_iff_exists.mp (hpar v (List.mem_cons_self v vs))
    have hstep := uploadVillageStep_insert st v wid hre hget
      (fun rv hrv => hdis v (List.mem_cons_self v vs) rv hrv)
    have hnd' := (List.nodup_cons.mp hnd).2
    have hhead := (List.nodup_cons.mp hnd).1
    have hdis' : ∀ v' ∈ vs,
        ∀ rv ∈ st.remote.villages ++ [villageToSupabase v wid none st.uuid], rv.code ≠ v'.code := by
      intro v' hv' rv hrv
      rcases List.mem_append.mp hrv with hl | hr
      · exact hdis v' (List.mem_cons_of_mem v hv') rv hl
      · rw [List.mem_singleton.mp hr]
        show v.code ≠ v'.code
        intro he
        refine hhead ?_
        simpa [he] using List.mem_map_of_mem (fun x => x.code) hv'
    have hre2 : (uploadVillageStep st v).remote.reachable = true := by rw [hstep]; exact hre
    have hdis2 : ∀ v' ∈ vs, ∀ rv ∈ (uploadVillageStep st v).remote.villages, rv.code ≠ v'.code := by
      rw [hstep]; exact hdis'
    have hpar2 : ∀ v' ∈ vs, (mapGet (uploadVillageStep st v).wardIdMap v'.wardId).isSome = true := by
      rw [hstep]; exact fun v' hv' => hpar v' (List.mem_cons_of_mem v hv')
    rw [show uploadVillages st (v :: vs) = uploadVillages (uploadVillageStep st v) vs from rfl,
        ih (uploadVillageStep st v) hre2 hnd' hdis2 hpar2, hstep]
    simp only [insertedVillages, villagePairs, List.append_assoc, List.singleton_append,
      List.length_cons, Nat.succ_add, hget, Option.getD_some]
    rfl

/-- One household upload step against a table with no matching code. -/
theorem uploadHouseholdStep_insert (st : UpState) (h : Household) (vid : Nat)
    (hre : st.remote.reachable = true)
    (hget : mapGet st.villageIdMap h.villageId = some vid)
    (hdis : ∀ rh ∈ st.remote.households, rh.code ≠ h.code) :
    uploadHouseholdStep st h =
      { st with
          remote := { st.remote with
            households := st.remote.households ++ [householdToSupabase h vid none st.uuid] }
          householdIdMap := mapSet st.householdIdMap h.id st.uuid
          uuid := st.uuid + 1
          upHouseholds := st.upHouseholds + 1 } := by
  have hsel := remoteSelectHouseholdId_none st.remote h.code hdis
  simp [uploadHouseholdStep, hget, hsel, remoteInsertHousehold, hre, householdToSupabase]

/-- The household phase against a fresh table. -/
theorem uploadHouseholds_fresh (hs : List Household) :
    ∀ st : UpState, st.remote.reachable = true →
      (hs.map (fun h => h.code)).Nodup →
      (∀ h ∈ hs, ∀ rh ∈ st.remote.households, rh.code ≠ h.code) →
      (∀ h ∈ hs, (mapGet st.villageIdMap h.villageId).isSome = true) →
      uploadHouseholds st hs =
        { st with
            remote := { st.remote with
              households := st.remote.households ++ insertedHouseholds st.villageIdMap hs st.uuid }
            householdIdMap := householdPairs hs st.uuid st.householdIdMap
            uuid := st.uuid + hs.length
            upHouseholds := st.upHouseholds + hs.length } := by
  induction hs with
  | nil =>
    intro st _ _ _ _
    show st = _
    simp [insertedHouseholds, householdPairs]
  | cons h hs ih =>
    intro st hre hnd hdis hpar
    obtain ⟨vid, hget⟩ := Option.isSome_iff_exists.mp (hpar h (List.mem_cons_self h hs))
    have hstep := uploadHouseholdStep_insert st h vid hre hget
      (fun rh hrh => hdis h (List.mem_cons_self h hs) rh hrh)
    have hnd' := (List.nodup_cons.mp hnd).2
    have hhead := (List.nodup_cons.mp hnd).1
    have hdis' : ∀ h' ∈ hs,
        ∀ rh ∈ st.remote.households ++ [householdToSupabase h vid none st.uuid],
          rh.code ≠ h'.code := by
      intro h' hh' rh hrh
      rcases List.mem_append.mp hrh with hl | hr
      · exact hdis h' (List.mem_cons_of_mem h hh') rh hl
      · rw [List.mem_singleton.mp hr]
        show h.code ≠ h'.code
        intro he
        refine hhead ?_
        simpa [he] using List.mem_map_of_mem (fun x => x.code) hh'
    have hre2 : (uploadHouseholdStep st h).remote.reachable = true := by rw [hstep]; exact hre
    have hdis2 : ∀ h' ∈ hs, ∀ rh ∈ (uploadHouseholdStep st h).remote.households,
        rh.code ≠ h'.code := by
      rw [hstep]; exact hdis'
    have hpar2 : ∀ h' ∈ hs,
        (mapGet (uploadHouseholdStep st h).villageIdMap h'.villageId).isSome = true := by
      rw [hstep]; exact fun h' hh' => hpar h' (List.mem_cons_of_mem h hh')
    rw [show uploadHouseholds st (h :: hs) = uploadHouseholds (uploadHouseholdStep st h) hs from rfl,
        ih (uploadHouseholdStep st h) hre2 hnd' hdis2 hpar2, hstep]
    simp only [insertedHouseholds, householdPairs, List.append_assoc, List.singleton_append,
      List.length_cons, Nat.succ_add, hget, Option.getD_some]
    rfl

/-- One citizen upload step against a fresh table: attachments are stored
under timestamped names, the row is inserted with the parents' mapped UUIDs
and the attachment URLs that succeeded. -/
theorem uploadCitizenStep_insert (env : Env) (st : UpState) (c : Citizen)
    (hre : st.remote.reachable = true)
    (hpo : st.remote.photosOk = true)
    (hfo : st.remote.fingerprintsOk = true)
    (hgh : (mapGet st.householdIdMap c.householdId).isSome = true)
    (hgv : (mapGet st.villageIdMap c.villageId).isSome = true)
    (hgw : (mapGet st.wardIdMap c.wardId).isSome = true)
    (hdis : ∀ rc ∈ st.remote.citizens, rc.unique_id ≠ c.uniqueId) :
    uploadCitizenStep env st c =
      { st with
          remote := { st.remote with
            citizens := st.remote.citizens ++
              [insertedCitizen env st.householdIdMap st.villageIdMap st.wardIdMap c st.uuid]
            photos := (match c.photoData with
              | none => st.remote.photos
              | some pd => (photoUrlFor c.uniqueId env.now, pd) ::
                  st.remote.photos.filter (fun p => p.1 != photoUrlFor c.uniqueId env.now))
            fingerprints := (match c.fingerprintData with
              | none => st.remote.fingerprints
              | some fd => (fingerprintUrlFor c.uniqueId env.now, fd) ::
                  st.remote.fingerprints.filter
                    (fun p => p.1 != fingerprintUrlFor c.uniqueId env.now)) }
          uuid := st.uuid + 1
          upCitizens := st.upCitizens + 1 } := by
  obtain ⟨hid, hgeth⟩ := Option.isSome_iff_exists.mp hgh
  obtain ⟨vid, hgetv⟩ := Option.isSome_iff_exists.mp hgv
  obtain ⟨wid, hgetw⟩ := Option.isSome_iff_exists.mp hgw
  have hsel := remoteSelectCitizenId_none st.remote c.uniqueId hdis
  cases hpd : c.photoData with
  | none =>
    cases hfd : c.fingerprintData with
    | none =>
      simp [uploadCitizenStep, hgeth, hgetv, hgetw, hsel, hpd, hfd, remoteInsertCitizen,
        hre, insertedCitizen, citizenToSupabase, updCol]
    | some fd =>
      simp [uploadCitizenStep, hgeth, hgetv, hgetw, hsel, hpd, hfd, remoteInsertCitizen,
        uploadFingerprintToStorage, hre, hfo, insertedCitizen, citizenToSupabase, updCol]
  | some pd =>
    cases hfd : c.fingerprintData with
    | none =>
      simp [uploadCitizenStep, hgeth, hgetv, hgetw, hsel, hpd, hfd, remoteInsertCitizen,
        uploadPhotoToStorage, hre, hpo, insertedCitizen, citizenToSupabase, updCol]
    | some fd =>
      simp [uploadCitizenStep, hgeth, hgetv, hgetw, hsel, hpd, hfd, remoteInsertCitizen,
        uploadPhotoToStorage, uploadFingerprintToStorage, hre, hpo, hfo, insertedCitizen,
        citizenToSupabase, updCol]

/-- The citizen phase against a fresh table: every citizen row is inserted
with a consecutive fresh UUID, its parents resolved through the session
maps, and both buckets accumulate the transferred attachments. -/
theorem uploadCitizens_fresh (env : Env) (cs : List Citizen) :
    ∀ st : UpState, st.remote.reachable = true →
      st.remote.photosOk = true → st.remote.fingerprintsOk = true →
      (cs.map (fun c => c.uniqueId)).Nodup →
      (∀ c ∈ cs, ∀ rc ∈ st.remote.citizens, rc.unique_id ≠ c.uniqueId) →
      (∀ c ∈ cs, (mapGet st.householdIdMap c.householdId).isSome = true ∧
                 (mapGet st.villageIdMap c.villageId).isSome = true ∧
                 (mapGet st.wardIdMap c.wardId).isSome = true) →
      uploadCitizens env st cs =
        { st with
            remote := { st.remote with
              citizens := st.remote.citizens ++
                insertedCitizens env st.householdIdMap st.villageIdMap st.wardIdMap cs st.uuid
              photos := citizenPhotos env.now cs st.remote.photos
              fingerprints := citizenFingerprints env.now cs st.remote.fingerprints }
            uuid := st.uuid + cs.length
            upCitizens := st.upCitizens + cs.length } := by
  induction cs with
  | nil =>
    intro st _ _ _ _ _ _
    show st = _
    simp [insertedCitizens, citizenPhotos, citizenFingerprints]
  | cons c cs ih =>
    intro st hre hpo hfo hnd hdis hpar
    obtain ⟨hgh, hgv, hgw⟩ := hpar c (List.mem_cons_self c cs)
    have hstep := uploadCitizenStep_insert env st c hre hpo hfo hgh hgv hgw
      (fun rc hrc => hdis c (List.mem_cons_self c cs) rc hrc)
    have hnd' := (List.nodup_cons.mp hnd).2
    have hhead := (List.nodup_cons.mp hnd).1
    have hdis' : ∀ c' ∈ cs, ∀ rc ∈ st.remote.citizens ++
        [insertedCitizen env st.householdIdMap st.villageIdMap st.wardIdMap c st.uuid],
        rc.unique_id ≠ c'.uniqueId := by
      intro c' hc' rc hrc
      rcases List.mem_append.mp hrc with hl | hr
      · exact hdis c' (List.mem_cons_of_mem c hc') rc hl
      · rw [List.mem_singleton.mp hr]
        show c.uniqueId ≠ c'.uniqueId
        intro he
        refine hhead ?_
        simpa [he] using List.mem_map_of_mem (fun x => x.uniqueId) hc'
    have hre2 : (uploadCitizenStep env st c).remote.reachable = true := by rw [hstep]; exact hre
    have hpo2 : (uploadCitizenStep env st c).remote.photosOk = true := by rw [hstep]; exact hpo
    have hfo2 : (uploadCitizenStep env st c).remote.fingerprintsOk = true := by
      rw [hstep]; exact hfo
    have hdis2 : ∀ c' ∈ cs, ∀ rc ∈ (uploadCitizenStep env st c).remote.citizens,
        rc.unique_id ≠ c'.uniqueId := by
      rw [hstep]; exact hdis'
    have hpar2 : ∀ c' ∈ cs,
        (mapGet (uploadCitizenStep env st c).householdIdMap c'.householdId).isSome = true ∧
        (mapGet (uploadCitizenStep env st c).villageIdMap c'.villageId).isSome = true ∧
        (mapGet (uploadCitizenStep env st c).wardIdMap c'.wardId).isSome = true := by
      rw [hstep]; exact fun c' hc' => hpar c' (List.mem_cons_of_mem c hc')
    rw [show uploadCitizens env st (c :: cs) = uploadCitizens env (uploadCitizenStep env st c) cs
          from rfl,
        ih (uploadCitizenStep env st c) hre2 hpo2 hfo2 hnd' hdis2 hpar2, hstep]
    simp only [insertedCitizens, citizenPhotos, citizenFingerprints, List.append_assoc,
      List.singleton_append, List.length_cons, Nat.succ_add]
    rfl

/-- Phase 1 of a fresh upload run computes `freshSt1`. -/
theorem freshRun_phase1 (env : Env) (ls : LocalState)
    (hwc : (ls.wards.map (fun w => w.code)).Nodup) :
    uploadWards (initUpState env emptyRemote) ls.wards = freshSt1 env ls := by
  rw [uploadWards_fresh ls.wards (initUpState env emptyRemote) rfl hwc
    (fun w _ rx hrx => absurd hrx (List.not_mem_nil rx))]
  simp [initUpState, emptyRemote, freshSt1, freshWardMap]

/-- Phase 2 of a fresh upload run computes `freshSt2`. -/
theorem freshRun_phase2 (env : Env) (ls : LocalState)
    (hvc : (ls.villages.map (fun v => v.code)).Nodup)
    (hvw : ∀ v ∈ ls.villages, ∃ w ∈ ls.wards, w.id = v.wardId) :
    uploadVillages (freshSt1 env ls) ls.villages = freshSt2 env ls := by
  rw [uploadVillages_fresh ls.villages (freshSt1 env ls) rfl hvc
    (fun v _ rx hrx => absurd hrx (List.not_mem_nil rx))
    (fun v hv => wardPairs_get_isSome ls.wards env.uuidStart [] v.wardId
      (Or.inl (hvw v hv)))]
  simp [freshSt1, freshSt2, freshWardMap, freshVillageMap, emptyRemote]

/-- Phase 3 of a fresh upload run computes `freshSt3`. -/
theorem freshRun_phase3 (env : Env) (ls : LocalState)
    (hhc : (ls.households.map (fun h => h.code)).Nodup)
    (hhv : ∀ h ∈ ls.households, ∃ v ∈ ls.villages, v.id = h.villageId) :
    uploadHouseholds (freshSt2 env ls) ls.households = freshSt3 env ls := by
  rw [uploadHouseholds_fresh ls.households (freshSt2 env ls) rfl hhc
    (fun h _ rx hrx => absurd hrx (List.not_mem_nil rx))
    (fun h hh => villagePairs_get_isSome ls.villages (env.uuidStart + ls.wards.length) []
      h.villageId (Or.inl (hhv h hh)))]
  simp [freshSt2, freshSt3, freshVillageMap, freshHouseholdMap, emptyRemote]

/-- Phase 4 of a fresh upload run computes `freshSt4`. -/
theorem freshRun_phase4 (env : Env) (ls : LocalState)
    (hcu : (ls.citizens.map (fun c => c.uniqueId)).Nodup)
    (hch : ∀ c ∈ ls.citizens, (∃ h ∈ ls.households, h.id = c.householdId) ∧
      (∃ v ∈ ls.villages, v.id = c.villageId) ∧ (∃ w ∈ ls.wards, w.id = c.wardId)) :
    uploadCitizens env (freshSt3 env ls) ls.citizens = freshSt4 env ls := by
  rw [uploadCitizens_fresh env ls.citizens (freshSt3 env ls) rfl rfl rfl hcu
    (fun c _ rx hrx => absurd hrx (List.not_mem_nil rx))
    (fun c hc =>
      ⟨householdPairs_get_isSome ls.households
          (env.uuidStart + ls.wards.length + ls.villages.length) [] c.householdId
          (Or.inl (hch c hc).1),
       villagePairs_get_isSome ls.villages (env.uuidStart + ls.wards.length) [] c.villageId
          (Or.inl (hch c hc).2.1),
       wardPairs_get_isSome ls.wards env.uuidStart [] c.wardId
          (Or.inl (hch c hc).2.2)⟩)]
  simp [freshSt3, freshSt4, freshUploadRemote, freshWardMap, freshVillageMap,
    freshHouseholdMap, emptyRemote]

/-- A fresh upload run of a well-formed local store succeeds with full
counters and no errors, and produces exactly `freshUploadRemote`. -/
theorem syncToSupabase_fresh (env : Env) (ls : LocalState)
    (henv : env.online = true) (hwf : WellFormed ls) :
    syncToSupabase env ls emptyRemote =
      ({ success := true
         uploaded := ⟨ls.wards.length, ls.villages.length, ls.households.length,
           ls.citizens.length⟩
         downloaded := ⟨0, 0, 0, 0⟩
         errors := [] }, freshUploadRemote env ls) := by
  obtain ⟨hwc, hvc, hhc, hcu, _, _, _, hvw, hhv, hch⟩ := hwf
  unfold syncToSupabase
  rw [henv]
  dsimp only
  rw [freshRun_phase1 env ls hwc, freshRun_phase2 env ls hvc hvw,
    freshRun_phase3 env ls hhc hhv, freshRun_phase4 env ls hcu hch]
  rfl

/-- One ward download step against a local table with no matching code: the
record is added under the next Dexie key. -/
theorem downloadWardStep_insert (st : DnState) (rw : SupabaseWard)
    (hdis : ∀ w ∈ st.localSt.wards, w.code ≠ rw.code) :
    downloadWardStep st rw =
      { st with
          localSt := { st.localSt with
            wards := st.localSt.wards ++
              [{ toWardData := supabaseToWard rw, id := st.localSt.nextWardId }]
            nextWardId := st.localSt.nextWardId + 1 }
          wardUuidToLocalId := mapSet st.wardUuidToLocalId rw.id st.localSt.nextWardId
          dnWards := st.dnWards + 1 } := by
  have hfind : st.localSt.wards.find? (fun w => w.code == rw.code) = none := by
    rw [List.find?_eq_none]
    intro x hx
    simpa using hdis x hx
  simp [downloadWardStep, hfind, localAddWard]

/-- The ward download phase against fresh rows adds exactly the converted
records with consecutive Dexie keys. -/
theorem downloadWardsFold_insert (rows : List SupabaseWard) :
    ∀ st : DnState,
      (rows.map (fun rw => rw.code)).Nodup →
      (∀ rw ∈ rows, ∀ w ∈ st.localSt.wards, w.code ≠ rw.code) →
      rows.foldl downloadWardStep st =
        { st with
            localSt := { st.localSt with
              wards := st.localSt.wards ++ addedWards rows st.localSt.nextWardId
              nextWardId := st.localSt.nextWardId + rows.length }
            wardUuidToLocalId := dnWardPairs rows st.localSt.nextWardId st.wardUuidToLocalId
            dnWards := st.dnWards + rows.length } := by
  induction rows with
  | nil =>
    intro st _ _
    show st = _
    simp [addedWards, dnWardPairs]
  | cons rw rows ih =>
    intro st hnd hdis
    have hstep := downloadWardStep_insert st rw
      (fun w hw => hdis rw (List.mem_cons_self rw rows) w hw)
    have hnd' := (List.nodup_cons.mp hnd).2
    have hhead := (List.nodup_cons.mp hnd).1
    have hdis2 : ∀ rw' ∈ rows, ∀ w ∈ (downloadWardStep st rw).localSt.wards,
        w.code ≠ rw'.code := by
      rw [hstep]
      intro rw' hrw' w hw
      rcases List.mem_append.mp hw with hl | hr
      · exact hdis rw' (List.mem_cons_of_mem rw hrw') w hl
      · rw [List.mem_singleton.mp hr]
        show rw.code ≠ rw'.code
        intro he
        refine hhead ?_
        simpa [he] using List.mem_map_of_mem (fun x => x.code) hrw'
    rw [List.foldl_cons, ih (downloadWardStep st rw) hnd' hdis2, hstep]
    simp only [addedWards, dnWardPairs, List.append_assoc, List.singleton_append,
      List.length_cons, Nat.succ_add]
    rfl

/-- One village download step: parent resolved, no matching local code. -/
theorem downloadVillageStep_insert (st : DnState) (rv : SupabaseVillage) (lwid : Nat)
    (hget : mapGet st.wardUuidToLocalId rv.ward_id = some lwid)
    (hdis : ∀ v ∈ st.localSt.villages, v.code ≠ rv.code) :
    downloadVillageStep st rv =
      { st with
          localSt := { st.localSt with
            villages := st.localSt.villages ++
              [{ toVillageData := supabaseToVillage rv lwid, id := st.localSt.nextVillageId }]
            nextVillageId := st.localSt.nextVillageId + 1 }
          villageUuidToLocalId := mapSet st.villageUuidToLocalId rv.id st.localSt.nextVillageId
          dnVillages := st.dnVillages + 1 } := by
  have hfind : st.localSt.villages.find? (fun v => v.code == rv.code) = none := by
    rw [List.find?_eq_none]
    intro x hx
    simpa using hdis x hx
  simp [downloadVillageStep, hget, hfind, localAddVillage]

/-- The village download phase against fresh rows. -/
theorem downloadVillagesFold_insert (rows : List SupabaseVillage) :
    ∀ st : DnState,
      (rows.map (fun rv => rv.code)).Nodup →
      (∀ rv ∈ rows, ∀ v ∈ st.localSt.villages, v.code ≠ rv.code) →
      (∀ rv ∈ rows, (mapGet st.wardUuidToLocalId rv.ward_id).isSome = true) →
      rows.foldl downloadVillageStep st =
        { st with
            localSt := { st.localSt with
              villages := st.localSt.villages ++
                addedVillages st.wardUuidToLocalId rows st.localSt.nextVillageId
              nextVillageId := st.localSt.nextVillageId + rows.length }
            villageUuidToLocalId := dnVillagePairs rows st.localSt.nextVillageId
              st.villageUuidToLocalId
            dnVillages := st.dnVillages + rows.length } := by
  induction rows with
  | nil =>
    intro st _ _ _
    show st = _
    simp [addedVillages, dnVillagePairs]
  | cons rv rows ih =>
    intro st hnd hdis hpar
    obtain ⟨lwid, hget⟩ := Option.isSome_iff_exists.mp (hpar rv (List.mem_cons_self rv rows))
    have hstep := downloadVillageStep_insert st rv lwid hget
      (fun v hv => hdis rv (List.mem_cons_self rv rows) v hv)
    have hnd' := (List.nodup_cons.mp hnd).2
    have hhead := (List.nodup_cons.mp hnd).1
    have hdis2 : ∀ rv' ∈ rows, ∀ v ∈ (downloadVillageStep st rv).localSt.villages,
        v.code ≠ rv'.code := by
      rw [hstep]
      intro rv' hrv' v hv
      rcases List.mem_append.mp hv with hl | hr
      · exact hdis rv' (List.mem_cons_of_mem rv hrv') v hl
      · rw [List.mem_singleton.mp hr]
        show rv.code ≠ rv'.code
        intro he
        refine hhead ?_
        simpa [he] using List.mem_map_of_mem (fun x => x.code) hrv'
    have hpar2 : ∀ rv' ∈ rows,
        (mapGet (downloadVillageStep st rv).wardUuidToLocalId rv'.ward_id).isSome = true := by
      rw [hstep]
      exact fun rv' hrv' => hpar rv' (List.mem_cons_of_mem rv hrv')
    rw [List.foldl_cons, ih (downloadVillageStep st rv) hnd' hdis2 hpar2, hstep]
    simp only [addedVillages, dnVillagePairs, List.append_assoc, List.singleton_append,
      List.length_cons, Nat.succ_add, hget, Option.getD_some]
    rfl

/-- One household download step: parent resolved, no matching local code. -/
theorem downloadHouseholdStep_insert (st : DnState) (rh : SupabaseHousehold) (lvid : Nat)
    (hget : mapGet st.villageUuidToLocalId rh.village_id = some lvid)
    (hdis : ∀ h ∈ st.localSt.households, h.code ≠ rh.code) :
    downloadHouseholdStep st rh =
      { st with
          localSt := { st.localSt with
            households := st.localSt.households ++
              [{ toHouseholdData := supabaseToHousehold rh lvid, id := st.localSt.nextHouseholdId }]
            nextHouseholdId := st.localSt.nextHouseholdId + 1 }
          householdUuidToLocalId := mapSet st.householdUuidToLocalId rh.id
            st.localSt.nextHouseholdId
          dnHouseholds := st.dnHouseholds + 1 } := by
  have hfind : st.localSt.households.find? (fun h => h.code == rh.code) = none := by
    rw [List.find?_eq_none]
    intro x hx
    simpa using hdis x hx
  simp [downloadHouseholdStep, hget, hfind, localAddHousehold]

/-- The household download phase against fresh rows. -/
theorem downloadHouseholdsFold_insert (rows : List SupabaseHousehold) :
    ∀ st : DnState,
      (rows.map (fun rh => rh.code)).Nodup →
      (∀ rh ∈ rows, ∀ h ∈ st.localSt.households, h.code ≠ rh.code) →
      (∀ rh ∈ rows, (mapGet st.villageUuidToLocalId rh.village_id).isSome = true) →
      rows.foldl downloadHouseholdStep st =
        { st with
            localSt := { st.localSt with
              households := st.localSt.households ++
                addedHouseholds st.villageUuidToLocalId rows st.localSt.nextHouseholdId
              nextHouseholdId := st.localSt.nextHouseholdId + rows.length }
            householdUuidToLocalId := dnHouseholdPairs rows st.localSt.nextHouseholdId
              st.householdUuidToLocalId
            dnHouseholds := st.dnHouseholds + rows.length } := by
  induction rows with
  | nil =>
    intro st _ _ _
    show st = _
    simp [addedHouseholds, dnHouseholdPairs]
  | cons rh rows ih =>
    intro st hnd hdis hpar
    obtain ⟨lvid, hget⟩ := Option.isSome_iff_exists.mp (hpar rh (List.mem_cons_self rh rows))
    have hstep := downloadHouseholdStep_insert st rh lvid hget
      (fun h hh => hdis rh (List.mem_cons_self rh rows) h hh)
    have hnd' := (List.nodup_cons.mp hnd).2
    have hhead := (List.nodup_cons.mp hnd).1
    have hdis2 : ∀ rh' ∈ rows, ∀ h ∈ (downloadHouseholdStep st rh).localSt.households,
        h.code ≠ rh'.code := by
      rw [hstep]
      intro rh' hrh' h hh
      rcases List.mem_append.mp hh with hl | hr
      · exact hdis rh' (List.mem_cons_of_mem rh hrh') h hl
      · rw [List.mem_singleton.mp hr]
        show rh.code ≠ rh'.code
        intro he
        refine hhead ?_
        simpa [he] using List.mem_map_of_mem (fun x => x.code) hrh'
    have hpar2 : ∀ rh' ∈ rows,
        (mapGet (downloadHouseholdStep st rh).villageUuidToLocalId rh'.village_id).isSome
          = true := by
      rw [hstep]
      exact fun rh' hrh' => hpar rh' (List.mem_cons_of_mem rh hrh')
    rw [List.foldl_cons, ih (downloadHouseholdStep st rh) hnd' hdis2 hpar2, hstep]
    simp only [addedHouseholds, dnHouseholdPairs, List.append_assoc, List.singleton_append,
      List.length_cons, Nat.succ_add, hget, Option.getD_some]
    rfl

/-- One citizen download step: parents resolved, no matching local unique
id; the record is added with the attachments fetched from storage (a failed
or absent fetch leaves the attachment unset). -/
theorem downloadCitizenStep_insert (r : RemoteState) (st : DnState) (rc : SupabaseCitizen)
    (hgh : (mapGet st.householdUuidToLocalId rc.household_id).isSome = true)
    (hgv : (mapGet st.villageUuidToLocalId rc.village_id).isSome = true)
    (hgw : (mapGet st.wardUuidToLocalId rc.ward_id).isSome = true)
    (hdis : ∀ c ∈ st.localSt.citizens, c.uniqueId ≠ rc.unique_id) :
    downloadCitizenStep r st rc =
      { st with
          localSt := { st.localSt with
            citizens := st.localSt.citizens ++
              [addedCitizen r st.householdUuidToLocalId st.villageUuidToLocalId
                st.wardUuidToLocalId rc st.localSt.nextCitizenId]
            nextCitizenId := st.localSt.nextCitizenId + 1 }
          dnCitizens := st.dnCitizens + 1 } := by
  obtain ⟨lhid, hgeth⟩ := Option.isSome_iff_exists.mp hgh
  obtain ⟨lvid, hgetv⟩ := Option.isSome_iff_exists.mp hgv
  obtain ⟨lwid, hgetw⟩ := Option.isSome_iff_exists.mp hgw
  have hfind : st.localSt.citizens.find? (fun c => c.uniqueId == rc.unique_id) = none := by
    rw [List.find?_eq_none]
    intro x hx
    simpa using hdis x hx
  cases hpu : rc.photo_url with
  | none =>
    cases hfu : rc.fingerprint_url with
    | none =>
      simp [downloadCitizenStep, hgeth, hgetv, hgetw, hfind, hpu, hfu, addedCitizen,
        supabaseToCitizen, localAddCitizen]
    | some furl =>
      cases hdf : downloadFingerprintFromStorage r furl <;>
        simp [downloadCitizenStep, hgeth, hgetv, hgetw, hfind, hpu, hfu, hdf, addedCitizen,
          supabaseToCitizen, localAddCitizen]
  | some purl =>
    cases hdp : downloadPhotoFromStorage r purl with
    | none =>
      cases hfu : rc.fingerprint_url with
      | none =>
        simp [downloadCitizenStep, hgeth, hgetv, hgetw, hfind, hpu, hfu, hdp, addedCitizen,
          supabaseToCitizen, localAddCitizen]
      | some furl =>
        cases hdf : downloadFingerprintFromStorage r furl <;>
          simp [downloadCitizenStep, hgeth, hgetv, hgetw, hfind, hpu, hfu, hdp, hdf,
            addedCitizen, supabaseToCitizen, localAddCitizen]
    | some pd =>
      cases hfu : rc.fingerprint_url with
      | none =>
        simp [downloadCitizenStep, hgeth, hgetv, hgetw, hfind, hpu, hfu, hdp, addedCitizen,
          supabaseToCitizen, localAddCitizen]
      | some furl =>
        cases hdf : downloadFingerprintFromStorage r furl <;>
          simp [downloadCitizenStep, hgeth, hgetv, hgetw, hfind, hpu, hfu, hdp, hdf,
            addedCitizen, supabaseToCitizen, localAddCitizen]

/-- The citizen download phase against fresh rows. -/
theorem downloadCitizensFold_insert (r : RemoteState) (rows : List SupabaseCitizen) :
    ∀ st : DnState,
      (rows.map (fun rc => rc.unique_id)).Nodup →
      (∀ rc ∈ rows, ∀ c ∈ st.localSt.citizens, c.uniqueId ≠ rc.unique_id) →
      (∀ rc ∈ rows, (mapGet st.householdUuidToLocalId rc.household_id).isSome = true ∧
        (mapGet st.villageUuidToLocalId rc.village_id).isSome = true ∧
        (mapGet st.wardUuidToLocalId rc.ward_id).isSome = true) →
      rows.foldl (downloadCitizenStep r) st =
        { st with
            localSt := { st.localSt with
              citizens := st.localSt.citizens ++
                addedCitizens r st.householdUuidToLocalId st.villageUuidToLocalId
                  st.wardUuidToLocalId rows st.localSt.nextCitizenId
              nextCitizenId := st.localSt.nextCitizenId + rows.length }
            dnCitizens := st.dnCitizens + rows.length } := by
  induction rows with
  | nil =>
    intro st _ _ _
    show st = _
    simp [addedCitizens]
  | cons rc rows ih =>
    intro st hnd hdis hpar
    obtain ⟨hgh, hgv, hgw⟩ := hpar rc (List.mem_cons_self rc rows)
    have hstep := downloadCitizenStep_insert r st rc hgh hgv hgw
      (fun c hc => hdis rc (List.mem_cons_self rc rows) c hc)
    have hnd' := (List.nodup_cons.mp hnd).2
    have hhead := (List.nodup_cons.mp hnd).1
    have hdis2 : ∀ rc' ∈ rows, ∀ c ∈ (downloadCitizenStep r st rc).localSt.citizens,
        c.uniqueId ≠ rc'.unique_id := by
      rw [hstep]
      intro rc' hrc' c hc
      rcases List.mem_append.mp hc with hl | hr
      · exact hdis rc' (List.mem_cons_of_mem rc hrc') c hl
      · rw [List.mem_singleton.mp hr]
        show rc.unique_id ≠ rc'.unique_id
        intro he
        refine hhead ?_
        simpa [he] using List.mem_map_of_mem (fun x => x.unique_id) hrc'
    have hpar2 : ∀ rc' ∈ rows,
        (mapGet (downloadCitizenStep r st rc).householdUuidToLocalId rc'.household_id).isSome
          = true ∧
        (mapGet (downloadCitizenStep r st rc).villageUuidToLocalId rc'.village_id).isSome
          = true ∧
        (mapGet (downloadCitizenStep r st rc).wardUuidToLocalId rc'.ward_id).isSome = true := by
      rw [hstep]
      exact fun rc' hrc' => hpar rc' (List.mem_cons_of_mem rc hrc')
    rw [List.foldl_cons, ih (downloadCitizenStep r st rc) hnd' hdis2 hpar2, hstep]
    simp only [addedCitizens, List.append_assoc, List.singleton_append,
      List.length_cons, Nat.succ_add]
    rfl

/-- Correspondence between the ward session map and the inserted ward rows:
each local ward is mapped to the UUID of the unique row carrying its code. -/
theorem wardCorr (ws : List Ward) : ∀ u m,
    (ws.map (fun w => w.code)).Nodup → (ws.map (fun w => w.id)).Nodup →
    ∀ w ∈ ws, ∃ k,
      mapGet (wardPairs ws u m) w.id = some k ∧
      (insertedWards ws u).filter (fun rw => rw.code == w.code)
        = [wardToSupabase w none k] := by
  induction ws with
  | nil => intro u m _ _ w hw; exact absurd hw (List.not_mem_nil w)
  | cons w0 ws ih =>
    intro u m hcode hid w hw
    have hcode' := (List.nodup_cons.mp hcode).2
    have hcodeh := (List.nodup_cons.mp hcode).1
    have hid' := (List.nodup_cons.mp hid).2
    have hidh := (List.nodup_cons.mp hid).1
    rcases List.mem_cons.mp hw with rfl | hmem
    · refine ⟨u, ?_, ?_⟩
      · rw [wardPairs, wardPairs_get_skip ws (u + 1) _ w.id (by simpa using hidh),
          mapGet_set_self]
      · have ht : ((wardToSupabase w none u).code == w.code) = true := by
          simp [wardToSupabase]
        rw [show insertedWards (w :: ws) u
            = wardToSupabase w none u :: insertedWards ws (u + 1) from rfl]
        simp only [List.filter_cons, ht, if_true]
        rw [insertedWards_filter_nil ws (u + 1) w.code (by simpa using hcodeh)]
    · obtain ⟨k, hk, hf⟩ := ih (u + 1) (mapSet m w0.id u) hcode' hid' w hmem
      have hne0 : w0.code ≠ w.code := by
        intro he
        refine hcodeh ?_
        simpa [he] using List.mem_map_of_mem (fun x => x.code) hmem
      have hne : ((wardToSupabase w0 none u).code == w.code) = false := by
        simpa [wardToSupabase] using hne0
      refine ⟨k, ?_, ?_⟩
      · rw [wardPairs]; exact hk
      · rw [show insertedWards (w0 :: ws) u
            = wardToSupabase w0 none u :: insertedWards ws (u + 1) from rfl]
        simp only [List.filter_cons, hne, Bool.false_eq_true, if_false]
        exact hf

/-- Correspondence between the village session map and the inserted rows. -/
theorem villageCorr (μw : List (Nat × Nat)) (vs : List Village) : ∀ u m,
    (vs.map (fun v => v.code)).Nodup → (vs.map (fun v => v.id)).Nodup →
    ∀ v ∈ vs, ∃ k,
      mapGet (villagePairs vs u m) v.id = some k ∧
      (insertedVillages μw vs u).filter (fun rv => rv.code == v.code)
        = [villageToSupabase v ((mapGet μw v.wardId).getD 0) none k] := by
  induction vs with
  | nil => intro u m _ _ v hv; exact absurd hv (List.not_mem_nil v)
  | cons v0 vs ih =>
    intro u m hcode hid v hv
    have hcode' := (List.nodup_cons.mp hcode).2
    have hcodeh := (List.nodup_cons.mp hcode).1
    have hid' := (List.nodup_cons.mp hid).2
    have hidh := (List.nodup_cons.mp hid).1
    rcases List.mem_cons.mp hv with rfl | hmem
    · refine ⟨u, ?_, ?_⟩
      · rw [villagePairs, villagePairs_get_skip vs (u + 1) _ v.id (by simpa using hidh),
          mapGet_set_self]
      · have ht : ((villageToSupabase v ((mapGet μw v.wardId).getD 0) none u).code
            == v.code) = true := by
          simp [villageToSupabase]
        rw [show insertedVillages μw (v :: vs) u
            = villageToSupabase v ((mapGet μw v.wardId).getD 0) none u
              :: insertedVillages μw vs (u + 1) from rfl]
        simp only [List.filter_cons, ht, if_true]
        rw [insertedVillages_filter_nil μw vs (u + 1) v.code (by simpa using hcodeh)]
    · obtain ⟨k, hk, hf⟩ := ih (u + 1) (mapSet m v0.id u) hcode' hid' v hmem
      have hne0 : v0.code ≠ v.code := by
        intro he
        refine hcodeh ?_
        simpa [he] using List.mem_map_of_mem (fun x => x.code) hmem
      have hne : ((villageToSupabase v0 ((mapGet μw v0.wardId).getD 0) none u).code
          == v.code) = false := by
        simpa [villageToSupabase] using hne0
      refine ⟨k, ?_, ?_⟩
      · rw [villagePairs]; exact hk
      · rw [show insertedVillages μw (v0 :: vs) u
            = villageToSupabase v0 ((mapGet μw v0.wardId).getD 0) none u
              :: insertedVillages μw vs (u + 1) from rfl]
        simp only [List.filter_cons, hne, Bool.false_eq_true, if_false]
        exact hf

/-- Correspondence between the household session map and the inserted rows. -/
theorem householdCorr (μv : List (Nat × Nat)) (hs : List Household) : ∀ u m,
    (hs.map (fun h => h.code)).Nodup → (hs.map (fun h => h.id)).Nodup →
    ∀ h ∈ hs, ∃ k,
      mapGet (householdPairs hs u m) h.id = some k ∧
      (insertedHouseholds μv hs u).filter (fun rh => rh.code == h.code)
        = [householdToSupabase h ((mapGet μv h.villageId).getD 0) none k] := by
  induction hs with
  | nil => intro u m _ _ h hh; exact absurd hh (List.not_mem_nil h)
  | cons h0 hs ih =>
    intro u m hcode hid h hh
    have hcode' := (List.nodup_cons.mp hcode).2
    have hcodeh := (List.nodup_cons.mp hcode).1
    have hid' := (List.nodup_cons.mp hid).2
    have hidh := (List.nodup_cons.mp hid).1
    rcases List.mem_cons.mp hh with rfl | hmem
    · refine ⟨u, ?_, ?_⟩
      · rw [householdPairs, householdPairs_get_skip hs (u + 1) _ h.id (by simpa using hidh),
          mapGet_set_self]
      · have ht : ((householdToSupabase h ((mapGet μv h.villageId).getD 0) none u).code
            == h.code) = true := by
          simp [householdToSupabase]
        rw [show insertedHouseholds μv (h :: hs) u
            = householdToSupabase h ((mapGet μv h.villageId).getD 0) none u
              :: insertedHouseholds μv hs (u + 1) from rfl]
        simp only [List.filter_cons, ht, if_true]
        rw [insertedHouseholds_filter_nil μv hs (u + 1) h.code (by simpa using hcodeh)]
    · obtain ⟨k, hk, hf⟩ := ih (u + 1) (mapSet m h0.id u) hcode' hid' h hmem
      have hne0 : h0.code ≠ h.code := by
        intro he
        refine hcodeh ?_
        simpa [he] using List.mem_map_of_mem (fun x => x.code) hmem
      have hne : ((householdToSupabase h0 ((mapGet μv h0.villageId).getD 0) none u).code
          == h.code) = false := by
        simpa [householdToSupabase] using hne0
      refine ⟨k, ?_, ?_⟩
      · rw [householdPairs]; exact hk
      · rw [show insertedHouseholds μv (h0 :: hs) u
            = householdToSupabase h0 ((mapGet μv h0.villageId).getD 0) none u
              :: insertedHouseholds μv hs (u + 1) from rfl]
        simp only [List.filter_cons, hne, Bool.false_eq_true, if_false]
        exact hf

/-- Each local citizen's unique id matches exactly one inserted citizen row. -/
theorem citizenCorr (env : Env) (μh μv μw : List (Nat × Nat)) (cs : List Citizen) : ∀ u,
    (cs.map (fun c => c.uniqueId)).Nodup →
    ∀ c ∈ cs, ∃ k,
      (insertedCitizens env μh μv μw cs u).filter (fun rc => rc.unique_id == c.uniqueId)
        = [insertedCitizen env μh μv μw c k] := by
  induction cs with
  | nil => intro u _ c hc; exact absurd hc (List.not_mem_nil c)
  | cons c0 cs ih =>
    intro u huid c hc
    have huid' := (List.nodup_cons.mp huid).2
    have huidh := (List.nodup_cons.mp huid).1
    rcases List.mem_cons.mp hc with rfl | hmem
    · refine ⟨u, ?_⟩
      have ht : ((insertedCitizen env μh μv μw c u).unique_id == c.uniqueId) = true := by
        simp [insertedCitizen, citizenToSupabase]
      rw [show insertedCitizens env μh μv μw (c :: cs) u
          = insertedCitizen env μh μv μw c u :: insertedCitizens env μh μv μw cs (u + 1)
          from rfl]
      simp only [List.filter_cons, ht, if_true]
      rw [insertedCitizens_filter_nil env μh μv μw cs (u + 1) c.uniqueId
        (by simpa using huidh)]
    · obtain ⟨k, hf⟩ := ih (u + 1) huid' c hmem
      have hne0 : c0.uniqueId ≠ c.uniqueId := by
        intro he
        refine huidh ?_
        simpa [he] using List.mem_map_of_mem (fun x => x.uniqueId) hmem
      have hne : ((insertedCitizen env μh μv μw c0 u).unique_id == c.uniqueId) = false := by
        simpa [insertedCitizen, citizenToSupabase] using hne0
      refine ⟨k, ?_⟩
      rw [show insertedCitizens env μh μv μw (c0 :: cs) u
          = insertedCitizen env μh μv μw c0 u :: insertedCitizens env μh μv μw cs (u + 1)
          from rfl]
      simp only [List.filter_cons, hne, Bool.false_eq_true, if_false]
      exact hf

/-- A downloaded row id (or an already-present key) is in the ward map. -/
theorem dnWardPairs_get_isSome (rows : List SupabaseWard) : ∀ n m x,
    ((∃ rw ∈ rows, rw.id = x) ∨ (mapGet m x).isSome = true) →
    (mapGet (dnWardPairs rows n m) x).isSome = true := by
  induction rows with
  | nil =>
    intro n m x h
    rcases h with ⟨rw, hrw, _⟩ | h
    · exact absurd hrw (List.not_mem_nil rw)
    · exact h
  | cons rw rows ih =>
    intro n m x h
    rw [dnWardPairs]
    apply ih
    rcases h with ⟨rw', hrw', hx⟩ | h
    · rcases List.mem_cons.mp hrw' with rfl | hmem
      · right; subst hx; rw [mapGet_set_self]; rfl
      · left; exact ⟨rw', hmem, hx⟩
    · right
      by_cases hxk : x = rw.id
      · subst hxk; rw [mapGet_set_self]; rfl
      · rw [mapGet_set_ne _ _ _ _ hxk]; exact h

/-- A downloaded row id (or an already-present key) is in the village map. -/
theorem dnVillagePairs_get_isSome (rows : List SupabaseVillage) : ∀ n m x,
    ((∃ rv ∈ rows, rv.id = x) ∨ (mapGet m x).isSome = true) →
    (mapGet (dnVillagePairs rows n m) x).isSome = true := by
  induction rows with
  | nil =>
    intro n m x h
    rcases h with ⟨rv, hrv, _⟩ | h
    · exact absurd hrv (List.not_mem_nil rv)
    · exact h
  | cons rv rows ih =>
    intro n m x h
    rw [dnVillagePairs]
    apply ih
    rcases h with ⟨rv', hrv', hx⟩ | h
    · rcases List.mem_cons.mp hrv' with rfl | hmem
      · right; subst hx; rw [mapGet_set_self]; rfl
      · left; exact ⟨rv', hmem, hx⟩
    · right
      by_cases hxk : x = rv.id
      · subst hxk; rw [mapGet_set_self]; rfl
      · rw [mapGet_set_ne _ _ _ _ hxk]; exact h

/-- A downloaded row id (or an already-present key) is in the household map. -/
theorem dnHouseholdPairs_get_isSome (rows : List SupabaseHousehold) : ∀ n m x,
    ((∃ rh ∈ rows, rh.id = x) ∨ (mapGet m x).isSome = true) →
    (mapGet (dnHouseholdPairs rows n m) x).isSome = true := by
  induction rows with
  | nil =>
    intro n m x h
    rcases h with ⟨rh, hrh, _⟩ | h
    · exact absurd hrh (List.not_mem_nil rh)
    · exact h
  | cons rh rows ih =>
    intro n m x h
    rw [dnHouseholdPairs]
    apply ih
    rcases h with ⟨rh', hrh', hx⟩ | h
    · rcases List.mem_cons.mp hrh' with rfl | hmem
      · right; subst hx; rw [mapGet_set_self]; rfl
      · left; exact ⟨rh', hmem, hx⟩
    · right
      by_cases hxk : x = rh.id
      · subst hxk; rw [mapGet_set_self]; rfl
      · rw [mapGet_set_ne _ _ _ _ hxk]; exact h

/-- Every inserted village row's parent UUID is a resolved ward-map value. -/
theorem insertedVillages_parent (μw : List (Nat × Nat)) (vs : List Village) : ∀ u rv,
    rv ∈ insertedVillages μw vs u →
    ∃ v ∈ vs, rv.ward_id = (mapGet μw v.wardId).getD 0 := by
  induction vs with
  | nil => intro u rv hrv; exact absurd hrv (List.not_mem_nil rv)
  | cons v vs ih =>
    intro u rv hrv
    rcases List.mem_cons.mp hrv with rfl | hmem
    · exact ⟨v, List.mem_cons_self v vs, rfl⟩
    · obtain ⟨v', hv', he⟩ := ih (u + 1) rv hmem
      exact ⟨v', List.mem_cons_of_mem v hv', he⟩

/-- Every inserted household row's parent UUID is a resolved map value. -/
theorem insertedHouseholds_parent (μv : List (Nat × Nat)) (hs : List Household) : ∀ u rh,
    rh ∈ insertedHouseholds μv hs u →
    ∃ h ∈ hs, rh.village_id = (mapGet μv h.villageId).getD 0 := by
  induction hs with
  | nil => intro u rh hrh; exact absurd hrh (List.not_mem_nil rh)
  | cons h hs ih =>
    intro u rh hrh
    rcases List.mem_cons.mp hrh with rfl | hmem
    · exact ⟨h, List.mem_cons_self h hs, rfl⟩
    · obtain ⟨h', hh', he⟩ := ih (u + 1) rh hmem
      exact ⟨h', List.mem_cons_of_mem h hh', he⟩

/-- Every inserted citizen row's three ancestor UUIDs are resolved map
values. -/
theorem insertedCitizens_parent (env : Env) (μh μv μw : List (Nat × Nat))
    (cs : List Citizen) : ∀ u rc, rc ∈ insertedCitizens env μh μv μw cs u →
    ∃ c ∈ cs, rc.household_id = (mapGet μh c.householdId).getD 0 ∧
      rc.village_id = (mapGet μv c.villageId).getD 0 ∧
      rc.ward_id = (mapGet μw c.wardId).getD 0 := by
  induction cs with
  | nil => intro u rc hrc; exact absurd hrc (List.not_mem_nil rc)
  | cons c cs ih =>
    intro u rc hrc
    rcases List.mem_cons.mp hrc with rfl | hmem
    · exact ⟨c, List.mem_cons_self c cs, rfl, rfl, rfl⟩
    · obtain ⟨c', hc', he⟩ := ih (u + 1) rc hmem
      exact ⟨c', List.mem_cons_of_mem c hc', he⟩

/-- Locally sorted creation times make the inserted ward rows sorted. -/
theorem insertedWards_sorted (ws : List Ward) (u : Nat)
    (h : ws.Pairwise (fun a b => a.createdAt ≤ b.createdAt)) :
    (insertedWards ws u).Pairwise (fun a b => a.created_at ≤ b.created_at) := by
  have h1 : ((insertedWards ws u).map (fun rw => rw.created_at)).Pairwise
      (fun a b => a ≤ b) := by
    rw [insertedWards_created]
    exact List.pairwise_map.mpr h
  exact List.pairwise_map.mp h1

/-- Locally sorted creation times make the inserted village rows sorted. -/
theorem insertedVillages_sorted (μw : List (Nat × Nat)) (vs : List Village) (u : Nat)
    (h : vs.Pairwise (fun a b => a.createdAt ≤ b.createdAt)) :
    (insertedVillages μw vs u).Pairwise (fun a b => a.created_at ≤ b.created_at) := by
  have h1 : ((insertedVillages μw vs u).map (fun rv => rv.created_at)).Pairwise
      (fun a b => a ≤ b) := by
    rw [insertedVillages_created]
    exact List.pairwise_map.mpr h
  exact List.pairwise_map.mp h1

/-- Locally sorted creation times make the inserted household rows sorted. -/
theorem insertedHouseholds_sorted (μv : List (Nat × Nat)) (hs : List Household) (u : Nat)
    (h : hs.Pairwise (fun a b => a.createdAt ≤ b.createdAt)) :
    (insertedHouseholds μv hs u).Pairwise (fun a b => a.created_at ≤ b.created_at) := by
  have h1 : ((insertedHouseholds μv hs u).map (fun rh => rh.created_at)).Pairwise
      (fun a b => a ≤ b) := by
    rw [insertedHouseholds_created]
    exact List.pairwise_map.mpr h
  exact List.pairwise_map.mp h1

/-- Locally sorted creation times make the inserted citizen rows sorted. -/
theorem insertedCitizens_sorted (env : Env) (μh μv μw : List (Nat × Nat))
    (cs : List Citizen) (u : Nat)
    (h : cs.Pairwise (fun a b => a.createdAt ≤ b.createdAt)) :
    (insertedCitizens env μh μv μw cs u).Pairwise
      (fun a b => a.created_at ≤ b.created_at) := by
  have h1 : ((insertedCitizens env μh μv μw cs u).map (fun rc => rc.created_at)).Pairwise
      (fun a b => a ≤ b) := by
    rw [insertedCitizens_created]
    exact List.pairwise_map.mpr h
  exact List.pairwise_map.mp h1

/-- Right cancellation for string concatenation. -/
theorem strAppend_right_cancel (a b c : String) (h : a ++ c = b ++ c) : a = b := by
  apply String.ext
  exact List.append_cancel_right (congrArg String.data h)

/-- Left cancellation for string concatenation. -/
theorem strAppend_left_cancel (a b c : String) (h : a ++ b = a ++ c) : b = c := by
  apply String.ext
  exact List.append_cancel_left (congrArg String.data h)

/-- Within one run (fixed timestamp) photo object names are injective in the
owner id. -/
theorem photoUrlFor_inj (a b : String) (n : Nat) (h : photoUrlFor a n = photoUrlFor b n) :
    a = b := by
  unfold photoUrlFor at h
  exact strAppend_left_cancel _ _ _
    (strAppend_right_cancel _ _ _ (strAppend_right_cancel _ _ _ (strAppend_right_cancel _ _ _ h)))

/-- Within one run fingerprint object names are injective in the owner id. -/
theorem fingerprintUrlFor_inj (a b : String) (n : Nat)
    (h : fingerprintUrlFor a n = fingerprintUrlFor b n) : a = b := by
  unfold fingerprintUrlFor at h
  exact strAppend_left_cancel _ _ _
    (strAppend_right_cancel _ _ _ (strAppend_right_cancel _ _ _ (strAppend_right_cancel _ _ _ h)))

/-- Filtering away elements the predicate cannot match leaves `find?`
unchanged. -/
theorem find?_filter_compat (l : List α) (p q : α → Bool)
    (h : ∀ x, p x = true → q x = true) : (l.filter q).find? p = l.find? p := by
  induction l with
  | nil => rfl
  | cons a l ih =>
    by_cases hq : q a = true
    · simp only [List.filter_cons, hq, if_true]
      cases hp : p a
      · rw [List.find?_cons_of_neg _ (by simp [hp]), List.find?_cons_of_neg _ (by simp [hp]), ih]
      · rw [List.find?_cons_of_pos _ hp, List.find?_cons_of_pos _ hp]
    · have hp : p a = false := by
        cases hpa : p a
        · rfl
        · exact absurd (h a hpa) hq
      simp only [List.filter_cons, hq, Bool.false_eq_true, if_false]
      rw [ih, List.find?_cons_of_neg _ (by simp [hp])]

/-- A stored photo object owned by a citizen outside the processed list is
preserved by the photo uploads of that list. -/
theorem citizenPhotos_preserve (now : Nat) (cs : List Citizen) : ∀ m (url : String)
    (pd : String), (∀ c ∈ cs, photoUrlFor c.uniqueId now ≠ url) →
    m.find? (fun p => p.1 == url) = some (url, pd) →
    (citizenPhotos now cs m).find? (fun p => p.1 == url) = some (url, pd) := by
  induction cs with
  | nil => intro m url pd _ h; exact h
  | cons c cs ih =>
    intro m url pd hne hfind
    rw [citizenPhotos]
    apply ih _ url pd (fun c' hc' => hne c' (List.mem_cons_of_mem c hc'))
    cases hpd : c.photoData with
    | none => exact hfind
    | some pd' =>
      have hurl : photoUrlFor c.uniqueId now ≠ url := hne c (List.mem_cons_self c cs)
      rw [List.find?_cons_of_neg _ (by simpa using hurl)]
      rw [find?_filter_compat _ _ _ ?_]
      · exact hfind
      · intro x hx
        have hx1 : x.1 = url := by simpa using hx
        simp [hx1]
        exact fun he => hurl he.symm

/-- The photo bucket after the citizen phase stores each citizen's photo
under its timestamped object name. -/
theorem citizenPhotos_find (now : Nat) (cs : List Citizen) : ∀ m,
    (cs.map (fun c => c.uniqueId)).Nodup →
    ∀ c ∈ cs, ∀ pd, c.photoData = some pd →
    (citizenPhotos now cs m).find? (fun p => p.1 == photoUrlFor c.uniqueId now)
      = some (photoUrlFor c.uniqueId now, pd) := by
  induction cs with
  | nil => intro m _ c hc; exact absurd hc (List.not_mem_nil c)
  | cons c0 cs ih =>
    intro m hnd c hc pd hpd
    have hnd' := (List.nodup_cons.mp hnd).2
    have hh := (List.nodup_cons.mp hnd).1
    rcases List.mem_cons.mp hc with rfl | hmem
    · rw [citizenPhotos]
      apply citizenPhotos_preserve now cs _ _ pd ?_ ?_
      · intro c' hc' heq
        refine hh ?_
        have he := photoUrlFor_inj _ _ _ heq
        simpa [← he] using List.mem_map_of_mem (fun x => x.uniqueId) hc'
      · rw [hpd]
        rw [List.find?_cons_of_pos _ (by simp)]
    · rw [citizenPhotos]
      exact ih _ hnd' c hmem pd hpd

/-- A stored fingerprint object owned by a citizen outside the processed
list is preserved by the fingerprint uploads of that list. -/
theorem citizenFingerprints_preserve (now : Nat) (cs : List Citizen) : ∀ m (url : String)
    (fd : String), (∀ c ∈ cs, fingerprintUrlFor c.uniqueId now ≠ url) →
    m.find? (fun p => p.1 == url) = some (url, fd) →
    (citizenFingerprints now cs m).find? (fun p => p.1 == url) = some (url, fd) := by
  induction cs with
  | nil => intro m url fd _ h; exact h
  | cons c cs ih =>
    intro m url fd hne hfind
    rw [citizenFingerprints]
    apply ih _ url fd (fun c' hc' => hne c' (List.mem_cons_of_mem c hc'))
    cases hfd : c.fingerprintData with
    | none => exact hfind
    | some fd' =>
      have hurl : fingerprintUrlFor c.uniqueId now ≠ url := hne c (List.mem_cons_self c cs)
      rw [List.find?_cons_of_neg _ (by simpa using hurl)]
      rw [find?_filter_compat _ _ _ ?_]
      · exact hfind
      · intro x hx
        have hx1 : x.1 = url := by simpa using hx
        simp [hx1]
        exact fun he => hurl he.symm

/-- The fingerprint bucket after the citizen phase stores each citizen's
fingerprint under its timestamped object name. -/
theorem citizenFingerprints_find (now : Nat) (cs : List Citizen) : ∀ m,
    (cs.map (fun c => c.uniqueId)).Nodup →
    ∀ c ∈ cs, ∀ fd, c.fingerprintData = some fd →
    (citizenFingerprints now cs m).find? (fun p => p.1 == fingerprintUrlFor c.uniqueId now)
      = some (fingerprintUrlFor c.uniqueId now, fd) := by
  induction cs with
  | nil => intro m _ c hc; exact absurd hc (List.not_mem_nil c)
  | cons c0 cs ih =>
    intro m hnd c hc fd hfd
    have hnd' := (List.nodup_cons.mp hnd).2
    have hh := (List.nodup_cons.mp hnd).1
    rcases List.mem_cons.mp hc with rfl | hmem
    · rw [citizenFingerprints]
      apply citizenFingerprints_preserve now cs _ _ fd ?_ ?_
      · intro c' hc' heq
        refine hh ?_
        have he := fingerprintUrlFor_inj _ _ _ heq
        simpa [← he] using List.mem_map_of_mem (fun x => x.uniqueId) hc'
      · rw [hfd]
        rw [List.find?_cons_of_pos _ (by simp)]
    · rw [citizenFingerprints]
      exact ih _ hnd' c hmem fd hfd

/-- After a fresh upload, a citizen's photo can be fetched back intact. -/
theorem freshRemote_photo_roundtrip (env : Env) (ls : LocalState)
    (hnd : (ls.citizens.map (fun c => c.uniqueId)).Nodup)
    (c : Citizen) (hc : c ∈ ls.citizens) (pd : String) (hpd : c.photoData = some pd) :
    downloadPhotoFromStorage (freshUploadRemote env ls) (photoUrlFor c.uniqueId env.now)
      = some pd := by
  unfold downloadPhotoFromStorage
  rw [show (freshUploadRemote env ls).reachable = true from rfl,
    show (freshUploadRemote env ls).photosOk = true from rfl]
  rw [show (freshUploadRemote env ls).photos = citizenPhotos env.now ls.citizens [] from rfl]
  rw [citizenPhotos_find env.now ls.citizens [] hnd c hc pd hpd]
  rfl

/-- After a fresh upload, a citizen's fingerprint can be fetched back
intact. -/
theorem freshRemote_fingerprint_roundtrip (env : Env) (ls : LocalState)
    (hnd : (ls.citizens.map (fun c => c.uniqueId)).Nodup)
    (c : Citizen) (hc : c ∈ ls.citizens) (fd : String)
    (hfd : c.fingerprintData = some fd) :
    downloadFingerprintFromStorage (freshUploadRemote env ls)
      (fingerprintUrlFor c.uniqueId env.now) = some fd := by
  unfold downloadFingerprintFromStorage
  rw [show (freshUploadRemote env ls).reachable = true from rfl,
    show (freshUploadRemote env ls).fingerprintsOk = true from rfl]
  rw [show (freshUploadRemote env ls).fingerprints
      = citizenFingerprints env.now ls.citizens [] from rfl]
  rw [citizenFingerprints_find env.now ls.citizens [] hnd c hc fd hfd]
  rfl

/-- Inserted ward rows count. -/
theorem insertedWards_length (ws : List Ward) : ∀ u, (insertedWards ws u).length = ws.length := by
  induction ws with
  | nil => intro u; rfl
  | cons w ws ih => intro u; simp [insertedWards, ih]

/-- Inserted village rows count. -/
theorem insertedVillages_length (μw : List (Nat × Nat)) (vs : List Village) : ∀ u,
    (insertedVillages μw vs u).length = vs.length := by
  induction vs with
  | nil => intro u; rfl
  | cons v vs ih => intro u; simp [insertedVillages, ih]

/-- Inserted household rows count. -/
theorem insertedHouseholds_length (μv : List (Nat × Nat)) (hs : List Household) : ∀ u,
    (insertedHouseholds μv hs u).length = hs.length := by
  induction hs with
  | nil => intro u; rfl
  | cons h hs ih => intro u; simp [insertedHouseholds, ih]

/-- Inserted citizen rows count. -/
theorem insertedCitizens_length (env : Env) (μh μv μw : List (Nat × Nat))
    (cs : List Citizen) : ∀ u, (insertedCitizens env μh μv μw cs u).length = cs.length := by
  induction cs with
  | nil => intro u; rfl
  | cons c cs ih => intro u; simp [insertedCitizens, ih]

/-- Fetching wards from the fresh upload returns the rows in insertion
order (creation times are locally sorted). -/
theorem rtFetchWards (env1 : Env) (ls : LocalState)
    (hsw : ls.wards.Pairwise (fun a b => a.createdAt ≤ b.createdAt)) :
    remoteFetchWards (freshUploadRemote env1 ls) = some (rtWardRows env1 ls) := by
  unfold remoteFetchWards
  rw [show (freshUploadRemote env1 ls).reachable = true from rfl]
  rw [show (freshUploadRemote env1 ls).wards = rtWardRows env1 ls from rfl]
  rw [if_pos rfl]
  exact congrArg some (List.Sorted.insertionSort_eq
    (insertedWards_sorted ls.wards env1.uuidStart hsw))

/-- Fetching villages from the fresh upload returns the rows in order. -/
theorem rtFetchVillages (env1 : Env) (ls : LocalState)
    (hsv : ls.villages.Pairwise (fun a b => a.createdAt ≤ b.createdAt)) :
    remoteFetchVillages (freshUploadRemote env1 ls) = some (rtVillageRows env1 ls) := by
  unfold remoteFetchVillages
  rw [show (freshUploadRemote env1 ls).reachable = true from rfl]
  rw [show (freshUploadRemote env1 ls).villages = rtVillageRows env1 ls from rfl]
  rw [if_pos rfl]
  exact congrArg some (List.Sorted.insertionSort_eq
    (insertedVillages_sorted (freshWardMap env1 ls) ls.villages
      (env1.uuidStart + ls.wards.length) hsv))

/-- Fetching households from the fresh upload returns the rows in order. -/
theorem rtFetchHouseholds (env1 : Env) (ls : LocalState)
    (hsh : ls.households.Pairwise (fun a b => a.createdAt ≤ b.createdAt)) :
    remoteFetchHouseholds (freshUploadRemote env1 ls) = some (rtHouseholdRows env1 ls) := by
  unfold remoteFetchHouseholds
  rw [show (freshUploadRemote env1 ls).reachable = true from rfl]
  rw [show (freshUploadRemote env1 ls).households = rtHouseholdRows env1 ls from rfl]
  rw [if_pos rfl]
  exact congrArg some (List.Sorted.insertionSort_eq
    (insertedHouseholds_sorted (freshVillageMap env1 ls) ls.households
      (env1.uuidStart + ls.wards.length + ls.villages.length) hsh))

/-- Fetching citizens from the fresh upload returns the rows in order. -/
theorem rtFetchCitizens (env1 : Env) (ls : LocalState)
    (hsc : ls.citizens.Pairwise (fun a b => a.createdAt ≤ b.createdAt)) :
    remoteFetchCitizens (freshUploadRemote env1 ls) = some (rtCitizenRows env1 ls) := by
  unfold remoteFetchCitizens
  rw [show (freshUploadRemote env1 ls).reachable = true from rfl]
  rw [show (freshUploadRemote env1 ls).citizens = rtCitizenRows env1 ls from rfl]
  rw [if_pos rfl]
  exact congrArg some (List.Sorted.insertionSort_eq
    (insertedCitizens_sorted env1 (freshHouseholdMap env1 ls) (freshVillageMap env1 ls)
      (freshWardMap env1 ls) ls.citizens
      (env1.uuidStart + ls.wards.length + ls.villages.length + ls.households.length) hsc))

/-- Round trip phase 1: the ward download computes `rtSt1`. -/
theorem rtRun_phase1 (env1 : Env) (ls : LocalState)
    (hwc : (ls.wards.map (fun w => w.code)).Nodup)
    (hsw : ls.wards.Pairwise (fun a b => a.createdAt ≤ b.createdAt)) :
    downloadWards (freshUploadRemote env1 ls) (initDnState emptyLocal) = rtSt1 env1 ls := by
  unfold downloadWards
  rw [rtFetchWards env1 ls hsw]
  show (rtWardRows env1 ls).foldl downloadWardStep (initDnState emptyLocal) = rtSt1 env1 ls
  rw [downloadWardsFold_insert (rtWardRows env1 ls) (initDnState emptyLocal)
    (by simp only [rtWardRows, insertedWards_codes]; exact hwc)
    (fun rw hrw w hw => absurd hw (List.not_mem_nil w))]
  simp [initDnState, emptyLocal, rtSt1, dnWardMapOf, rtWardRows, insertedWards_length]

/-- Round trip phase 2: the village download computes `rtSt2`. -/
theorem rtRun_phase2 (env1 : Env) (ls : LocalState)
    (hvc : (ls.villages.map (fun v => v.code)).Nodup)
    (hsv : ls.villages.Pairwise (fun a b => a.createdAt ≤ b.createdAt))
    (hwc : (ls.wards.map (fun w => w.code)).Nodup)
    (hwi : (ls.wards.map (fun w => w.id)).Nodup)
    (hvw : ∀ v ∈ ls.villages, ∃ w ∈ ls.wards, w.id = v.wardId) :
    downloadVillages (freshUploadRemote env1 ls) (rtSt1 env1 ls) = rtSt2 env1 ls := by
  have hpar : ∀ rv ∈ rtVillageRows env1 ls,
      (mapGet (rtSt1 env1 ls).wardUuidToLocalId rv.ward_id).isSome = true := by
    intro rv hrv
    obtain ⟨v, hv, he⟩ := insertedVillages_parent (freshWardMap env1 ls) ls.villages _ rv hrv
    obtain ⟨w, hw, hwid⟩ := hvw v hv
    obtain ⟨k, hk, hfil⟩ := wardCorr ls.wards env1.uuidStart [] hwc hwi w hw
    have hkv : rv.ward_id = k := by
      rw [he, ← hwid]
      show (mapGet (wardPairs ls.wards env1.uuidStart []) w.id).getD 0 = k
      rw [hk]
      rfl
    have hrow : wardToSupabase w none k ∈ rtWardRows env1 ls :=
      List.mem_of_mem_filter (hfil.symm ▸ List.mem_singleton_self _)
    exact dnWardPairs_get_isSome (rtWardRows env1 ls) 1 [] rv.ward_id
      (Or.inl ⟨wardToSupabase w none k, hrow, hkv.symm⟩)
  unfold downloadVillages
  rw [rtFetchVillages env1 ls hsv]
  show (rtVillageRows env1 ls).foldl downloadVillageStep (rtSt1 env1 ls) = rtSt2 env1 ls
  rw [downloadVillagesFold_insert (rtVillageRows env1 ls) (rtSt1 env1 ls)
    (by simp only [rtVillageRows, insertedVillages_codes]; exact hvc)
    (fun rv hrv v hv => absurd hv (List.not_mem_nil v))
    hpar]
  simp [rtSt1, rtSt2, dnVillageMapOf, rtVillageRows, insertedVillages_length]

/-- Round trip phase 3: the household download computes `rtSt3`. -/
theorem rtRun_phase3 (env1 : Env) (ls : LocalState)
    (hhc : (ls.households.map (fun h => h.code)).Nodup)
    (hsh : ls.households.Pairwise (fun a b => a.createdAt ≤ b.createdAt))
    (hvc : (ls.villages.map (fun v => v.code)).Nodup)
    (hvi : (ls.villages.map (fun v => v.id)).Nodup)
    (hhv : ∀ h ∈ ls.households, ∃ v ∈ ls.villages, v.id = h.villageId) :
    downloadHouseholds (freshUploadRemote env1 ls) (rtSt2 env1 ls) = rtSt3 env1 ls := by
  have hpar : ∀ rh ∈ rtHouseholdRows env1 ls,
      (mapGet (rtSt2 env1 ls).villageUuidToLocalId rh.village_id).isSome = true := by
    intro rh hrh
    obtain ⟨h, hh, he⟩ := insertedHouseholds_parent (freshVillageMap env1 ls) ls.households
      _ rh hrh
    obtain ⟨v, hv, hvid⟩ := hhv h hh
    obtain ⟨k, hk, hfil⟩ := villageCorr (freshWardMap env1 ls) ls.villages
      (env1.uuidStart + ls.wards.length) [] hvc hvi v hv
    have hkv : rh.village_id = k := by
      rw [he, ← hvid]
      show (mapGet (villagePairs ls.villages (env1.uuidStart + ls.wards.length) [])
        v.id).getD 0 = k
      rw [hk]
      rfl
    have hrow : villageToSupabase v ((mapGet (freshWardMap env1 ls) v.wardId).getD 0) none k
        ∈ rtVillageRows env1 ls :=
      List.mem_of_mem_filter (hfil.symm ▸ List.mem_singleton_self _)
    exact dnVillagePairs_get_isSome (rtVillageRows env1 ls) 1 [] rh.village_id
      (Or.inl ⟨_, hrow, hkv.symm⟩)
  unfold downloadHouseholds
  rw [rtFetchHouseholds env1 ls hsh]
  show (rtHouseholdRows env1 ls).foldl downloadHouseholdStep (rtSt2 env1 ls) = rtSt3 env1 ls
  rw [downloadHouseholdsFold_insert (rtHouseholdRows env1 ls) (rtSt2 env1 ls)
    (by simp only [rtHouseholdRows, insertedHouseholds_codes]; exact hhc)
    (fun rh hrh h hh => absurd hh (List.not_mem_nil h))
    hpar]
  simp [rtSt2, rtSt3, dnHouseholdMapOf, rtHouseholdRows, insertedHouseholds_length]

/-- Round trip phase 4: the citizen download computes `rtSt4`. -/
theorem rtRun_phase4 (env1 : Env) (ls : LocalState)
    (hcu : (ls.citizens.map (fun c => c.uniqueId)).Nodup)
    (hsc : ls.citizens.Pairwise (fun a b => a.createdAt ≤ b.createdAt))
    (hwc : (ls.wards.map (fun w => w.code)).Nodup)
    (hwi : (ls.wards.map (fun w => w.id)).Nodup)
    (hvc : (ls.villages.map (fun v => v.code)).Nodup)
    (hvi : (ls.villages.map (fun v => v.id)).Nodup)
    (hhc : (ls.households.map (fun h => h.code)).Nodup)
    (hhi : (ls.households.map (fun h => h.id)).Nodup)
    (hch : ∀ c ∈ ls.citizens, (∃ h ∈ ls.households, h.id = c.householdId) ∧
      (∃ v ∈ ls.villages, v.id = c.villageId) ∧ (∃ w ∈ ls.wards, w.id = c.wardId)) :
    downloadCitizens (freshUploadRemote env1 ls) (rtSt3 env1 ls) = rtSt4 env1 ls := by
  have hpar : ∀ rc ∈ rtCitizenRows env1 ls,
      (mapGet (rtSt3 env1 ls).householdUuidToLocalId rc.household_id).isSome = true ∧
      (mapGet (rtSt3 env1 ls).villageUuidToLocalId rc.village_id).isSome = true ∧
      (mapGet (rtSt3 env1 ls).wardUuidToLocalId rc.ward_id).isSome = true := by
    intro rc hrc
    obtain ⟨c, hc, heh, hev, hew⟩ := insertedCitizens_parent env1 (freshHouseholdMap env1 ls)
      (freshVillageMap env1 ls) (freshWardMap env1 ls) ls.citizens _ rc hrc
    obtain ⟨⟨h, hh, hhid⟩, ⟨v, hv, hvid⟩, ⟨w, hw, hwid⟩⟩ := hch c hc
    refine ⟨?_, ?_, ?_⟩
    · obtain ⟨k, hk, hfil⟩ := householdCorr (freshVillageMap env1 ls) ls.households
        (env1.uuidStart + ls.wards.length + ls.villages.length) [] hhc hhi h hh
      have hkv : rc.household_id = k := by
        rw [heh, ← hhid]
        show (mapGet (householdPairs ls.households
          (env1.uuidStart + ls.wards.length + ls.villages.length) []) h.id).getD 0 = k
        rw [hk]
        rfl
      have hrow : householdToSupabase h ((mapGet (freshVillageMap env1 ls) h.villageId).getD 0)
          none k ∈ rtHouseholdRows env1 ls :=
        List.mem_of_mem_filter (hfil.symm ▸ List.mem_singleton_self _)
      exact dnHouseholdPairs_get_isSome (rtHouseholdRows env1 ls) 1 [] rc.household_id
        (Or.inl ⟨_, hrow, hkv.symm⟩)
    · obtain ⟨k, hk, hfil⟩ := villageCorr (freshWardMap env1 ls) ls.villages
        (env1.uuidStart + ls.wards.length) [] hvc hvi v hv
      have hkv : rc.village_id = k := by
        rw [hev, ← hvid]
        show (mapGet (villagePairs ls.villages (env1.uuidStart + ls.wards.length) [])
          v.id).getD 0 = k
        rw [hk]
        rfl
      have hrow : villageToSupabase v ((mapGet (freshWardMap env1 ls) v.wardId).getD 0) none k
          ∈ rtVillageRows env1 ls :=
        List.mem_of_mem_filter (hfil.symm ▸ List.mem_singleton_self _)
      exact dnVillagePairs_get_isSome (rtVillageRows env1 ls) 1 [] rc.village_id
        (Or.inl ⟨_, hrow, hkv.symm⟩)
    · obtain ⟨k, hk, hfil⟩ := wardCorr ls.wards env1.uuidStart [] hwc hwi w hw
      have hkv : rc.ward_id = k := by
        rw [hew, ← hwid]
        show (mapGet (wardPairs ls.wards env1.uuidStart []) w.id).getD 0 = k
        rw [hk]
        rfl
      have hrow : wardToSupabase w none k ∈ rtWardRows env1 ls :=
        List.mem_of_mem_filter (hfil.symm ▸ List.mem_singleton_self _)
      exact dnWardPairs_get_isSome (rtWardRows env1 ls) 1 [] rc.ward_id
        (Or.inl ⟨_, hrow, hkv.symm⟩)
  unfold downloadCitizens
  rw [rtFetchCitizens env1 ls hsc]
  show (rtCitizenRows env1 ls).foldl (downloadCitizenStep (freshUploadRemote env1 ls))
    (rtSt3 env1 ls) = rtSt4 env1 ls
  rw [downloadCitizensFold_insert (freshUploadRemote env1 ls) (rtCitizenRows env1 ls)
    (rtSt3 env1 ls)
    (by simp only [rtCitizenRows, insertedCitizens_uids]; exact hcu)
    (fun rc hrc c hc => absurd hc (List.not_mem_nil c))
    hpar]
  simp [rtSt3, rtSt4, roundTripLocal, rtCitizenRows, insertedCitizens_length]

/-- A download of a fresh upload of a well-formed, creation-ordered local
store into an empty local store succeeds with full counters and no errors,
and produces exactly `roundTripLocal`. -/
theorem restoreFromSupabase_fresh (env1 env2 : Env) (ls : LocalState)
    (henv : env2.online = true) (hwf : WellFormed ls)
    (hsw : ls.wards.Pairwise (fun a b => a.createdAt ≤ b.createdAt))
    (hsv : ls.villages.Pairwise (fun a b => a.createdAt ≤ b.createdAt))
    (hsh : ls.households.Pairwise (fun a b => a.createdAt ≤ b.createdAt))
    (hsc : ls.citizens.Pairwise (fun a b => a.createdAt ≤ b.createdAt)) :
    restoreFromSupabase env2 emptyLocal (freshUploadRemote env1 ls) =
      ({ success := true
         uploaded := ⟨0, 0, 0, 0⟩
         downloaded := ⟨ls.wards.length, ls.villages.length, ls.households.length,
           ls.citizens.length⟩
         errors := [] }, roundTripLocal env1 ls) := by
  obtain ⟨hwc, hvc, hhc, hcu, hwi, hvi, hhi, hvw, hhv, hch⟩ := hwf
  unfold restoreFromSupabase
  rw [henv]
  dsimp only
  rw [rtRun_phase1 env1 ls hwc hsw,
    rtRun_phase2 env1 ls hvc hsv hwc hwi hvw,
    rtRun_phase3 env1 ls hhc hsh hvc hvi hhv,
    rtRun_phase4 env1 ls hcu hsc hwc hwi hvc hvi hhc hhi hch]
  rfl

/-- Wards survive the round trip with identical field values. -/
theorem addedWards_of_insertedWards (ws : List Ward) : ∀ u n,
    List.Forall₂ (fun (w w' : Ward) =>
      w'.code = w.code ∧ w'.name = w.name ∧ w'.createdAt = w.createdAt)
      ws (addedWards (insertedWards ws u) n) := by
  induction ws with
  | nil => intro u n; exact List.Forall₂.nil
  | cons w ws ih => intro u n; exact List.Forall₂.cons ⟨rfl, rfl, rfl⟩ (ih (u + 1) (n + 1))

/-- Villages survive the round trip with identical field values. -/
theorem addedVillages_of_inserted (μd μw : List (Nat × Nat)) (vs : List Village) : ∀ u n,
    List.Forall₂ (fun (v v' : Village) =>
      v'.code = v.code ∧ v'.name = v.name ∧ v'.createdAt = v.createdAt)
      vs (addedVillages μd (insertedVillages μw vs u) n) := by
  induction vs with
  | nil => intro u n; exact List.Forall₂.nil
  | cons v vs ih => intro u n; exact List.Forall₂.cons ⟨rfl, rfl, rfl⟩ (ih (u + 1) (n + 1))

/-- Households survive the round trip with identical field values. -/
theorem addedHouseholds_of_inserted (μd μv : List (Nat × Nat)) (hs : List Household) : ∀ u n,
    List.Forall₂ (fun (h h' : Household) =>
      h'.code = h.code ∧ h'.headName = h.headName ∧
      h'.locationDescription = h.locationDescription ∧ h'.latitude = h.latitude ∧
      h'.longitude = h.longitude ∧ h'.createdAt = h.createdAt ∧ h'.updatedAt = h.updatedAt)
      hs (addedHouseholds μd (insertedHouseholds μv hs u) n) := by
  induction hs with
  | nil => intro u n; exact List.Forall₂.nil
  | cons h hs ih =>
    intro u n
    exact List.Forall₂.cons ⟨rfl, rfl, rfl, rfl, rfl, rfl, rfl⟩ (ih (u + 1) (n + 1))

set_option maxRecDepth 4000 in
/-- Citizens survive the round trip with identical field values except for
the calendar-truncated date of birth; attachments are fetched back intact
when the storage round trip succeeds. -/
theorem addedCitizens_of_inserted (env1 : Env) (r : RemoteState)
    (μdh μdv μdw Mh Mv Mw : List (Nat × Nat)) (cs : List Citizen) : ∀ u n,
    (∀ c ∈ cs, ∀ pd, c.photoData = some pd →
      downloadPhotoFromStorage r (photoUrlFor c.uniqueId env1.now) = some pd) →
    (∀ c ∈ cs, ∀ fd, c.fingerprintData = some fd →
      downloadFingerprintFromStorage r (fingerprintUrlFor c.uniqueId env1.now) = some fd) →
    List.Forall₂ (fun (c c' : Citizen) =>
      c'.uniqueId = c.uniqueId ∧ c'.firstName = c.firstName ∧ c'.lastName = c.lastName ∧
      c'.otherNames = c.otherNames ∧ c'.sex = c.sex ∧
      c'.dateOfBirth = c.dateOfBirth.map (fun d => d / msPerDay * msPerDay) ∧
      c'.age = c.age ∧ c'.phoneNumber = c.phoneNumber ∧ c'.occupation = c.occupation ∧
      c'.disabilityStatus = c.disabilityStatus ∧ c'.disabilityNotes = c.disabilityNotes ∧
      c'.photoData = c.photoData ∧ c'.fingerprintData = c.fingerprintData ∧
      c'.notes = c.notes ∧ c'.consentGiven = c.consentGiven ∧
      c'.consentDate = c.consentDate ∧ c'.recorderName = c.recorderName ∧
      c'.createdAt = c.createdAt ∧ c'.updatedAt = c.updatedAt)
      cs (addedCitizens r μdh μdv μdw (insertedCitizens env1 Mh Mv Mw cs u) n) := by
  induction cs with
  | nil => intro u n _ _; exact List.Forall₂.nil
  | cons c cs ih =>
    intro u n hph hfp
    refine List.Forall₂.cons ?_ (ih (u + 1) (n + 1)
      (fun c' hc' => hph c' (List.mem_cons_of_mem c hc'))
      (fun c' hc' => hfp c' (List.mem_cons_of_mem c hc')))
    refine ⟨rfl, rfl, rfl, rfl, rfl, ?_, rfl, rfl, rfl, rfl, rfl, ?_, ?_, rfl, rfl, rfl,
      rfl, rfl, rfl⟩
    · show (c.dateOfBirth.map (fun d => d / msPerDay)).map (fun day => day * msPerDay)
        = c.dateOfBirth.map (fun d => d / msPerDay * msPerDay)
      rcases c.dateOfBirth with _ | d
      · rw [Option.map_none', Option.map_none', Option.map_none']
      · rw [Option.map_some', Option.map_some', Option.map_some']
    · show ((if c.photoData.isSome then some (photoUrlFor c.uniqueId env1.now)
        else none).bind (downloadPhotoFromStorage r)) = c.photoData
      cases hpd : c.photoData with
      | none => rfl
      | some pd =>
        show downloadPhotoFromStorage r (photoUrlFor c.uniqueId env1.now) = some pd
        exact hph c (List.mem_cons_self c cs) pd hpd
    · show ((if c.fingerprintData.isSome then some (fingerprintUrlFor c.uniqueId env1.now)
        else none).bind (downloadFingerprintFromStorage r)) = c.fingerprintData
      cases hfd : c.fingerprintData with
      | none => rfl
      | some fd =>
        show downloadFingerprintFromStorage r (fingerprintUrlFor c.uniqueId env1.now) = some fd
        exact hfp c (List.mem_cons_self c cs) fd hfd

/-- **C1 counterexample**: the round trip does not preserve all field
values — a Member's `dateOfBirth` of 1 ms after the epoch is truncated by
the calendar-date column to midnight (0 ms), even though both runs succeed
without an error. -/
theorem c1_roundTrip_counterexample :
    sampleLocal.citizens.map (fun c => c.dateOfBirth) = [some 1] ∧
    (restoreFromSupabase sampleEnv2 emptyLocal
        (syncToSupabase sampleEnv sampleLocal emptyRemote).2).2.citizens.map
      (fun c => c.dateOfBirth) = [some 0] ∧
    (syncToSupabase sampleEnv sampleLocal emptyRemote).1.errors = [] ∧
    (restoreFromSupabase sampleEnv2 emptyLocal
      (syncToSupabase sampleEnv sampleLocal emptyRemote).2).1.errors = [] := by
  exact ⟨by decide, by decide, by decide, by decide⟩

/-- **C1** (round trip, amended): for every well-formed, creation-ordered
local dataset, upload into a fresh remote store followed by download into a
fresh local store succeeds end to end (no errors, full counters) and
reconstructs a record set equivalent tier by tier — same natural keys and
same field values for every Area, Subarea, Unit and Member, up to the
reassigned local integer identifiers — with one exception: a Member's
`dateOfBirth` comes back truncated to midnight of its calendar day
(`d / msPerDay * msPerDay`), because the remote column stores only the
calendar date. -/
theorem c1_roundTrip_amended (env1 env2 : Env) (ls : LocalState)
    (h1 : env1.online = true) (h2 : env2.online = true) (hwf : WellFormed ls)
    (hsw : ls.wards.Pairwise (fun a b => a.createdAt ≤ b.createdAt))
    (hsv : ls.villages.Pairwise (fun a b => a.createdAt ≤ b.createdAt))
    (hsh : ls.households.Pairwise (fun a b => a.createdAt ≤ b.createdAt))
    (hsc : ls.citizens.Pairwise (fun a b => a.createdAt ≤ b.createdAt)) :
    (syncToSupabase env1 ls emptyRemote).1.success = true ∧
    (syncToSupabase env1 ls emptyRemote).1.errors = [] ∧
    (syncToSupabase env1 ls emptyRemote).1.uploaded
      = ⟨ls.wards.length, ls.villages.length, ls.households.length, ls.citizens.length⟩ ∧
    (restoreFromSupabase env2 emptyLocal (syncToSupabase env1 ls emptyRemote).2).1.success
      = true ∧
    (restoreFromSupabase env2 emptyLocal (syncToSupabase env1 ls emptyRemote).2).1.errors
      = [] ∧
    (restoreFromSupabase env2 emptyLocal (syncToSupabase env1 ls emptyRemote).2).1.downloaded
      = ⟨ls.wards.length, ls.villages.length, ls.households.length, ls.citizens.length⟩ ∧
    List.Forall₂ (fun (w w' : Ward) =>
        w'.code = w.code ∧ w'.name = w.name ∧ w'.createdAt = w.createdAt)
      ls.wards
      (restoreFromSupabase env2 emptyLocal (syncToSupabase env1 ls emptyRemote).2).2.wards ∧
    List.Forall₂ (fun (v v' : Village) =>
        v'.code = v.code ∧ v'.name = v.name ∧ v'.createdAt = v.createdAt)
      ls.villages
      (restoreFromSupabase env2 emptyLocal (syncToSupabase env1 ls emptyRemote).2).2.villages ∧
    List.Forall₂ (fun (h h' : Household) =>
        h'.code = h.code ∧ h'.headName = h.headName ∧
        h'.locationDescription = h.locationDescription ∧ h'.latitude = h.latitude ∧
        h'.longitude = h.longitude ∧ h'.createdAt = h.createdAt ∧ h'.updatedAt = h.updatedAt)
      ls.households
      (restoreFromSupabase env2 emptyLocal (syncToSupabase env1 ls emptyRemote).2).2.households ∧
    List.Forall₂ (fun (c c' : Citizen) =>
        c'.uniqueId = c.uniqueId ∧ c'.firstName = c.firstName ∧ c'.lastName = c.lastName ∧
        c'.otherNames = c.otherNames ∧ c'.sex = c.sex ∧
        c'.dateOfBirth = c.dateOfBirth.map (fun d => d / msPerDay * msPerDay) ∧
        c'.age = c.age ∧ c'.phoneNumber = c.phoneNumber ∧ c'.occupation = c.occupation ∧
        c'.disabilityStatus = c.disabilityStatus ∧ c'.disabilityNotes = c.disabilityNotes ∧
        c'.photoData = c.photoData ∧ c'.fingerprintData = c.fingerprintData ∧
        c'.notes = c.notes ∧ c'.consentGiven = c.consentGiven ∧
        c'.consentDate = c.consentDate ∧ c'.recorderName = c.recorderName ∧
        c'.createdAt = c.createdAt ∧ c'.updatedAt = c.updatedAt)
      ls.citizens
      (restoreFromSupabase env2 emptyLocal (syncToSupabase env1 ls emptyRemote).2).2.citizens := by
  have hcu : (ls.citizens.map (fun c => c.uniqueId)).Nodup := hwf.2.2.2.1
  have hsync := syncToSupabase_fresh env1 ls h1 hwf
  have hrest := restoreFromSupabase_fresh env1 env2 ls h2 hwf hsw hsv hsh hsc
  rw [hsync]
  dsimp only
  rw [hrest]
  dsimp only
  refine ⟨rfl, rfl, rfl, rfl, rfl, rfl, ?_, ?_, ?_, ?_⟩
  · exact addedWards_of_insertedWards ls.wards env1.uuidStart 1
  · exact addedVillages_of_inserted (dnWardMapOf env1 ls) (freshWardMap env1 ls)
      ls.villages (env1.uuidStart + ls.wards.length) 1
  · exact addedHouseholds_of_inserted (dnVillageMapOf env1 ls) (freshVillageMap env1 ls)
      ls.households (env1.uuidStart + ls.wards.length + ls.villages.length) 1
  · exact addedCitizens_of_inserted env1 (freshUploadRemote env1 ls)
      (dnHouseholdMapOf env1 ls) (dnVillageMapOf env1 ls) (dnWardMapOf env1 ls)
      (freshHouseholdMap env1 ls) (freshVillageMap env1 ls) (freshWardMap env1 ls)
      ls.citizens
      (env1.uuidStart + ls.wards.length + ls.villages.length + ls.households.length) 1
      (fun c hc pd hpd => freshRemote_photo_roundtrip env1 ls hcu c hc pd hpd)
      (fun c hc fd hfd => freshRemote_fingerprint_roundtrip env1 ls hcu c hc fd hfd)
/-- Witness for C1 at the sample store: the hypotheses hold and the upload
run reports full success. -/
theorem c1_roundTrip_amended_witness :
    WellFormed sampleLocal ∧
    sampleEnv.online = true ∧
    ((syncToSupabase sampleEnv sampleLocal emptyRemote).1.success = true ∧
      (syncToSupabase sampleEnv sampleLocal emptyRemote).1.errors = [] ∧
      (syncToSupabase sampleEnv sampleLocal emptyRemote).1.uploaded = ⟨1, 1, 1, 1⟩) :=
  ⟨by unfold WellFormed; decide, by decide,
   (by
      have h := c1_roundTrip_amended sampleEnv sampleEnv2 sampleLocal (by decide) (by decide)
        (by unfold WellFormed; decide) (by decide) (by decide) (by decide) (by decide)
      exact ⟨h.1, h.2.1, h.2.2.1⟩)⟩

/-- Keys outside the processed list fall through the rerun map. -/
theorem rerunPairs_get_skip (key kOf : α → Nat) (xs : List α) : ∀ m x,
    x ∉ xs.map key → mapGet (rerunPairs key kOf xs m) x = mapGet m x := by
  induction xs with
  | nil => intro m x _; rfl
  | cons a xs ih =>
    intro m x hx
    simp only [List.map_cons, List.mem_cons, not_or] at hx
    rw [rerunPairs, ih _ x hx.2, mapGet_set_ne _ _ _ _ hx.1]

/-- The rerun map binds each processed key to its looked-up remote id. -/
theorem rerunPairs_get (key kOf : α → Nat) (xs : List α) : ∀ m a, a ∈ xs →
    (xs.map key).Nodup → mapGet (rerunPairs key kOf xs m) (key a) = some (kOf a) := by
  induction xs with
  | nil => intro m a ha _; exact absurd ha (List.not_mem_nil a)
  | cons x xs ih =>
    intro m a ha hnd
    have hnd' := (List.nodup_cons.mp hnd).2
    have hh := (List.nodup_cons.mp hnd).1
    rcases List.mem_cons.mp ha with rfl | hmem
    · rw [rerunPairs, rerunPairs_get_skip key kOf xs _ (key a) hh, mapGet_set_self]
    · rw [rerunPairs]
      exact ih _ a hmem hnd'

/-- Updating the matched elements of a list by a map that fixes them leaves
the list unchanged. -/
theorem map_update_self (l : List α) (q : α → Prop) [DecidablePred q] (f : α → α)
    (h : ∀ x ∈ l, q x → f x = x) : l.map (fun x => if q x then f x else x) = l := by
  induction l with
  | nil => rfl
  | cons a l ih =>
    simp only [List.map_cons]
    rw [ih (fun x hx => h x (List.mem_cons_of_mem a hx))]
    by_cases hq : q a
    · rw [if_pos hq, h a (List.mem_cons_self a l) hq]
    · rw [if_neg hq]

/-- The ids of the ward rows of a fresh upload are distinct. -/
theorem freshWards_ids_nodup (env1 : Env) (ls : LocalState) :
    ((freshUploadRemote env1 ls).wards.map (fun rw => rw.id)).Nodup := by
  show ((insertedWards ls.wards env1.uuidStart).map (fun rw => rw.id)).Nodup
  rw [insertedWards_ids]
  exact List.nodup_range' _ _

/-- The ids of the village rows of a fresh upload are distinct. -/
theorem freshVillages_ids_nodup (env1 : Env) (ls : LocalState) :
    ((freshUploadRemote env1 ls).villages.map (fun rv => rv.id)).Nodup := by
  show ((insertedVillages (freshWardMap env1 ls) ls.villages
    (env1.uuidStart + ls.wards.length)).map (fun rv => rv.id)).Nodup
  rw [insertedVillages_ids]
  exact List.nodup_range' _ _

/-- The ids of the household rows of a fresh upload are distinct. -/
theorem freshHouseholds_ids_nodup (env1 : Env) (ls : LocalState) :
    ((freshUploadRemote env1 ls).households.map (fun rh => rh.id)).Nodup := by
  show ((insertedHouseholds (freshVillageMap env1 ls) ls.households
    (env1.uuidStart + ls.wards.length + ls.villages.length)).map (fun rh => rh.id)).Nodup
  rw [insertedHouseholds_ids]
  exact List.nodup_range' _ _

/-- The ids of the citizen rows of a fresh upload are distinct. -/
theorem freshCitizens_ids_nodup (env1 : Env) (ls : LocalState) :
    ((freshUploadRemote env1 ls).citizens.map (fun rc => rc.id)).Nodup := by
  show ((insertedCitizens env1 (freshHouseholdMap env1 ls) (freshVillageMap env1 ls)
    (freshWardMap env1 ls) ls.citizens
    (env1.uuidStart + ls.wards.length + ls.villages.length + ls.households.length)).map
      (fun rc => rc.id)).Nodup
  rw [insertedCitizens_ids]
  exact List.nodup_range' _ _

/-- One ward re-upload step: the natural-key lookup hits the existing row,
and the wholesale update writes back an identical row, so the remote store
is unchanged and the existing remote id is recorded. -/
theorem uploadWardStep_update (st : UpState) (w : Ward) (k : Nat)
    (hre : st.remote.reachable = true)
    (hids : (st.remote.wards.map (fun rw => rw.id)).Nodup)
    (hfil : st.remote.wards.filter (fun rw => rw.code == w.code) = [wardToSupabase w none k]) :
    uploadWardStep st w =
      { st with wardIdMap := mapSet st.wardIdMap w.id k
                upWards := st.upWards + 1 } := by
  have hrow : wardToSupabase w none k ∈ st.remote.wards :=
    List.mem_of_mem_filter (hfil.symm ▸ List.mem_singleton_self _)
  have hsel : remoteSelectWardId st.remote w.code = some k :=
    remoteSelectWardId_single st.remote w.code _ hre hfil
  have hmap : st.remote.wards.map
      (fun rw => if rw.id = k then wardToSupabase w (some k) st.uuid else rw)
      = st.remote.wards := by
    apply map_replace_self
    intro x hx hxk
    exact List.inj_on_of_nodup_map hids hx hrow hxk
  simp [uploadWardStep, hsel, remoteUpdateWard, hre, hmap]
  exact ⟨by rw [← hre], rfl⟩

/-- The ward phase of a re-upload leaves the remote store unchanged and
rebuilds the id map from the existing rows. -/
theorem uploadWards_update (ws : List Ward) (kOf : Ward → Nat) :
    ∀ st : UpState, st.remote.reachable = true →
      (st.remote.wards.map (fun rw => rw.id)).Nodup →
      (∀ w ∈ ws, st.remote.wards.filter (fun rw => rw.code == w.code)
        = [wardToSupabase w none (kOf w)]) →
      uploadWards st ws =
        { st with wardIdMap := rerunPairs (fun w => w.id) kOf ws st.wardIdMap
                  upWards := st.upWards + ws.length } := by
  induction ws with
  | nil =>
    intro st _ _ _
    show st = _
    simp [rerunPairs]
  | cons w ws ih =>
    intro st hre hids hfil
    have hstep := uploadWardStep_update st w (kOf w) hre hids
      (hfil w (List.mem_cons_self w ws))
    have hre2 : (uploadWardStep st w).remote.reachable = true := by rw [hstep]; exact hre
    have hids2 : ((uploadWardStep st w).remote.wards.map (fun rw => rw.id)).Nodup := by
      rw [hstep]; exact hids
    have hfil2 : ∀ w' ∈ ws, (uploadWardStep st w).remote.wards.filter
        (fun rw => rw.code == w'.code) = [wardToSupabase w' none (kOf w')] := by
      rw [hstep]; exact fun w' hw' => hfil w' (List.mem_cons_of_mem w hw')
    rw [show uploadWards st (w :: ws) = uploadWards (uploadWardStep st w) ws from rfl,
        ih (uploadWardStep st w) hre2 hids2 hfil2, hstep]
    simp only [rerunPairs, List.length_cons, Nat.succ_add]
    rfl

/-- One village re-upload step: identical-row update, remote unchanged. -/
theorem uploadVillageStep_update (st : UpState) (v : Village) (wid k : Nat)
    (hre : st.remote.reachable = true)
    (hget : mapGet st.wardIdMap v.wardId = some wid)
    (hids : (st.remote.villages.map (fun rv => rv.id)).Nodup)
    (hfil : st.remote.villages.filter (fun rv => rv.code == v.code)
      = [villageToSupabase v wid none k]) :
    uploadVillageStep st v =
      { st with villageIdMap := mapSet st.villageIdMap v.id k
                upVillages := st.upVillages + 1 } := by
  have hrow : villageToSupabase v wid none k ∈ st.remote.villages :=
    List.mem_of_mem_filter (hfil.symm ▸ List.mem_singleton_self _)
  have hsel : remoteSelectVillageId st.remote v.code = some k :=
    remoteSelectVillageId_single st.remote v.code _ hre hfil
  have hmap : st.remote.villages.map
      (fun rv => if rv.id = k then villageToSupabase v wid (some k) st.uuid else rv)
      = st.remote.villages := by
    apply map_replace_self
    intro x hx hxk
    exact List.inj_on_of_nodup_map hids hx hrow hxk
  simp [uploadVillageStep, hget, hsel, remoteUpdateVillage, hre, hmap]
  exact ⟨by rw [← hre], rfl⟩

/-- The village phase of a re-upload leaves the remote store unchanged. -/
theorem uploadVillages_update (vs : List Village) (kOf : Village → Nat)
    (widOf : Village → Nat) :
    ∀ st : UpState, st.remote.reachable = true →
      (st.remote.villages.map (fun rv => rv.id)).Nodup →
      (∀ v ∈ vs, mapGet st.wardIdMap v.wardId = some (widOf v)) →
      (∀ v ∈ vs, st.remote.villages.filter (fun rv => rv.code == v.code)
        = [villageToSupabase v (widOf v) none (kOf v)]) →
      uploadVillages st vs =
        { st with villageIdMap := rerunPairs (fun v => v.id) kOf vs st.villageIdMap
                  upVillages := st.upVillages + vs.length } := by
  induction vs with
  | nil =>
    intro st _ _ _ _
    show st = _
    simp [rerunPairs]
  | cons v vs ih =>
    intro st hre hids hget hfil
    have hstep := uploadVillageStep_update st v (widOf v) (kOf v) hre
      (hget v (List.mem_cons_self v vs)) hids (hfil v (List.mem_cons_self v vs))
    have hre2 : (uploadVillageStep st v).remote.reachable = true := by rw [hstep]; exact hre
    have hids2 : ((uploadVillageStep st v).remote.villages.map (fun rv => rv.id)).Nodup := by
      rw [hstep]; exact hids
    have hget2 : ∀ v' ∈ vs, mapGet (uploadVillageStep st v).wardIdMap v'.wardId
        = some (widOf v') := by
      rw [hstep]; exact fun v' hv' => hget v' (List.mem_cons_of_mem v hv')
    have hfil2 : ∀ v' ∈ vs, (uploadVillageStep st v).remote.villages.filter
        (fun rv => rv.code == v'.code) = [villageToSupabase v' (widOf v') none (kOf v')] := by
      rw [hstep]; exact fun v' hv' => hfil v' (List.mem_cons_of_mem v hv')
    rw [show uploadVillages st (v :: vs) = uploadVillages (uploadVillageStep st v) vs from rfl,
        ih (uploadVillageStep st v) hre2 hids2 hget2 hfil2, hstep]
    simp only [rerunPairs, List.length_cons, Nat.succ_add]
    rfl

/-- Merging a household row into the identical stored row is the identity. -/
theorem mergeHouseholdRow_self (h : Household) (vid k u : Nat) :
    mergeHouseholdRow (householdToSupabase h vid none k) (householdToSupabase h vid (some k) u)
      = householdToSupabase h vid none k := by
  simp [mergeHouseholdRow, householdToSupabase, updCol_self]

/-- One household re-upload step: the column-merge update writes back an
identical row, so the remote store is unchanged. -/
theorem uploadHouseholdStep_update (st : UpState) (h : Household) (vid k : Nat)
    (hre : st.remote.reachable = true)
    (hget : mapGet st.villageIdMap h.villageId = some vid)
    (hids : (st.remote.households.map (fun rh => rh.id)).Nodup)
    (hfil : st.remote.households.filter (fun rh => rh.code == h.code)
      = [householdToSupabase h vid none k]) :
    uploadHouseholdStep st h =
      { st with householdIdMap := mapSet st.householdIdMap h.id k
                upHouseholds := st.upHouseholds + 1 } := by
  have hrow : householdToSupabase h vid none k ∈ st.remote.households :=
    List.mem_of_mem_filter (hfil.symm ▸ List.mem_singleton_self _)
  have hsel : remoteSelectHouseholdId st.remote h.code = some k :=
    remoteSelectHouseholdId_single st.remote h.code _ hre hfil
  have hmap : st.remote.households.map
      (fun rh => if rh.id = k
        then mergeHouseholdRow rh (householdToSupabase h vid (some k) st.uuid) else rh)
      = st.remote.households := by
    apply map_update_self
    intro x hx hxk
    have hxrow : x = householdToSupabase h vid none k :=
      List.inj_on_of_nodup_map hids hx hrow hxk
    rw [hxrow, mergeHouseholdRow_self]
  simp [uploadHouseholdStep, hget, hsel, remoteUpdateHousehold, hre, hmap]
  exact ⟨by rw [← hre], rfl⟩

/-- The household phase of a re-upload leaves the remote store unchanged. -/
theorem uploadHouseholds_update (hs : List Household) (kOf : Household → Nat)
    (vidOf : Household → Nat) :
    ∀ st : UpState, st.remote.reachable = true →
      (st.remote.households.map (fun rh => rh.id)).Nodup →
      (∀ h ∈ hs, mapGet st.villageIdMap h.villageId = some (vidOf h)) →
      (∀ h ∈ hs, st.remote.households.filter (fun rh => rh.code == h.code)
        = [householdToSupabase h (vidOf h) none (kOf h)]) →
      uploadHouseholds st hs =
        { st with householdIdMap := rerunPairs (fun h => h.id) kOf hs st.householdIdMap
                  upHouseholds := st.upHouseholds + hs.length } := by
  induction hs with
  | nil =>
    intro st _ _ _ _
    show st = _
    simp [rerunPairs]
  | cons h hs ih =>
    intro st hre hids hget hfil
    have hstep := uploadHouseholdStep_update st h (vidOf h) (kOf h) hre
      (hget h (List.mem_cons_self h hs)) hids (hfil h (List.mem_cons_self h hs))
    have hre2 : (uploadHouseholdStep st h).remote.reachable = true := by rw [hstep]; exact hre
    have hids2 : ((uploadHouseholdStep st h).remote.households.map (fun rh => rh.id)).Nodup := by
      rw [hstep]; exact hids
    have hget2 : ∀ h' ∈ hs, mapGet (uploadHouseholdStep st h).villageIdMap h'.villageId
        = some (vidOf h') := by
      rw [hstep]; exact fun h' hh' => hget h' (List.mem_cons_of_mem h hh')
    have hfil2 : ∀ h' ∈ hs, (uploadHouseholdStep st h).remote.households.filter
        (fun rh => rh.code == h'.code) = [householdToSupabase h' (vidOf h') none (kOf h')] := by
      rw [hstep]; exact fun h' hh' => hfil h' (List.mem_cons_of_mem h hh')
    rw [show uploadHouseholds st (h :: hs) = uploadHouseholds (uploadHouseholdStep st h) hs
          from rfl,
        ih (uploadHouseholdStep st h) hre2 hids2 hget2 hfil2, hstep]
    simp only [rerunPairs, List.length_cons, Nat.succ_add]
    rfl

/-- Retiming preserves the row's primary key. -/
theorem retimeCitizenRow_id (env2 : Env) (rc : SupabaseCitizen) :
    (retimeCitizenRow env2 rc).id = rc.id := rfl

/-- Retiming preserves the row's unique id. -/
theorem retimeCitizenRow_uid (env2 : Env) (rc : SupabaseCitizen) :
    (retimeCitizenRow env2 rc).unique_id = rc.unique_id := rfl

/-- One citizen re-upload step: the natural-key lookup hits the existing
row and the column-merge update only refreshes `synced_at`, `device_id` and
the attachment URLs; the buckets gain the re-timestamped objects. -/
theorem uploadCitizenStep_update (env1 env2 : Env) (Mh Mv Mw : List (Nat × Nat))
    (st : UpState) (c : Citizen) (k : Nat)
    (hre : st.remote.reachable = true)
    (hpo : st.remote.photosOk = true)
    (hfo : st.remote.fingerprintsOk = true)
    (hids : (st.remote.citizens.map (fun rc => rc.id)).Nodup)
    (hgh : mapGet st.householdIdMap c.householdId = some ((mapGet Mh c.householdId).getD 0))
    (hgv : mapGet st.villageIdMap c.villageId = some ((mapGet Mv c.villageId).getD 0))
    (hgw : mapGet st.wardIdMap c.wardId = some ((mapGet Mw c.wardId).getD 0))
    (hfil : st.remote.citizens.filter (fun rc => rc.unique_id == c.uniqueId)
      = [insertedCitizen env1 Mh Mv Mw c k]) :
    uploadCitizenStep env2 st c =
      { st with
        remote := { st.remote with
          citizens := st.remote.citizens.map (fun rc =>
            if rc.unique_id == c.uniqueId then retimeCitizenRow env2 rc else rc)
          photos := (match c.photoData with
            | none => st.remote.photos
            | some pd => (photoUrlFor c.uniqueId env2.now, pd) ::
                st.remote.photos.filter (fun p => p.1 != photoUrlFor c.uniqueId env2.now))
          fingerprints := (match c.fingerprintData with
            | none => st.remote.fingerprints
            | some fd => (fingerprintUrlFor c.uniqueId env2.now, fd) ::
                st.remote.fingerprints.filter
                  (fun p => p.1 != fingerprintUrlFor c.uniqueId env2.now)) }
        upCitizens := st.upCitizens + 1 } := by
  have hrow : insertedCitizen env1 Mh Mv Mw c k ∈ st.remote.citizens :=
    List.mem_of_mem_filter (hfil.symm ▸ List.mem_singleton_self _)
  have hsel : remoteSelectCitizenId st.remote c.uniqueId = some k :=
    remoteSelectCitizenId_single st.remote c.uniqueId _ hre hfil
  have hgen : ∀ sc2 : SupabaseCitizen,
      mergeCitizenRow (insertedCitizen env1 Mh Mv Mw c k) sc2
        = retimeCitizenRow env2 (insertedCitizen env1 Mh Mv Mw c k) →
      st.remote.citizens.map (fun rc => if rc.id = k then mergeCitizenRow rc sc2 else rc)
        = st.remote.citizens.map (fun rc =>
            if rc.unique_id == c.uniqueId then retimeCitizenRow env2 rc else rc) := by
    intro sc2 hmerge
    apply List.map_congr_left
    intro x hx
    by_cases hxid : x.id = k
    · have hxrow : x = insertedCitizen env1 Mh Mv Mw c k :=
        List.inj_on_of_nodup_map hids hx hrow hxid
      rw [if_pos hxid, hxrow, hmerge]
      have huid : ((insertedCitizen env1 Mh Mv Mw c k).unique_id == c.uniqueId) = true := by
        simp [insertedCitizen, citizenToSupabase]
      simp only [huid, if_true]
    · rw [if_neg hxid]
      have hbe : (x.unique_id == c.uniqueId) = false := by
        cases hb : x.unique_id == c.uniqueId
        · rfl
        · exfalso
          have hxf : x ∈ st.remote.citizens.filter (fun rc => rc.unique_id == c.uniqueId) :=
            List.mem_filter.mpr ⟨hx, hb⟩
          rw [hfil] at hxf
          exact hxid (congrArg (fun rc => rc.id) (List.mem_singleton.mp hxf))
      simp only [hbe, Bool.false_eq_true, if_false]
  cases hpd : c.photoData with
  | none =>
    cases hfd : c.fingerprintData with
    | none =>
      have hA : uploadCitizenStep env2 st c =
          { st with
            remote := { st.remote with
              citizens := st.remote.citizens.map (fun rc => if rc.id = k
                then mergeCitizenRow rc
                  (citizenToSupabase env2 c ((mapGet Mh c.householdId).getD 0)
                    ((mapGet Mv c.villageId).getD 0) ((mapGet Mw c.wardId).getD 0)
                    (some k) st.uuid)
                else rc) }
            upCitizens := st.upCitizens + 1 } := by
        simp [uploadCitizenStep, hgh, hgv, hgw, hsel, hpd, hfd, remoteUpdateCitizen,
          hre, updCol, citizenToSupabase]
      have hmerge : mergeCitizenRow (insertedCitizen env1 Mh Mv Mw c k)
          (citizenToSupabase env2 c ((mapGet Mh c.householdId).getD 0)
            ((mapGet Mv c.villageId).getD 0) ((mapGet Mw c.wardId).getD 0) (some k) st.uuid)
          = retimeCitizenRow env2 (insertedCitizen env1 Mh Mv Mw c k) := by
        simp [mergeCitizenRow, insertedCitizen, citizenToSupabase, retimeCitizenRow,
          updCol_self, updCol_some, updCol_none, hpd, hfd]
      rw [hA, hgen _ hmerge]
    | some fd =>
      have hA : uploadCitizenStep env2 st c =
          { st with
            remote := { st.remote with
              citizens := st.remote.citizens.map (fun rc => if rc.id = k
                then mergeCitizenRow rc
                  { citizenToSupabase env2 c ((mapGet Mh c.householdId).getD 0)
                      ((mapGet Mv c.villageId).getD 0) ((mapGet Mw c.wardId).getD 0)
                      (some k) st.uuid with
                    fingerprint_url := some (fingerprintUrlFor c.uniqueId env2.now) }
                else rc)
              fingerprints := (fingerprintUrlFor c.uniqueId env2.now, fd) ::
                st.remote.fingerprints.filter
                  (fun p => p.1 != fingerprintUrlFor c.uniqueId env2.now) }
            upCitizens := st.upCitizens + 1 } := by
        simp [uploadCitizenStep, hgh, hgv, hgw, hsel, hpd, hfd, remoteUpdateCitizen,
          uploadFingerprintToStorage, hre, hfo, updCol, citizenToSupabase]
      have hmerge : mergeCitizenRow (insertedCitizen env1 Mh Mv Mw c k)
          { citizenToSupabase env2 c ((mapGet Mh c.householdId).getD 0)
              ((mapGet Mv c.villageId).getD 0) ((mapGet Mw c.wardId).getD 0)
              (some k) st.uuid with
            fingerprint_url := some (fingerprintUrlFor c.uniqueId env2.now) }
          = retimeCitizenRow env2 (insertedCitizen env1 Mh Mv Mw c k) := by
        simp [mergeCitizenRow, insertedCitizen, citizenToSupabase, retimeCitizenRow,
          updCol_self, updCol_some, updCol_none, hpd, hfd]
      rw [hA, hgen _ hmerge]
  | some pd =>
    cases hfd : c.fingerprintData with
    | none =>
      have hA : uploadCitizenStep env2 st c =
          { st with
            remote := { st.remote with
              citizens := st.remote.citizens.map (fun rc => if rc.id = k
                then mergeCitizenRow rc
                  { citizenToSupabase env2 c ((mapGet Mh c.householdId).getD 0)
                      ((mapGet Mv c.villageId).getD 0) ((mapGet Mw c.wardId).getD 0)
                      (some k) st.uuid with
                    photo_url := some (photoUrlFor c.uniqueId env2.now) }
                else rc)
              photos := (photoUrlFor c.uniqueId env2.now, pd) ::
                st.remote.photos.filter (fun p => p.1 != photoUrlFor c.uniqueId env2.now) }
            upCitizens := st.upCitizens + 1 } := by
        simp [uploadCitizenStep, hgh, hgv, hgw, hsel, hpd, hfd, remoteUpdateCitizen,
          uploadPhotoToStorage, hre, hpo, updCol, citizenToSupabase]
      have hmerge : mergeCitizenRow (insertedCitizen env1 Mh Mv Mw c k)
          { citizenToSupabase env2 c ((mapGet Mh c.householdId).getD 0)
              ((mapGet Mv c.villageId).getD 0) ((mapGet Mw c.wardId).getD 0)
              (some k) st.uuid with
            photo_url := some (photoUrlFor c.uniqueId env2.now) }
          = retimeCitizenRow env2 (insertedCitizen env1 Mh Mv Mw c k) := by
        simp [mergeCitizenRow, insertedCitizen, citizenToSupabase, retimeCitizenRow,
          updCol_self, updCol_some, updCol_none, hpd, hfd]
      rw [hA, hgen _ hmerge]
    | some fd =>
      have hA : uploadCitizenStep env2 st c =
          { st with
            remote := { st.remote with
              citizens := st.remote.citizens.map (fun rc => if rc.id = k
                then mergeCitizenRow rc
                  { citizenToSupabase env2 c ((mapGet Mh c.householdId).getD 0)
                      ((mapGet Mv c.villageId).getD 0) ((mapGet Mw c.wardId).getD 0)
                      (some k) st.uuid with
                    photo_url := some (photoUrlFor c.uniqueId env2.now)
                    fingerprint_url := some (fingerprintUrlFor c.uniqueId env2.now) }
                else rc)
              photos := (photoUrlFor c.uniqueId env2.now, pd) ::
                st.remote.photos.filter (fun p => p.1 != photoUrlFor c.uniqueId env2.now)
              fingerprints := (fingerprintUrlFor c.uniqueId env2.now, fd) ::
                st.remote.fingerprints.filter
                  (fun p => p.1 != fingerprintUrlFor c.uniqueId env2.now) }
            upCitizens := st.upCitizens + 1 } := by
        simp [uploadCitizenStep, hgh, hgv, hgw, hsel, hpd, hfd, remoteUpdateCitizen,
          uploadPhotoToStorage, uploadFingerprintToStorage, hre, hpo, hfo, updCol,
          citizenToSupabase]
      have hmerge : mergeCitizenRow (insertedCitizen env1 Mh Mv Mw c k)
          { citizenToSupabase env2 c ((mapGet Mh c.householdId).getD 0)
              ((mapGet Mv c.villageId).getD 0) ((mapGet Mw c.wardId).getD 0)
              (some k) st.uuid with
            photo_url := some (photoUrlFor c.uniqueId env2.now)
            fingerprint_url := some (fingerprintUrlFor c.uniqueId env2.now) }
          = retimeCitizenRow env2 (insertedCitizen env1 Mh Mv Mw c k) := by
        simp [mergeCitizenRow, insertedCitizen, citizenToSupabase, retimeCitizenRow,
          updCol_self, updCol_some, updCol_none, hpd, hfd]
      rw [hA, hgen _ hmerge]

/-- A map that fixes every element the filter keeps commutes out of the
filter. -/
theorem filter_map_invariant (l : List α) (p : α → Bool) (f : α → α)
    (h1 : ∀ x ∈ l, p x = true → f x = x) (h2 : ∀ x ∈ l, p (f x) = p x) :
    (l.map f).filter p = l.filter p := by
  induction l with
  | nil => rfl
  | cons a l ih =>
    have ih' := ih (fun x hx => h1 x (List.mem_cons_of_mem a hx))
      (fun x hx => h2 x (List.mem_cons_of_mem a hx))
    simp only [List.map_cons, List.filter_cons]
    rw [h2 a (List.mem_cons_self a l)]
    cases hpa : p a
    · simp only [Bool.false_eq_true, if_false]
      exact ih'
    · simp only [if_true]
      rw [h1 a (List.mem_cons_self a l) hpa, ih']

/-- Retiming one citizen's row preserves the id column of the table. -/
theorem mapRetime_ids (env2 : Env) (u : String) (rows : List SupabaseCitizen) :
    ((rows.map (fun rc => if rc.unique_id == u then retimeCitizenRow env2 rc else rc)).map
      (fun rc => rc.id)) = rows.map (fun rc => rc.id) := by
  rw [List.map_map]
  apply List.map_congr_left
  intro x _
  by_cases hb : (x.unique_id == u) = true
  · simp [Function.comp, hb, retimeCitizenRow_id]
  · simp [Function.comp, hb]

/-- Retiming one citizen's row does not disturb the lookup of another. -/
theorem mapRetime_filter (env2 : Env) (u u' : String) (rows : List SupabaseCitizen)
    (hne : u' ≠ u) :
    (rows.map (fun rc => if rc.unique_id == u then retimeCitizenRow env2 rc else rc)).filter
      (fun rc => rc.unique_id == u') = rows.filter (fun rc => rc.unique_id == u') := by
  apply filter_map_invariant
  · intro x _ hx
    have hxu : x.unique_id = u' := by simpa using hx
    rw [if_neg]
    simp [hxu]
    exact hne
  · intro x _
    by_cases hb : (x.unique_id == u) = true
    · rw [if_pos hb]
      rw [show (retimeCitizenRow env2 x).unique_id = x.unique_id from rfl]
    · rw [if_neg hb]

/-- Retiming distributes over the processed-uids list. -/
theorem mapRetimeOn_step (env2 : Env) (u : String) (uids : List String)
    (rows : List SupabaseCitizen) (hu : u ∉ uids) :
    mapRetimeOn env2 uids (rows.map (fun rc =>
      if rc.unique_id == u then retimeCitizenRow env2 rc else rc))
      = mapRetimeOn env2 (u :: uids) rows := by
  unfold mapRetimeOn
  rw [List.map_map]
  apply List.map_congr_left
  intro x _
  by_cases hb : x.unique_id = u
  · simp [Function.comp, hb, hu, retimeCitizenRow_uid]
  · simp [Function.comp, hb, List.mem_cons]

/-- Retiming on a covering uid list retimes every row. -/
theorem mapRetimeOn_full (env2 : Env) (uids : List String) (rows : List SupabaseCitizen)
    (h : ∀ rc ∈ rows, rc.unique_id ∈ uids) :
    mapRetimeOn env2 uids rows = rows.map (retimeCitizenRow env2) := by
  unfold mapRetimeOn
  apply List.map_congr_left
  intro x hx
  rw [if_pos (h x hx)]

/-- The citizen phase of a re-upload: every row is matched by unique id and
updated in place, refreshing only `synced_at`, `device_id` and the
re-timestamped attachment URLs; the buckets gain the new objects. -/
theorem uploadCitizens_update (env1 env2 : Env) (Mh Mv Mw : List (Nat × Nat))
    (cs : List Citizen) :
    ∀ st : UpState, st.remote.reachable = true →
      st.remote.photosOk = true → st.remote.fingerprintsOk = true →
      (cs.map (fun c => c.uniqueId)).Nodup →
      (st.remote.citizens.map (fun rc => rc.id)).Nodup →
      (∀ c ∈ cs, ∃ k, st.remote.citizens.filter (fun rc => rc.unique_id == c.uniqueId)
        = [insertedCitizen env1 Mh Mv Mw c k]) →
      (∀ c ∈ cs, mapGet st.householdIdMap c.householdId
          = some ((mapGet Mh c.householdId).getD 0) ∧
        mapGet st.villageIdMap c.villageId = some ((mapGet Mv c.villageId).getD 0) ∧
        mapGet st.wardIdMap c.wardId = some ((mapGet Mw c.wardId).getD 0)) →
      uploadCitizens env2 st cs =
        { st with
            remote := { st.remote with
              citizens := mapRetimeOn env2 (cs.map (fun c => c.uniqueId)) st.remote.citizens
              photos := citizenPhotos env2.now cs st.remote.photos
              fingerprints := citizenFingerprints env2.now cs st.remote.fingerprints }
            upCitizens := st.upCitizens + cs.length } := by
  induction cs with
  | nil =>
    intro st _ _ _ _ _ _ _
    show st = _
    simp [mapRetimeOn, citizenPhotos, citizenFingerprints]
  | cons c cs ih =>
    intro st hre hpo hfo hnd hids hfil hget
    obtain ⟨k, hfilc⟩ := hfil c (List.mem_cons_self c cs)
    obtain ⟨hgh, hgv, hgw⟩ := hget c (List.mem_cons_self c cs)
    have hstep := uploadCitizenStep_update env1 env2 Mh Mv Mw st c k hre hpo hfo hids
      hgh hgv hgw hfilc
    have hnd' := (List.nodup_cons.mp hnd).2
    have hhead := (List.nodup_cons.mp hnd).1
    have hre2 : (uploadCitizenStep env2 st c).remote.reachable = true := by
      rw [hstep]; exact hre
    have hpo2 : (uploadCitizenStep env2 st c).remote.photosOk = true := by
      rw [hstep]; exact hpo
    have hfo2 : (uploadCitizenStep env2 st c).remote.fingerprintsOk = true := by
      rw [hstep]; exact hfo
    have hids2 : ((uploadCitizenStep env2 st c).remote.citizens.map (fun rc => rc.id)).Nodup := by
      rw [hstep]
      show ((st.remote.citizens.map (fun rc =>
        if rc.unique_id == c.uniqueId then retimeCitizenRow env2 rc else rc)).map
          (fun rc => rc.id)).Nodup
      rw [mapRetime_ids]
      exact hids
    have hfil2 : ∀ c' ∈ cs, ∃ k',
        (uploadCitizenStep env2 st c).remote.citizens.filter
          (fun rc => rc.unique_id == c'.uniqueId) = [insertedCitizen env1 Mh Mv Mw c' k'] := by
      intro c' hc'
      obtain ⟨k', hf⟩ := hfil c' (List.mem_cons_of_mem c hc')
      refine ⟨k', ?_⟩
      rw [hstep]
      show (st.remote.citizens.map (fun rc =>
        if rc.unique_id == c.uniqueId then retimeCitizenRow env2 rc else rc)).filter
          (fun rc => rc.unique_id == c'.uniqueId) = _
      have hne : c'.uniqueId ≠ c.uniqueId := by
        intro he
        refine hhead ?_
        simpa [← he] using List.mem_map_of_mem (fun x => x.uniqueId) hc'
      rw [mapRetime_filter env2 c.uniqueId c'.uniqueId st.remote.citizens hne, hf]
    have hget2 : ∀ c' ∈ cs, mapGet (uploadCitizenStep env2 st c).householdIdMap c'.householdId
          = some ((mapGet Mh c'.householdId).getD 0) ∧
        mapGet (uploadCitizenStep env2 st c).villageIdMap c'.villageId
          = some ((mapGet Mv c'.villageId).getD 0) ∧
        mapGet (uploadCitizenStep env2 st c).wardIdMap c'.wardId
          = some ((mapGet Mw c'.wardId).getD 0) := by
      rw [hstep]; exact fun c' hc' => hget c' (List.mem_cons_of_mem c hc')
    rw [show uploadCitizens env2 st (c :: cs)
          = uploadCitizens env2 (uploadCitizenStep env2 st c) cs from rfl,
        ih (uploadCitizenStep env2 st c) hre2 hpo2 hfo2 hnd' hids2 hfil2 hget2, hstep]
    dsimp only
    rw [mapRetimeOn_step env2 c.uniqueId (cs.map (fun c => c.uniqueId))
      st.remote.citizens hhead]
    simp only [List.map_cons, citizenPhotos, citizenFingerprints, List.length_cons,
      Nat.succ_add]
    rfl

/-- Re-upload phase 1: the ward phase finds every ward by code, updates it
in place with an identical row, and records the existing remote ids. -/
theorem rerun_phase1 (env1 env2 : Env) (ls : LocalState)
    (hwc : (ls.wards.map (fun w => w.code)).Nodup)
    (hwi : (ls.wards.map (fun w => w.id)).Nodup) :
    uploadWards (initUpState env2 (freshUploadRemote env1 ls)) ls.wards
      = rerunSt1 env1 env2 ls := by
  have hfili : ∀ w ∈ ls.wards,
      (initUpState env2 (freshUploadRemote env1 ls)).remote.wards.filter
        (fun rw => rw.code == w.code)
      = [wardToSupabase w none ((mapGet (freshWardMap env1 ls) w.id).getD 0)] := by
    intro w hw
    obtain ⟨k, hk, hfil⟩ := wardCorr ls.wards env1.uuidStart [] hwc hwi w hw
    have hkd : (mapGet (freshWardMap env1 ls) w.id).getD 0 = k := by
      show (mapGet (wardPairs ls.wards env1.uuidStart []) w.id).getD 0 = k
      rw [hk]
      rfl
    rw [hkd]
    exact hfil
  rw [uploadWards_update ls.wards
      (fun w => (mapGet (freshWardMap env1 ls) w.id).getD 0)
      (initUpState env2 (freshUploadRemote env1 ls)) rfl
      (freshWards_ids_nodup env1 ls) hfili]
  simp [initUpState, rerunSt1, rerunWardMap]

/-- Re-upload phase 2: the village phase updates every village in place. -/
theorem rerun_phase2 (env1 env2 : Env) (ls : LocalState)
    (hvc : (ls.villages.map (fun v => v.code)).Nodup)
    (hvi : (ls.villages.map (fun v => v.id)).Nodup)
    (hwi : (ls.wards.map (fun w => w.id)).Nodup)
    (hvw : ∀ v ∈ ls.villages, ∃ w ∈ ls.wards, w.id = v.wardId) :
    uploadVillages (rerunSt1 env1 env2 ls) ls.villages = rerunSt2 env1 env2 ls := by
  have hget : ∀ v ∈ ls.villages, mapGet (rerunSt1 env1 env2 ls).wardIdMap v.wardId
      = some ((mapGet (freshWardMap env1 ls) v.wardId).getD 0) := by
    intro v hv
    obtain ⟨w, hw, hwid⟩ := hvw v hv
    have h1 := rerunPairs_get (fun w => w.id)
      (fun w => (mapGet (freshWardMap env1 ls) w.id).getD 0) ls.wards [] w hw hwi
    rw [← hwid]
    exact h1
  have hfili : ∀ v ∈ ls.villages,
      (rerunSt1 env1 env2 ls).remote.villages.filter (fun rv => rv.code == v.code)
      = [villageToSupabase v ((mapGet (freshWardMap env1 ls) v.wardId).getD 0) none
          ((mapGet (freshVillageMap env1 ls) v.id).getD 0)] := by
    intro v hv
    obtain ⟨k, hk, hfil⟩ := villageCorr (freshWardMap env1 ls) ls.villages
      (env1.uuidStart + ls.wards.length) [] hvc hvi v hv
    have hkd : (mapGet (freshVillageMap env1 ls) v.id).getD 0 = k := by
      show (mapGet (villagePairs ls.villages (env1.uuidStart + ls.wards.length) [])
        v.id).getD 0 = k
      rw [hk]
      rfl
    rw [hkd]
    exact hfil
  rw [uploadVillages_update ls.villages
      (fun v => (mapGet (freshVillageMap env1 ls) v.id).getD 0)
      (fun v => (mapGet (freshWardMap env1 ls) v.wardId).getD 0)
      (rerunSt1 env1 env2 ls) rfl
      (freshVillages_ids_nodup env1 ls) hget hfili]
  simp [rerunSt1, rerunSt2, rerunVillageMap]

/-- Re-upload phase 3: the household phase merges every household in place
with identical column values. -/
theorem rerun_phase3 (env1 env2 : Env) (ls : LocalState)
    (hhc : (ls.households.map (fun h => h.code)).Nodup)
    (hhi : (ls.households.map (fun h => h.id)).Nodup)
    (hvi : (ls.villages.map (fun v => v.id)).Nodup)
    (hhv : ∀ h ∈ ls.households, ∃ v ∈ ls.villages, v.id = h.villageId) :
    uploadHouseholds (rerunSt2 env1 env2 ls) ls.households = rerunSt3 env1 env2 ls := by
  have hget : ∀ h ∈ ls.households, mapGet (rerunSt2 env1 env2 ls).villageIdMap h.villageId
      = some ((mapGet (freshVillageMap env1 ls) h.villageId).getD 0) := by
    intro h hh
    obtain ⟨v, hv, hvid⟩ := hhv h hh
    have h1 := rerunPairs_get (fun v => v.id)
      (fun v => (mapGet (freshVillageMap env1 ls) v.id).getD 0) ls.villages [] v hv hvi
    rw [← hvid]
    exact h1
  have hfili : ∀ h ∈ ls.households,
      (rerunSt2 env1 env2 ls).remote.households.filter (fun rh => rh.code == h.code)
      = [householdToSupabase h ((mapGet (freshVillageMap env1 ls) h.villageId).getD 0) none
          ((mapGet (freshHouseholdMap env1 ls) h.id).getD 0)] := by
    intro h hh
    obtain ⟨k, hk, hfil⟩ := householdCorr (freshVillageMap env1 ls) ls.households
      (env1.uuidStart + ls.wards.length + ls.villages.length) [] hhc hhi h hh
    have hkd : (mapGet (freshHouseholdMap env1 ls) h.id).getD 0 = k := by
      show (mapGet (householdPairs ls.households
        (env1.uuidStart + ls.wards.length + ls.villages.length) []) h.id).getD 0 = k
      rw [hk]
      rfl
    rw [hkd]
    exact hfil
  rw [uploadHouseholds_update ls.households
      (fun h => (mapGet (freshHouseholdMap env1 ls) h.id).getD 0)
      (fun h => (mapGet (freshVillageMap env1 ls) h.villageId).getD 0)
      (rerunSt2 env1 env2 ls) rfl
      (freshHouseholds_ids_nodup env1 ls) hget hfili]
  simp [rerunSt2, rerunSt3, rerunHouseholdMap]

/-- Re-upload phase 4: every citizen row is found by unique id and updated
in place; only `synced_at`, `device_id` and the attachment URLs change. -/
theorem rerun_phase4 (env1 env2 : Env) (ls : LocalState)
    (hcu : (ls.citizens.map (fun c => c.uniqueId)).Nodup)
    (hwi : (ls.wards.map (fun w => w.id)).Nodup)
    (hvi : (ls.villages.map (fun v => v.id)).Nodup)
    (hhi : (ls.households.map (fun h => h.id)).Nodup)
    (hch : ∀ c ∈ ls.citizens, (∃ h ∈ ls.households, h.id = c.householdId) ∧
      (∃ v ∈ ls.villages, v.id = c.villageId) ∧ (∃ w ∈ ls.wards, w.id = c.wardId)) :
    uploadCitizens env2 (rerunSt3 env1 env2 ls) ls.citizens =
      { rerunSt3 env1 env2 ls with
          remote := { freshUploadRemote env1 ls with
            citizens := (freshUploadRemote env1 ls).citizens.map (retimeCitizenRow env2)
            photos := citizenPhotos env2.now ls.citizens (freshUploadRemote env1 ls).photos
            fingerprints := citizenFingerprints env2.now ls.citizens
              (freshUploadRemote env1 ls).fingerprints }
          upCitizens := ls.citizens.length } := by
  have hfili : ∀ c ∈ ls.citizens, ∃ k,
      (rerunSt3 env1 env2 ls).remote.citizens.filter (fun rc => rc.unique_id == c.uniqueId)
        = [insertedCitizen env1 (freshHouseholdMap env1 ls) (freshVillageMap env1 ls)
            (freshWardMap env1 ls) c k] := by
    intro c hc
    exact citizenCorr env1 (freshHouseholdMap env1 ls) (freshVillageMap env1 ls)
      (freshWardMap env1 ls) ls.citizens
      (env1.uuidStart + ls.wards.length + ls.villages.length + ls.households.length)
      hcu c hc
  have hget : ∀ c ∈ ls.citizens,
      mapGet (rerunSt3 env1 env2 ls).householdIdMap c.householdId
        = some ((mapGet (freshHouseholdMap env1 ls) c.householdId).getD 0) ∧
      mapGet (rerunSt3 env1 env2 ls).villageIdMap c.villageId
        = some ((mapGet (freshVillageMap env1 ls) c.villageId).getD 0) ∧
      mapGet (rerunSt3 env1 env2 ls).wardIdMap c.wardId
        = some ((mapGet (freshWardMap env1 ls) c.wardId).getD 0) := by
    intro c hc
    obtain ⟨⟨h, hh, hhid⟩, ⟨v, hv, hvid⟩, ⟨w, hw, hwid⟩⟩ := hch c hc
    refine ⟨?_, ?_, ?_⟩
    · have h1 := rerunPairs_get (fun h => h.id)
        (fun h => (mapGet (freshHouseholdMap env1 ls) h.id).getD 0) ls.households [] h hh hhi
      rw [← hhid]
      exact h1
    · have h1 := rerunPairs_get (fun v => v.id)
        (fun v => (mapGet (freshVillageMap env1 ls) v.id).getD 0) ls.villages [] v hv hvi
      rw [← hvid]
      exact h1
    · have h1 := rerunPairs_get (fun w => w.id)
        (fun w => (mapGet (freshWardMap env1 ls) w.id).getD 0) ls.wards [] w hw hwi
      rw [← hwid]
      exact h1
  have hcov : ∀ rc ∈ (rerunSt3 env1 env2 ls).remote.citizens,
      rc.unique_id ∈ ls.citizens.map (fun c => c.uniqueId) := by
    intro rc hrc
    have h1 := List.mem_map_of_mem (fun rc => rc.unique_id) hrc
    rw [show ((rerunSt3 env1 env2 ls).remote.citizens.map (fun rc => rc.unique_id))
        = ls.citizens.map (fun c => c.uniqueId) from insertedCitizens_uids env1
          (freshHouseholdMap env1 ls) (freshVillageMap env1 ls) (freshWardMap env1 ls)
          ls.citizens _] at h1
    exact h1
  rw [uploadCitizens_update env1 env2 (freshHouseholdMap env1 ls) (freshVillageMap env1 ls)
      (freshWardMap env1 ls) ls.citizens (rerunSt3 env1 env2 ls) rfl rfl rfl hcu
      (freshCitizens_ids_nodup env1 ls) hfili hget]
  rw [show mapRetimeOn env2 (ls.citizens.map (fun c => c.uniqueId))
        (rerunSt3 env1 env2 ls).remote.citizens
      = (rerunSt3 env1 env2 ls).remote.citizens.map (retimeCitizenRow env2) from
      mapRetimeOn_full env2 _ _ hcov]
  rw [show (rerunSt3 env1 env2 ls).upCitizens = 0 from rfl, Nat.zero_add]
  rfl

/-- Second upload run into the remote state produced by a first upload: the
run succeeds, counts every record as uploaded again, and leaves the ward,
village and household tables byte-identical, but rewrites every citizen row
via `retimeCitizenRow` and re-adds both storage objects under the new
timestamp. -/
theorem syncToSupabase_rerun (env1 env2 : Env) (ls : LocalState)
    (henv2 : env2.online = true) (hwf : WellFormed ls) :
    syncToSupabase env2 ls (freshUploadRemote env1 ls) =
      ({ success := true
         uploaded := ⟨ls.wards.length, ls.villages.length, ls.households.length,
           ls.citizens.length⟩
         downloaded := ⟨0, 0, 0, 0⟩
         errors := [] },
       { freshUploadRemote env1 ls with
          citizens := (freshUploadRemote env1 ls).citizens.map (retimeCitizenRow env2)
          photos := citizenPhotos env2.now ls.citizens (freshUploadRemote env1 ls).photos
          fingerprints := citizenFingerprints env2.now ls.citizens
            (freshUploadRemote env1 ls).fingerprints }) := by
  obtain ⟨hwc, hvc, hhc, hcu, hwi, hvi, hhi, hvw, hhv, hch⟩ := hwf
  unfold syncToSupabase
  rw [henv2]
  dsimp only
  rw [rerun_phase1 env1 env2 ls hwc hwi, rerun_phase2 env1 env2 ls hvc hvi hwi hvw,
    rerun_phase3 env1 env2 ls hhc hhi hvi hhv,
    rerun_phase4 env1 env2 ls hcu hwi hvi hhi hch]
  rfl

/-- C2: the claim that running upload twice on unchanged local data
produces an identical remote state is refuted: on the sample dataset the
second run leaves every remote identifier in place, but the remote state
differs - the citizen row's `synced_at` moves from the first session's
timestamp to the second one's (and the attachment URLs are re-timestamped
likewise). -/
theorem c2_uploadIdempotence_counterexample :
    (syncToSupabase sampleEnv2 sampleLocal
        (syncToSupabase sampleEnv sampleLocal emptyRemote).2).2
      ≠ (syncToSupabase sampleEnv sampleLocal emptyRemote).2 ∧
    ((syncToSupabase sampleEnv sampleLocal emptyRemote).2.citizens.map
        (fun rc => rc.synced_at)
      = [some 1000]) ∧
    ((syncToSupabase sampleEnv2 sampleLocal
        (syncToSupabase sampleEnv sampleLocal emptyRemote).2).2.citizens.map
        (fun rc => rc.synced_at)
      = [some 2000]) ∧
    ((syncToSupabase sampleEnv2 sampleLocal
        (syncToSupabase sampleEnv sampleLocal emptyRemote).2).2.citizens.map
        (fun rc => rc.id)
      = (syncToSupabase sampleEnv sampleLocal emptyRemote).2.citizens.map
        (fun rc => rc.id)) ∧
    ((syncToSupabase sampleEnv2 sampleLocal
        (syncToSupabase sampleEnv sampleLocal emptyRemote).2).2.wards
      = (syncToSupabase sampleEnv sampleLocal emptyRemote).2.wards) := by
  decide

/-- C2 (amended): for every well-formed local dataset, a second upload run
into the remote state produced by a first run succeeds with no errors,
creates zero new remote records - every ward, village, household and
citizen resolves to its existing remote counterpart by natural key and is
updated in place under the same remote identifier, and the second run
still counts every record as uploaded - and the ward, village and
household tables come back identical; but the remote state is NOT
identical: every citizen row is rewritten with the second session's
`synced_at`, `device_id` and re-timestamped attachment URLs. -/
theorem c2_uploadIdempotence_amended (env1 env2 : Env) (ls : LocalState)
    (h1 : env1.online = true) (h2 : env2.online = true) (hwf : WellFormed ls) :
    (syncToSupabase env2 ls (syncToSupabase env1 ls emptyRemote).2).1.success = true ∧
    (syncToSupabase env2 ls (syncToSupabase env1 ls emptyRemote).2).1.errors = [] ∧
    (syncToSupabase env2 ls (syncToSupabase env1 ls emptyRemote).2).1.uploaded =
      ⟨ls.wards.length, ls.villages.length, ls.households.length,
        ls.citizens.length⟩ ∧
    (syncToSupabase env2 ls (syncToSupabase env1 ls emptyRemote).2).2.wards =
      (syncToSupabase env1 ls emptyRemote).2.wards ∧
    (syncToSupabase env2 ls (syncToSupabase env1 ls emptyRemote).2).2.villages =
      (syncToSupabase env1 ls emptyRemote).2.villages ∧
    (syncToSupabase env2 ls (syncToSupabase env1 ls emptyRemote).2).2.households =
      (syncToSupabase env1 ls emptyRemote).2.households ∧
    (syncToSupabase env2 ls (syncToSupabase env1 ls emptyRemote).2).2.citizens =
      (syncToSupabase env1 ls emptyRemote).2.citizens.map (retimeCitizenRow env2) ∧
    (syncToSupabase env2 ls (syncToSupabase env1 ls emptyRemote).2).2.citizens.map
        (fun rc => rc.id) =
      (syncToSupabase env1 ls emptyRemote).2.citizens.map (fun rc => rc.id) ∧
    (syncToSupabase env2 ls (syncToSupabase env1 ls emptyRemote).2).2.citizens.map
        (fun rc => rc.unique_id) =
      (syncToSupabase env1 ls emptyRemote).2.citizens.map (fun rc => rc.unique_id) := by
  rw [syncToSupabase_fresh env1 ls h1 hwf]
  dsimp only
  rw [syncToSupabase_rerun env1 env2 ls h2 hwf]
  refine ⟨rfl, rfl, rfl, rfl, rfl, rfl, rfl, ?_, ?_⟩
  · show ((freshUploadRemote env1 ls).citizens.map (retimeCitizenRow env2)).map
        (fun rc => rc.id)
      = (freshUploadRemote env1 ls).citizens.map (fun rc => rc.id)
    rw [List.map_map]
    apply List.map_congr_left
    intro rc _
    exact retimeCitizenRow_id env2 rc
  · show ((freshUploadRemote env1 ls).citizens.map (retimeCitizenRow env2)).map
        (fun rc => rc.unique_id)
      = (freshUploadRemote env1 ls).citizens.map (fun rc => rc.unique_id)
    rw [List.map_map]
    apply List.map_congr_left
    intro rc _
    exact retimeCitizenRow_uid env2 rc

/-- Witness for the amended C2 theorem at the sample dataset. -/
theorem c2_uploadIdempotence_amended_witness :
    (syncToSupabase sampleEnv2 sampleLocal
        (syncToSupabase sampleEnv sampleLocal emptyRemote).2).1.success = true ∧
    (syncToSupabase sampleEnv2 sampleLocal
        (syncToSupabase sampleEnv sampleLocal emptyRemote).2).1.errors = [] ∧
    (syncToSupabase sampleEnv2 sampleLocal
        (syncToSupabase sampleEnv sampleLocal emptyRemote).2).1.uploaded =
      ⟨sampleLocal.wards.length, sampleLocal.villages.length,
        sampleLocal.households.length, sampleLocal.citizens.length⟩ ∧
    (syncToSupabase sampleEnv2 sampleLocal
        (syncToSupabase sampleEnv sampleLocal emptyRemote).2).2.wards =
      (syncToSupabase sampleEnv sampleLocal emptyRemote).2.wards ∧
    (syncToSupabase sampleEnv2 sampleLocal
        (syncToSupabase sampleEnv sampleLocal emptyRemote).2).2.villages =
      (syncToSupabase sampleEnv sampleLocal emptyRemote).2.villages ∧
    (syncToSupabase sampleEnv2 sampleLocal
        (syncToSupabase sampleEnv sampleLocal emptyRemote).2).2.households =
      (syncToSupabase sampleEnv sampleLocal emptyRemote).2.households ∧
    (syncToSupabase sampleEnv2 sampleLocal
        (syncToSupabase sampleEnv sampleLocal emptyRemote).2).2.citizens =
      (syncToSupabase sampleEnv sampleLocal emptyRemote).2.citizens.map
        (retimeCitizenRow sampleEnv2) ∧
    (syncToSupabase sampleEnv2 sampleLocal
        (syncToSupabase sampleEnv sampleLocal emptyRemote).2).2.citizens.map
        (fun rc => rc.id) =
      (syncToSupabase sampleEnv sampleLocal emptyRemote).2.citizens.map
        (fun rc => rc.id) ∧
    (syncToSupabase sampleEnv2 sampleLocal
        (syncToSupabase sampleEnv sampleLocal emptyRemote).2).2.citizens.map
        (fun rc => rc.unique_id) =
      (syncToSupabase sampleEnv sampleLocal emptyRemote).2.citizens.map
        (fun rc => rc.unique_id) :=
  c2_uploadIdempotence_amended sampleEnv sampleEnv2 sampleLocal rfl rfl
    (by unfold WellFormed; decide)
